import Mathlib

/-!
# D-Bus message unserialization

A shallow embedding of `_dbus_bindings/message-get-args-impl.h`, the part of
dbus-python that maps the arguments of a D-Bus message to Python objects, and
theorems about it.

* The libdbus cursor (`DBusMessageIter`) is represented by the elements it
  still has to visit: `dbus_message_iter_next` is the tail of that list,
  `dbus_message_iter_recurse` the list of children of the current element.
* A function that returns `NULL` with a Python exception set returns
  `Except.error` with that exception.  Failure of a memory allocation
  (`PyList_New`, `PyDict_New`, `Py_BuildValue`, `PyInt_FromLong`, ...) is not
  modelled.
* A dictionary is the list of its items in the order in which their keys were
  first inserted.  `PyDict_SetItem` compares keys by Python equality, under
  which the doubles +0.0 and -0.0 are one key and a NaN is equal to no key.
  It fails for a key that cannot be hashed, a list or a dictionary; the key
  of a dict entry is of a basic type, so this failure is not modelled.
* For an array without elements `dbus_message_iter_get_fixed_array` hands
  back the NULL pointer, from which `Py_BuildValue` builds `None`.
* `variant_level` is a C `long` in the source; the nesting of a message is
  bounded by its length, far below `LONG_MAX`, and it is a `Nat` here.
-/

namespace DBusPython

/-! ## The type codes of `dbus-protocol.h` -/

def DBUS_TYPE_INVALID : Nat := 0
def DBUS_TYPE_BYTE : Nat := 121
def DBUS_TYPE_BOOLEAN : Nat := 98
def DBUS_TYPE_INT16 : Nat := 110
def DBUS_TYPE_UINT16 : Nat := 113
def DBUS_TYPE_INT32 : Nat := 105
def DBUS_TYPE_UINT32 : Nat := 117
def DBUS_TYPE_INT64 : Nat := 120
def DBUS_TYPE_UINT64 : Nat := 116
def DBUS_TYPE_DOUBLE : Nat := 100
def DBUS_TYPE_STRING : Nat := 115
def DBUS_TYPE_OBJECT_PATH : Nat := 111
def DBUS_TYPE_SIGNATURE : Nat := 103
def DBUS_TYPE_ARRAY : Nat := 97
def DBUS_TYPE_VARIANT : Nat := 118
def DBUS_TYPE_STRUCT : Nat := 114
def DBUS_TYPE_DICT_ENTRY : Nat := 101

/-! ## The wire side -/

/-- One element of a message body, as the libdbus cursor presents it.

Integer payloads are the mathematical value of the C object that
`dbus_message_iter_get_basic` fills in; string payloads are the bytes before
the terminating NUL; a double is its IEEE bit pattern.  An array carries the
signature of its element type, which the cursor knows also when the array is
empty; a variant holds exactly one value and a dict entry exactly a key and a
value.  `other type` is an element whose type code is none of the codes of
the other constructors (the optional `WITH_DBUS_FLOAT32` case of the source
is compiled out, as in the default build). -/
inductive Wire where
  | byte (y : Nat)
  | boolean (b : Nat)
  | int16 (i16 : Int)
  | uint16 (u16 : Nat)
  | int32 (i32 : Int)
  | uint32 (u32 : Nat)
  | int64 (i64 : Int)
  | uint64 (u64 : Nat)
  | double (d : Nat)
  | string (s : List Nat)
  | object_path (s : List Nat)
  | signature (s : List Nat)
  | array (elem_sig : List Char) (elems : List Wire)
  | struct (members : List Wire)
  | dict_entry (key value : Wire)
  | variant (inner : Wire)
  | other (type : Nat)

/-- The cursor: the elements from the current position to the end of the
container. -/
abbrev DBusMessageIter := List Wire

/-- The type code of an element. -/
def Wire.arg_type : Wire → Nat
  | .byte _ => DBUS_TYPE_BYTE
  | .boolean _ => DBUS_TYPE_BOOLEAN
  | .int16 _ => DBUS_TYPE_INT16
  | .uint16 _ => DBUS_TYPE_UINT16
  | .int32 _ => DBUS_TYPE_INT32
  | .uint32 _ => DBUS_TYPE_UINT32
  | .int64 _ => DBUS_TYPE_INT64
  | .uint64 _ => DBUS_TYPE_UINT64
  | .double _ => DBUS_TYPE_DOUBLE
  | .string _ => DBUS_TYPE_STRING
  | .object_path _ => DBUS_TYPE_OBJECT_PATH
  | .signature _ => DBUS_TYPE_SIGNATURE
  | .array _ _ => DBUS_TYPE_ARRAY
  | .struct _ => DBUS_TYPE_STRUCT
  | .dict_entry _ _ => DBUS_TYPE_DICT_ENTRY
  | .variant _ => DBUS_TYPE_VARIANT
  | .other type => type

/-- The type code at the cursor, `DBUS_TYPE_INVALID` at the end. -/
def dbus_message_iter_get_arg_type : DBusMessageIter → Nat
  | [] => DBUS_TYPE_INVALID
  | w :: _ => w.arg_type

/-- The libdbus call `dbus_message_iter_init`: false when the message has no
arguments. -/
def dbus_message_iter_init (body : List Wire) : Bool :=
  decide (dbus_message_iter_get_arg_type body ≠ DBUS_TYPE_INVALID)

/-- The first type code of an array's element signature: a dict entry is
written with a brace and a struct with a parenthesis. -/
def dbus_message_iter_get_element_type (elem_sig : List Char) : Nat :=
  match elem_sig with
  | [] => DBUS_TYPE_INVALID
  | c :: _ =>
    if c = '{' then DBUS_TYPE_DICT_ENTRY
    else if c = '(' then DBUS_TYPE_STRUCT
    else c.toNat

/-- The libdbus call `dbus_message_iter_get_signature` on a cursor that stands
on an array: the letter a followed by the element signature. -/
def dbus_message_iter_get_signature (elem_sig : List Char) : List Char :=
  'a' :: elem_sig

/-- The contiguous run of byte values the cursor stands on. -/
def byte_run : DBusMessageIter → List Nat
  | .byte y :: rest => y :: byte_run rest
  | _ => []

/-- Modelled from the spec: the libdbus call
`dbus_message_iter_get_fixed_array` on the cursor inside an array of bytes.
After section 6 it is the bulk read of the whole contiguous run of byte
values: it hands back a pointer to the block of raw bytes and their count.
For an empty array libdbus hands back the NULL pointer, here `none`, and the
count 0. -/
def dbus_message_iter_get_fixed_array (sub : DBusMessageIter) : Option (List Nat) × Nat :=
  match byte_run sub with
  | [] => (none, 0)
  | y :: block => (some (y :: block), (y :: block).length)

/-- A C string read up to its first NUL, as `strlen` and the `s` format of
`Py_BuildValue` do. -/
def c_str (s : List Nat) : List Nat :=
  s.takeWhile (fun b => b != 0)

/-! ## The C platform -/

/-- The parameters of the C implementation the source is compiled for. -/
structure Platform where
  /-- Width of `int`. -/
  int_bits : Nat
  /-- Width of `long` and `unsigned long`. -/
  long_bits : Nat
  /-- Whether `DBUS_HAVE_INT64` and `HAVE_LONG_LONG` are both defined. -/
  have_int64 : Bool

/-- Conversion to a signed integer type of the given width (two's complement
wrap-around). -/
def cast_signed (bits : Nat) (x : Int) : Int :=
  (x + 2 ^ (bits - 1)) % 2 ^ bits - 2 ^ (bits - 1)

/-- Conversion to an unsigned integer type of the given width. -/
def cast_unsigned (bits : Nat) (x : Int) : Int :=
  x % 2 ^ bits

/-! ## The Python side -/

/-- The argument `Py_BuildValue` builds for a constructor call; a float is the
IEEE bit pattern of the double, and `None` is the object the string formats
build from a NULL pointer. -/
inductive PyArg where
  | int (v : Int)
  | float (d : Nat)
  | str (bytes : List Nat)
  | unicode (text : List Nat)
  | None
  deriving DecidableEq, Repr

/-- The dbus-python types of the values built from one argument. -/
inductive PyType where
  | UTF8StringType
  | StringType
  | SignatureType
  | ObjectPathType
  | DoubleType
  | Int16Type
  | UInt16Type
  | Int32Type
  | UInt32Type
  | Int64Type
  | UInt64Type
  | ByteType
  | BooleanType
  | ByteArrayType
  deriving DecidableEq, Repr

/-- Modelled from the spec: the dbus-python value types (`Int16Type`,
`StringType`, `ArrayType`, `DictType`, `StructType`, ...) are defined in
other files of the package.  After section 3 (Decoded Value) a value is a
tagged union in which every scalar and every container carries a variant
depth, an array its element signature and a dictionary its entry signature.
A dictionary holds its items in insertion order of their keys. -/
inductive PyObj where
  | scalar (type : PyType) (arg : PyArg) (variant_level : Nat)
  | Array (items : List PyObj) (signature : List Char) (variant_level : Nat)
  | Dict (items : List (PyObj × PyObj)) (signature : List Char) (variant_level : Nat)
  | Struct (items : List PyObj) (variant_level : Nat)

/-- The exceptions the unserialization can raise. -/
inductive PyErr where
  /-- Raised with "get_args_list takes no positional arguments". -/
  | TypeError_positional
  /-- Raised by `PyArg_ParseTupleAndKeywords` for a keyword it does not know. -/
  | TypeError_keyword (name : String)
  /-- Raised by `PyArg_ParseTupleAndKeywords` for a value that is not an integer. -/
  | TypeError_integer_required
  /-- Raised by `PyArg_ParseTupleAndKeywords` for an integer that does not fit `int`. -/
  | OverflowError
  /-- The result of `DBusException_UnusableMessage()`. -/
  | UnusableMessage
  /-- Raised with "Unknown type ... in D-Bus message" and the type code. -/
  | TypeError_unknown_type (type : Nat)
  /-- Raised with "64-bit integers not supported on this platform". -/
  | RuntimeError_int64
  /-- Raised by `PyUnicode_DecodeUTF8` for bytes that are not UTF-8. -/
  | UnicodeDecodeError
  deriving DecidableEq, Repr

/-- The keyword dictionary passed to a constructor: the source only ever
stores `variant_level` and `signature` in it. -/
structure Kwargs where
  variant_level : Option Nat := none
  signature : Option (List Char) := none
  deriving DecidableEq, Repr

/-- The `variant_level` a constructor sees: 0 without keyword dictionary or
without that keyword. -/
def Kwargs.get_variant_level (kwargs : Option Kwargs) : Nat :=
  match kwargs with
  | none => 0
  | some kw => kw.variant_level.getD 0

/-- The `signature` a constructor sees, empty without that keyword. -/
def Kwargs.get_signature (kwargs : Option Kwargs) : List Char :=
  match kwargs with
  | none => []
  | some kw => kw.signature.getD []

/-! ### Equality of Python values -/

mutual
/-- Decision procedure for the equality of two values. -/
def PyObj.decEq : (a b : PyObj) → Decidable (a = b)
  | .scalar t1 a1 v1, .scalar t2 a2 v2 =>
    if h : t1 = t2 ∧ a1 = a2 ∧ v1 = v2 then
      isTrue (by obtain ⟨h1, h2, h3⟩ := h; subst h1; subst h2; subst h3; rfl)
    else isFalse (by intro e; cases e; exact h ⟨rfl, rfl, rfl⟩)
  | .Array i1 s1 v1, .Array i2 s2 v2 =>
    match PyObj.decEq_list i1 i2 with
    | isTrue hi =>
      if h : s1 = s2 ∧ v1 = v2 then
        isTrue (by obtain ⟨h2, h3⟩ := h; subst hi; subst h2; subst h3; rfl)
      else isFalse (by intro e; cases e; exact h ⟨rfl, rfl⟩)
    | isFalse hi => isFalse (by intro e; cases e; exact hi rfl)
  | .Dict i1 s1 v1, .Dict i2 s2 v2 =>
    match PyObj.decEq_items i1 i2 with
    | isTrue hi =>
      if h : s1 = s2 ∧ v1 = v2 then
        isTrue (by obtain ⟨h2, h3⟩ := h; subst hi; subst h2; subst h3; rfl)
      else isFalse (by intro e; cases e; exact h ⟨rfl, rfl⟩)
    | isFalse hi => isFalse (by intro e; cases e; exact hi rfl)
  | .Struct i1 v1, .Struct i2 v2 =>
    match PyObj.decEq_list i1 i2 with
    | isTrue hi =>
      if h : v1 = v2 then isTrue (by subst hi; subst h; rfl)
      else isFalse (by intro e; cases e; exact h rfl)
    | isFalse hi => isFalse (by intro e; cases e; exact hi rfl)
  | .scalar _ _ _, .Array _ _ _ => isFalse (by intro e; cases e)
  | .scalar _ _ _, .Dict _ _ _ => isFalse (by intro e; cases e)
  | .scalar _ _ _, .Struct _ _ => isFalse (by intro e; cases e)
  | .Array _ _ _, .scalar _ _ _ => isFalse (by intro e; cases e)
  | .Array _ _ _, .Dict _ _ _ => isFalse (by intro e; cases e)
  | .Array _ _ _, .Struct _ _ => isFalse (by intro e; cases e)
  | .Dict _ _ _, .scalar _ _ _ => isFalse (by intro e; cases e)
  | .Dict _ _ _, .Array _ _ _ => isFalse (by intro e; cases e)
  | .Dict _ _ _, .Struct _ _ => isFalse (by intro e; cases e)
  | .Struct _ _, .scalar _ _ _ => isFalse (by intro e; cases e)
  | .Struct _ _, .Array _ _ _ => isFalse (by intro e; cases e)
  | .Struct _ _, .Dict _ _ _ => isFalse (by intro e; cases e)
/-- Decision procedure for the equality of two lists of values. -/
def PyObj.decEq_list : (a b : List PyObj) → Decidable (a = b)
  | [], [] => isTrue rfl
  | [], _ :: _ => isFalse (by intro e; cases e)
  | _ :: _, [] => isFalse (by intro e; cases e)
  | a :: as, b :: bs =>
    match PyObj.decEq a b with
    | isTrue h1 =>
      match PyObj.decEq_list as bs with
      | isTrue h2 => isTrue (by subst h1; subst h2; rfl)
      | isFalse h2 => isFalse (by intro e; cases e; exact h2 rfl)
    | isFalse h1 => isFalse (by intro e; cases e; exact h1 rfl)
/-- Decision procedure for the equality of two lists of items. -/
def PyObj.decEq_items : (a b : List (PyObj × PyObj)) → Decidable (a = b)
  | [], [] => isTrue rfl
  | [], _ :: _ => isFalse (by intro e; cases e)
  | _ :: _, [] => isFalse (by intro e; cases e)
  | (k1, x1) :: as, (k2, x2) :: bs =>
    match PyObj.decEq k1 k2 with
    | isTrue h1 =>
      match PyObj.decEq x1 x2 with
      | isTrue h2 =>
        match PyObj.decEq_items as bs with
        | isTrue h3 => isTrue (by subst h1; subst h2; subst h3; rfl)
        | isFalse h3 => isFalse (by intro e; cases e; exact h3 rfl)
      | isFalse h2 => isFalse (by intro e; cases e; exact h2 rfl)
    | isFalse h1 => isFalse (by intro e; cases e; exact h1 rfl)
end

instance : DecidableEq PyObj := PyObj.decEq

instance {ε α : Type} [DecidableEq ε] [DecidableEq α] : DecidableEq (Except ε α)
  | .ok a, .ok b =>
    if h : a = b then isTrue (by rw [h]) else isFalse (by intro e; cases e; exact h rfl)
  | .error a, .error b =>
    if h : a = b then isTrue (by rw [h]) else isFalse (by intro e; cases e; exact h rfl)
  | .ok _, .error _ => isFalse (by intro e; cases e)
  | .error _, .ok _ => isFalse (by intro e; cases e)

/-- Modelled from the spec: the constructors of the one-argument value types
live in other files of the package.  After section 4.1 the value read from
the wire is wrapped with the current variant depth: the call records the
type, the argument and the `variant_level` keyword, which is 0 when no
keyword dictionary is passed. -/
def PyObject_Call (type : PyType) (args : PyArg) (kwargs : Option Kwargs) : PyObj :=
  .scalar type args (Kwargs.get_variant_level kwargs)

/-- The `(s#)` format of `Py_BuildValue`: a string of the `n` bytes at the
pointer, and `None` for the NULL pointer. -/
def Py_BuildValue_s_hash (s : Option (List Nat)) (n : Nat) : PyArg :=
  match s with
  | none => .None
  | some block => .str (block.take n)

/-- The string a `str` subclass holds when it is built from one argument: the
argument itself, and for `None` its text, the four bytes of the word None. -/
def str_new (args : PyArg) : PyArg :=
  match args with
  | .None => .str [78, 111, 110, 101]
  | a => a

/-- Modelled from the spec: the constructor of `ByteArrayType`, which lives in
another file of the package and is a subclass of `str`: the call records the
string built from the argument and the `variant_level` keyword. -/
def ByteArrayType_call (args : PyArg) (kwargs : Option Kwargs) : PyObj :=
  PyObject_Call .ByteArrayType (str_new args) kwargs

/-- Whether a byte is a UTF-8 continuation byte. -/
def utf8_cont (b : Nat) : Bool :=
  decide (0x80 ≤ b) && decide (b < 0xC0)

/-- The CPython call `PyUnicode_DecodeUTF8(s, strlen(s), NULL)` with strict
error handling, as a decoder of UTF-8 after RFC 3629: the code points of the
text, or `none` where CPython raises `UnicodeDecodeError`. -/
def PyUnicode_DecodeUTF8 : List Nat → Option (List Nat)
  | [] => some []
  | b0 :: rest =>
    if b0 < 0x80 then (PyUnicode_DecodeUTF8 rest).map (fun t => b0 :: t)
    else
      match rest with
      | [] => none
      | b1 :: rest1 =>
        if 0xC2 ≤ b0 ∧ b0 < 0xE0 then
          if utf8_cont b1 then
            (PyUnicode_DecodeUTF8 rest1).map
              (fun t => ((b0 - 0xC0) * 64 + (b1 - 0x80)) :: t)
          else none
        else
          match rest1 with
          | [] => none
          | b2 :: rest2 =>
            if 0xE0 ≤ b0 ∧ b0 < 0xF0 then
              if utf8_cont b1 ∧ utf8_cont b2
                  ∧ 0x800 ≤ (b0 - 0xE0) * 4096 + (b1 - 0x80) * 64 + (b2 - 0x80)
                  ∧ ¬ (0xD800 ≤ (b0 - 0xE0) * 4096 + (b1 - 0x80) * 64 + (b2 - 0x80)
                      ∧ (b0 - 0xE0) * 4096 + (b1 - 0x80) * 64 + (b2 - 0x80) < 0xE000) then
                (PyUnicode_DecodeUTF8 rest2).map
                  (fun t => ((b0 - 0xE0) * 4096 + (b1 - 0x80) * 64 + (b2 - 0x80)) :: t)
              else none
            else
              match rest2 with
              | [] => none
              | b3 :: rest3 =>
                if 0xF0 ≤ b0 ∧ b0 < 0xF5 then
                  if utf8_cont b1 ∧ utf8_cont b2 ∧ utf8_cont b3
                      ∧ 0x10000 ≤ (b0 - 0xF0) * 262144 + (b1 - 0x80) * 4096
                          + (b2 - 0x80) * 64 + (b3 - 0x80)
                      ∧ (b0 - 0xF0) * 262144 + (b1 - 0x80) * 4096
                          + (b2 - 0x80) * 64 + (b3 - 0x80) < 0x110000 then
                    (PyUnicode_DecodeUTF8 rest3).map
                      (fun t => ((b0 - 0xF0) * 262144 + (b1 - 0x80) * 4096
                          + (b2 - 0x80) * 64 + (b3 - 0x80)) :: t)
                  else none
                else none

/-! ### Keys of a dictionary -/

/-- Whether the double with this bit pattern is a NaN: all eleven exponent
bits set and a mantissa other than zero. -/
def double_is_nan (d : Nat) : Bool :=
  decide (d / 2 ^ 52 % 2 ^ 11 = 2047) && decide (d % 2 ^ 52 ≠ 0)

/-- Equality of two doubles given by their bit patterns, as IEEE 754 and with
it Python compare them: a NaN equals nothing, itself included, and the two
zeros, which differ in the sign bit only, are equal. -/
def double_eq (x y : Nat) : Bool :=
  !double_is_nan x && !double_is_nan y
    && (decide (x = y) || (decide (x % 2 ^ 63 = 0) && decide (y % 2 ^ 63 = 0)))

/-- Python equality of two constructor arguments of one kind.  The keys of one
dictionary all have the one key type of its signature, so arguments of two
different kinds never meet as keys; they are taken to differ. -/
def PyArg.py_eq : PyArg → PyArg → Bool
  | .int a, .int b => decide (a = b)
  | .float x, .float y => double_eq x y
  | .str s, .str t => decide (s = t)
  | .unicode s, .unicode t => decide (s = t)
  | .None, .None => true
  | _, _ => false

/-- Python equality of two keys, as a dictionary compares a key it is given
with a key it holds.  The keys of a message are values of a basic type, which
compare as the number or the string they are built from: the dbus-python type
and the `variant_level` attribute play no part.  Containers do not occur as
keys of a message; they are compared as values. -/
def PyObj.py_eq : PyObj → PyObj → Bool
  | .scalar _ a _, .scalar _ b _ => PyArg.py_eq a b
  | a, b => decide (a = b)

/-- Modelled from the spec: `PyDict_SetItem` on the items of a dictionary.
After section 4.2 it is plain mapping insertion: the value of a key equal to
one already present replaces the value held under that key, which is kept,
and any other key is added with its value.  Every key the loop inserts is an
object of its own, so a key is found by equality and never by identity.
The call fails only for a key that cannot be hashed, which is a list or a
dictionary, or when memory runs out: the keys of a message are of a basic
type, and exhausted memory is not modelled, so the status is always 0. -/
def PyDict_SetItem (d : List (PyObj × PyObj)) (key value : PyObj) : List (PyObj × PyObj) :=
  match d with
  | [] => [(key, value)]
  | (k, v) :: rest =>
    if k.py_eq key then (k, value) :: rest else (k, v) :: PyDict_SetItem rest key value

/-- Modelled from the spec: the lookup of a key in the items of a
dictionary, by a key that is an object of its own. -/
def PyDict_GetItem (d : List (PyObj × PyObj)) (key : PyObj) : Option PyObj :=
  match d with
  | [] => none
  | (k, v) :: rest => if k.py_eq key then some v else PyDict_GetItem rest key

/-! ## The unserialization -/

/-- The options of `get_args_list`, two C `int`s tested for being nonzero. -/
structure Message_get_args_options where
  byte_arrays : Int
  utf8_strings : Int
  deriving DecidableEq, Repr

/-- The head of `_message_iter_get_pyobject`: with a positive `variant_level`
and a type other than variant, a keyword dictionary that holds
`variant_level`; otherwise none (`NULL`). -/
def variant_level_kwargs (variant_level : Nat) (type : Nat) : Option Kwargs :=
  if variant_level > 0 ∧ type ≠ DBUS_TYPE_VARIANT then
    some { variant_level := some variant_level, signature := none }
  else none

/-- The statement `if (!kwargs) kwargs = PyDict_New();` followed by the
store of `signature`. -/
def kwargs_set_signature (kwargs : Option Kwargs) (sig : List Char) : Kwargs :=
  { (kwargs.getD { variant_level := none, signature := none }) with signature := some sig }

/-- The entry signature `_message_iter_get_dict` passes to `SignatureType`:
`sig_str+2` with length `strlen(sig_str)-3`. -/
def dict_signature (sig_str : List Char) : List Char :=
  (sig_str.drop 2).take (sig_str.length - 3)

/-- Modelled from the spec: the array `PyObject_Call(&ArrayType, empty_tuple,
kwargs)` creates, holding the items the loop has appended to it: an ordered
sequence annotated with its element signature and the variant depth. -/
def ArrayType_call (kwargs : Option Kwargs) (items : List PyObj) : PyObj :=
  .Array items (Kwargs.get_signature kwargs) (Kwargs.get_variant_level kwargs)

/-- Modelled from the spec: the dictionary `PyObject_Call(&DictType,
empty_tuple, kwargs)` creates, holding the items the loop has stored in it: a
mapping annotated with its entry signature and the variant depth. -/
def DictType_call (kwargs : Option Kwargs) (items : List (PyObj × PyObj)) : PyObj :=
  .Dict items (Kwargs.get_signature kwargs) (Kwargs.get_variant_level kwargs)

/-- Modelled from the spec: the struct `PyObject_Call(&StructType, tuple,
kwargs)` creates from the list of its members: a fixed-arity ordered sequence
with the variant depth. -/
def StructType_call (list : List PyObj) (kwargs : Option Kwargs) : PyObj :=
  .Struct list (Kwargs.get_variant_level kwargs)

mutual
/-- The function `_message_iter_get_pyobject` on the element the cursor
stands on. -/
def _message_iter_get_pyobject (P : Platform) (opts : Message_get_args_options) :
    Wire → Nat → Except PyErr PyObj
  | .string s, variant_level =>
    if opts.utf8_strings ≠ 0 then
      .ok (PyObject_Call .UTF8StringType (.str (c_str s))
        (variant_level_kwargs variant_level DBUS_TYPE_STRING))
    else
      match PyUnicode_DecodeUTF8 (c_str s) with
      | none => .error .UnicodeDecodeError
      | some text =>
        .ok (PyObject_Call .StringType (.unicode text)
          (variant_level_kwargs variant_level DBUS_TYPE_STRING))
  | .signature s, variant_level =>
    .ok (PyObject_Call .SignatureType (.str (c_str s))
      (variant_level_kwargs variant_level DBUS_TYPE_SIGNATURE))
  | .object_path s, variant_level =>
    .ok (PyObject_Call .ObjectPathType (.str (c_str s))
      (variant_level_kwargs variant_level DBUS_TYPE_OBJECT_PATH))
  | .double d, variant_level =>
    .ok (PyObject_Call .DoubleType (.float d)
      (variant_level_kwargs variant_level DBUS_TYPE_DOUBLE))
  | .int16 i16, variant_level =>
    .ok (PyObject_Call .Int16Type (.int (cast_signed P.int_bits i16))
      (variant_level_kwargs variant_level DBUS_TYPE_INT16))
  | .uint16 u16, variant_level =>
    .ok (PyObject_Call .UInt16Type (.int (cast_signed P.int_bits u16))
      (variant_level_kwargs variant_level DBUS_TYPE_UINT16))
  | .int32 i32, variant_level =>
    .ok (PyObject_Call .Int32Type (.int (cast_signed P.long_bits i32))
      (variant_level_kwargs variant_level DBUS_TYPE_INT32))
  | .uint32 u32, variant_level =>
    .ok (PyObject_Call .UInt32Type (.int (cast_unsigned P.long_bits u32))
      (variant_level_kwargs variant_level DBUS_TYPE_UINT32))
  | .int64 i64, variant_level =>
    if P.have_int64 then
      .ok (PyObject_Call .Int64Type (.int (cast_signed 64 i64))
        (variant_level_kwargs variant_level DBUS_TYPE_INT64))
    else .error .RuntimeError_int64
  | .uint64 u64, variant_level =>
    if P.have_int64 then
      .ok (PyObject_Call .UInt64Type (.int (cast_unsigned 64 u64))
        (variant_level_kwargs variant_level DBUS_TYPE_UINT64))
    else .error .RuntimeError_int64
  | .byte y, variant_level =>
    .ok (PyObject_Call .ByteType (.int (cast_signed P.long_bits y))
      (variant_level_kwargs variant_level DBUS_TYPE_BYTE))
  | .boolean b, variant_level =>
    .ok (PyObject_Call .BooleanType (.int (cast_signed P.long_bits b))
      (variant_level_kwargs variant_level DBUS_TYPE_BOOLEAN))
  | .array elem_sig sub, variant_level =>
    if dbus_message_iter_get_element_type elem_sig = DBUS_TYPE_DICT_ENTRY then
      -- the body of `_message_iter_get_dict(iter, opts, kwargs)`, which is
      -- `static inline`, with `kwargs` created when it was `NULL`
      match _message_iter_get_dict_entries P opts sub [] with
      | .error e => .error e
      | .ok items =>
        .ok (DictType_call
          (some (kwargs_set_signature (variant_level_kwargs variant_level DBUS_TYPE_ARRAY)
            (dict_signature (dbus_message_iter_get_signature elem_sig))))
          items)
    else if opts.byte_arrays ≠ 0
        ∧ dbus_message_iter_get_element_type elem_sig = DBUS_TYPE_BYTE then
      .ok (ByteArrayType_call
        (Py_BuildValue_s_hash (dbus_message_iter_get_fixed_array sub).1
          (dbus_message_iter_get_fixed_array sub).2)
        (variant_level_kwargs variant_level DBUS_TYPE_ARRAY))
    else
      match _message_iter_append_all_to_list P opts sub [] with
      | .error e => .error e
      | .ok items =>
        .ok (ArrayType_call
          (some (kwargs_set_signature (variant_level_kwargs variant_level DBUS_TYPE_ARRAY)
            elem_sig))
          items)
  | .struct sub, variant_level =>
    match _message_iter_append_all_to_list P opts sub [] with
    | .error e => .error e
    | .ok list =>
      .ok (StructType_call list (variant_level_kwargs variant_level DBUS_TYPE_STRUCT))
  | .variant sub, variant_level =>
    _message_iter_get_pyobject P opts sub (variant_level + 1)
  | .dict_entry _ _, _ => .error (.TypeError_unknown_type DBUS_TYPE_DICT_ENTRY)
  | .other type, _ => .error (.TypeError_unknown_type type)
/-- The function `_message_iter_append_all_to_list`: the list with the value
of every element from the cursor to the end appended. -/
def _message_iter_append_all_to_list (P : Platform) (opts : Message_get_args_options) :
    DBusMessageIter → List PyObj → Except PyErr (List PyObj)
  | [], list => .ok list
  | w :: rest, list =>
    if w.arg_type = DBUS_TYPE_INVALID then .ok list
    else
      match _message_iter_get_pyobject P opts w 0 with
      | .error e => .error e
      | .ok item => _message_iter_append_all_to_list P opts rest (list ++ [item])
/-- The loop of `_message_iter_get_dict` over the cursor `entries`, on the
items of the dictionary built so far. -/
def _message_iter_get_dict_entries (P : Platform) (opts : Message_get_args_options) :
    DBusMessageIter → List (PyObj × PyObj) → Except PyErr (List (PyObj × PyObj))
  | .dict_entry kv_key kv_value :: rest, ret =>
    match _message_iter_get_pyobject P opts kv_key 0 with
    | .error e => .error e
    | .ok key =>
      match _message_iter_get_pyobject P opts kv_value 0 with
      | .error e => .error e
      | .ok value =>
        _message_iter_get_dict_entries P opts rest (PyDict_SetItem ret key value)
  | _, ret => .ok ret
end

/-- The function `_message_iter_get_dict` for a cursor that stands on an
array with element signature `elem_sig` and entries `entries`: the signature
is stored in `kwargs`, the dictionary created and the entries stored in it. -/
def _message_iter_get_dict (P : Platform) (opts : Message_get_args_options)
    (elem_sig : List Char) (entries : DBusMessageIter) (kwargs : Kwargs) :
    Except PyErr PyObj :=
  match _message_iter_get_dict_entries P opts entries [] with
  | .error e => .error e
  | .ok items =>
    .ok (DictType_call
      (some (kwargs_set_signature (some kwargs)
        (dict_signature (dbus_message_iter_get_signature elem_sig))))
      items)

/-- The Python object that owns a message: `msg` is `NULL` once the message
has been invalidated. -/
structure Message where
  msg : Option (List Wire)

/-- The `i` format of `PyArg_ParseTupleAndKeywords`: a Python integer that
fits a C `int`. -/
def parse_int (P : Platform) (v : PyArg) : Except PyErr Int :=
  match v with
  | .int n =>
    if -(2 ^ (P.int_bits - 1)) ≤ n ∧ n < 2 ^ (P.int_bits - 1) then .ok n
    else .error .OverflowError
  | _ => .error .TypeError_integer_required

/-- One optional keyword of the format `"|ii"`: the parsed value when the
keyword is present, the initial value otherwise. -/
def parse_keyword (P : Platform) (kwargs : List (String × PyArg)) (name : String)
    (initial : Int) : Except PyErr Int :=
  match kwargs.lookup name with
  | none => .ok initial
  | some v => parse_int P v

/-- The CPython call `PyArg_ParseTupleAndKeywords(args, kwargs,
"|ii:get_args_list", argnames, ...)` with an empty `args`: both keywords are
optional integers, any other keyword is an error. -/
def PyArg_ParseTupleAndKeywords (P : Platform) (kwargs : List (String × PyArg))
    (opts : Message_get_args_options) : Except PyErr Message_get_args_options :=
  match parse_keyword P kwargs "byte_arrays" opts.byte_arrays with
  | .error e => .error e
  | .ok byte_arrays =>
    match parse_keyword P kwargs "utf8_strings" opts.utf8_strings with
    | .error e => .error e
    | .ok utf8_strings =>
      match kwargs.find? (fun kv => kv.1 != "byte_arrays" && kv.1 != "utf8_strings") with
      | some kv => .error (.TypeError_keyword kv.1)
      | none => .ok { byte_arrays := byte_arrays, utf8_strings := utf8_strings }

/-- The method `Message_get_args_list(self, args, kwargs)`. -/
def Message_get_args_list (P : Platform) (self : Message) (args : List PyArg)
    (kwargs : List (String × PyArg)) : Except PyErr (List PyObj) :=
  if args.length ≠ 0 then .error .TypeError_positional
  else
    match PyArg_ParseTupleAndKeywords P kwargs { byte_arrays := 0, utf8_strings := 0 } with
    | .error e => .error e
    | .ok opts =>
      match self.msg with
      | none => .error .UnusableMessage
      | some body =>
        if dbus_message_iter_init body then
          match _message_iter_append_all_to_list P opts body [] with
          | .error e => .error e
          | .ok list => .ok list
        else .ok []

/-! ## Notions used to state the properties -/

/-- The variant depth recorded in a value. -/
def PyObj.variant_level : PyObj → Nat
  | .scalar _ _ variant_level => variant_level
  | .Array _ _ variant_level => variant_level
  | .Dict _ _ variant_level => variant_level
  | .Struct _ variant_level => variant_level

/-- The same underlying value with another recorded variant depth. -/
def PyObj.with_variant_level (n : Nat) : PyObj → PyObj
  | .scalar type arg _ => .scalar type arg n
  | .Array items signature _ => .Array items signature n
  | .Dict items signature _ => .Dict items signature n
  | .Struct items _ => .Struct items n

/-- An element wrapped in `n` nested variant envelopes. -/
def wrap_variants : Nat → Wire → Wire
  | 0, v => v
  | n + 1, v => .variant (wrap_variants n v)

/-- The case labels of the switch in `_message_iter_get_pyobject`. -/
def recognised_types : List Nat :=
  [DBUS_TYPE_STRING, DBUS_TYPE_SIGNATURE, DBUS_TYPE_OBJECT_PATH, DBUS_TYPE_DOUBLE,
   DBUS_TYPE_INT16, DBUS_TYPE_UINT16, DBUS_TYPE_INT32, DBUS_TYPE_UINT32,
   DBUS_TYPE_INT64, DBUS_TYPE_UINT64, DBUS_TYPE_BYTE, DBUS_TYPE_BOOLEAN,
   DBUS_TYPE_ARRAY, DBUS_TYPE_STRUCT, DBUS_TYPE_VARIANT]

/-- The dict entries of a list of key and value elements. -/
def dict_entries (pairs : List (Wire × Wire)) : List Wire :=
  pairs.map (fun p => .dict_entry p.1 p.2)

/-- Insertion of a list of items into a dictionary, in order. -/
def insert_all (d : List (PyObj × PyObj)) (decoded : List (PyObj × PyObj)) :
    List (PyObj × PyObj) :=
  decoded.foldl (fun acc q => PyDict_SetItem acc q.1 q.2) d

/-- Platform with a 32-bit `int`, a 64-bit `long` and 64-bit integer support. -/
def lp64 : Platform := { int_bits := 32, long_bits := 64, have_int64 := true }

/-- Platform with 32-bit `int` and `long` and no 64-bit integer support. -/
def ilp32_no_int64 : Platform := { int_bits := 32, long_bits := 32, have_int64 := false }

/-- The options `get_args_list` starts from. -/
def default_opts : Message_get_args_options := { byte_arrays := 0, utf8_strings := 0 }

/-- Whether a value is a raw-text value: an 8-bit string. -/
def PyObj.is_raw_text : PyObj → Bool
  | .scalar _ (.str _) _ => true
  | _ => false

/-- Whether a value is a validated text value: a unicode string. -/
def PyObj.is_validated_text : PyObj → Bool
  | .scalar _ (.unicode _) _ => true
  | _ => false

/-- The UTF-8 encoding of a text given by its code points (RFC 3629), as
`PyUnicode_AsUTF8String` computes it. -/
def utf8_encode : List Nat → List Nat
  | [] => []
  | c :: rest =>
    (if c < 0x80 then [c]
     else if c < 0x800 then [0xC0 + c / 64, 0x80 + c % 64]
     else if c < 0x10000 then [0xE0 + c / 4096, 0x80 + c / 64 % 64, 0x80 + c % 64]
     else [0xF0 + c / 262144, 0x80 + c / 4096 % 64, 0x80 + c / 64 % 64, 0x80 + c % 64])
    ++ utf8_encode rest

/-- The well-formed UTF-8 byte sequences, after the table of RFC 3629 and of
the Unicode standard: the ranges allowed for the bytes that follow each lead
byte. -/
def valid_utf8 : List Nat → Bool
  | [] => true
  | b0 :: rest =>
    if b0 ≤ 0x7F then valid_utf8 rest
    else
      match rest with
      | [] => false
      | b1 :: rest1 =>
        if 0xC2 ≤ b0 ∧ b0 ≤ 0xDF then
          decide (0x80 ≤ b1 ∧ b1 ≤ 0xBF) && valid_utf8 rest1
        else
          match rest1 with
          | [] => false
          | b2 :: rest2 =>
            if 0xE0 ≤ b0 ∧ b0 ≤ 0xEF then
              decide ((if b0 = 0xE0 then 0xA0 else 0x80) ≤ b1
                ∧ b1 ≤ (if b0 = 0xED then 0x9F else 0xBF)
                ∧ 0x80 ≤ b2 ∧ b2 ≤ 0xBF) && valid_utf8 rest2
            else
              match rest2 with
              | [] => false
              | b3 :: rest3 =>
                if 0xF0 ≤ b0 ∧ b0 ≤ 0xF4 then
                  decide ((if b0 = 0xF0 then 0x90 else 0x80) ≤ b1
                    ∧ b1 ≤ (if b0 = 0xF4 then 0x8F else 0xBF)
                    ∧ 0x80 ≤ b2 ∧ b2 ≤ 0xBF ∧ 0x80 ≤ b3 ∧ b3 ≤ 0xBF) && valid_utf8 rest3
                else false

/-- The errors raised for the arguments of `get_args_list` themselves, before
the message is looked at. -/
def PyErr.is_invalid_argument : PyErr → Bool
  | .TypeError_positional => true
  | .TypeError_keyword _ => true
  | .TypeError_integer_required => true
  | .OverflowError => true
  | _ => false

/-- The error an element raises by itself, whatever it contains: a string
that is not UTF-8 when text is asked for, a 64-bit integer on a platform
without them, an element of unknown type. -/
def leaf_error (P : Platform) (opts : Message_get_args_options) : Wire → Option PyErr
  | .string s =>
    if opts.utf8_strings ≠ 0 then none
    else if valid_utf8 (c_str s) then none else some .UnicodeDecodeError
  | .int64 _ => if P.have_int64 then none else some .RuntimeError_int64
  | .uint64 _ => if P.have_int64 then none else some .RuntimeError_int64
  | .other type => some (.TypeError_unknown_type type)
  | _ => none

mutual
/-- The elements of the tree below and including an element, in
left-to-right depth-first order. -/
def Wire.elements : Wire → List Wire
  | .array elem_sig elems => .array elem_sig elems :: Wire.elements_list elems
  | .struct members => .struct members :: Wire.elements_list members
  | .dict_entry key value => .dict_entry key value :: (key.elements ++ value.elements)
  | .variant inner => .variant inner :: inner.elements
  | .byte y => [.byte y]
  | .boolean b => [.boolean b]
  | .int16 i => [.int16 i]
  | .uint16 u => [.uint16 u]
  | .int32 i => [.int32 i]
  | .uint32 u => [.uint32 u]
  | .int64 i => [.int64 i]
  | .uint64 u => [.uint64 u]
  | .double d => [.double d]
  | .string s => [.string s]
  | .object_path s => [.object_path s]
  | .signature s => [.signature s]
  | .other type => [.other type]
/-- The elements of the trees of a list of elements, in left-to-right
depth-first order. -/
def Wire.elements_list : List Wire → List Wire
  | [] => []
  | w :: rest => w.elements ++ Wire.elements_list rest
end

mutual
/-- Well-formedness of an element as libdbus presents validated messages: the
elements of an array have the element type of the array, a dict entry occurs
only as an element of an array of dict entries, and the type code of an
element of unknown type is none of the known codes nor the end marker. -/
def Wire.well_formed : Wire → Bool
  | .array elem_sig elems =>
    Wire.well_formed_elems (dbus_message_iter_get_element_type elem_sig) elems
  | .struct members => Wire.well_formed_list members
  | .variant inner => inner.well_formed
  | .dict_entry _ _ => false
  | .other type =>
    decide (type ∉ DBUS_TYPE_INVALID :: DBUS_TYPE_DICT_ENTRY :: recognised_types)
  | .byte _ => true
  | .boolean _ => true
  | .int16 _ => true
  | .uint16 _ => true
  | .int32 _ => true
  | .uint32 _ => true
  | .int64 _ => true
  | .uint64 _ => true
  | .double _ => true
  | .string _ => true
  | .object_path _ => true
  | .signature _ => true
/-- Well-formedness of the members of a struct or of the body of a
message. -/
def Wire.well_formed_list : List Wire → Bool
  | [] => true
  | w :: rest => w.well_formed && Wire.well_formed_list rest
/-- Well-formedness of the elements of an array with element type `type`. -/
def Wire.well_formed_elems (type : Nat) : List Wire → Bool
  | [] => true
  | .dict_entry key value :: rest =>
    decide (type = DBUS_TYPE_DICT_ENTRY) && key.well_formed && value.well_formed
      && Wire.well_formed_elems type rest
  | w :: rest =>
    decide (w.arg_type = type) && w.well_formed && Wire.well_formed_elems type rest
end

/-- The exception of a failed call, if it failed. -/
def error_of {α : Type} : Except PyErr α → Option PyErr
  | .error e => some e
  | .ok _ => none

/-! ### The cursors as state -/

/-- The libdbus call `dbus_message_iter_next`: the cursor moves to the next
element. -/
def dbus_message_iter_next : DBusMessageIter → DBusMessageIter
  | [] => []
  | _ :: rest => rest

/-- The libdbus call `dbus_message_iter_recurse`: a new cursor over the
contents of the container the cursor stands on. -/
def dbus_message_iter_recurse : DBusMessageIter → DBusMessageIter
  | .array _ elems :: _ => elems
  | .struct members :: _ => members
  | .dict_entry key value :: _ => [key, value]
  | .variant inner :: _ => [inner]
  | _ => []

/-- The function `_message_iter_get_pyobject` as a function of the cursor
`iter` it is given: its result and the cursor after the call. The function
passes `iter` to the reading calls of libdbus only (`get_arg_type`,
`get_basic`, `get_element_type`, `get_signature`, `recurse`); every
`dbus_message_iter_next` below it is on a cursor made by
`dbus_message_iter_recurse`. At the end of a container the type is
`DBUS_TYPE_INVALID` and the switch takes its default case. -/
def _message_iter_get_pyobject_cursor (P : Platform) (opts : Message_get_args_options)
    (iter : DBusMessageIter) (variant_level : Nat) : Except PyErr PyObj × DBusMessageIter :=
  match iter with
  | [] => (.error (.TypeError_unknown_type DBUS_TYPE_INVALID), iter)
  | w :: _ => (_message_iter_get_pyobject P opts w variant_level, iter)

/-- The function `_message_iter_append_all_to_list` with all the state it
changes: the status it returns, the list and the cursor after the call. -/
def _message_iter_append_all_to_list_cursor (P : Platform)
    (opts : Message_get_args_options) (iter : DBusMessageIter) (list : List PyObj) :
    Except PyErr Unit × List PyObj × DBusMessageIter :=
  if dbus_message_iter_get_arg_type iter = DBUS_TYPE_INVALID then (.ok (), list, iter)
  else
    match (_message_iter_get_pyobject_cursor P opts iter 0).1 with
    | .error e => (.error e, list, (_message_iter_get_pyobject_cursor P opts iter 0).2)
    | .ok item =>
      _message_iter_append_all_to_list_cursor P opts
        (dbus_message_iter_next (_message_iter_get_pyobject_cursor P opts iter 0).2)
        (list ++ [item])
termination_by iter.length
decreasing_by
  cases iter with
  | nil => simp [dbus_message_iter_get_arg_type] at *
  | cons w rest => simp [_message_iter_get_pyobject_cursor, dbus_message_iter_next]

/-- The body of the loop of `_message_iter_get_dict` on the cursor `kv` of
one entry: the key and the value, and the cursor `kv` after them. -/
def _message_iter_get_dict_kv_cursor (P : Platform) (opts : Message_get_args_options)
    (kv : DBusMessageIter) : Except PyErr (PyObj × PyObj) × DBusMessageIter :=
  match (_message_iter_get_pyobject_cursor P opts kv 0).1 with
  | .error e => (.error e, (_message_iter_get_pyobject_cursor P opts kv 0).2)
  | .ok key =>
    match (_message_iter_get_pyobject_cursor P opts
        (dbus_message_iter_next (_message_iter_get_pyobject_cursor P opts kv 0).2) 0).1 with
    | .error e =>
      (.error e, (_message_iter_get_pyobject_cursor P opts
        (dbus_message_iter_next (_message_iter_get_pyobject_cursor P opts kv 0).2) 0).2)
    | .ok value =>
      (.ok (key, value), (_message_iter_get_pyobject_cursor P opts
        (dbus_message_iter_next (_message_iter_get_pyobject_cursor P opts kv 0).2) 0).2)

/-- The loop of `_message_iter_get_dict` with all the state it changes: the
status, the items of the dictionary and the cursor `entries` after the
loop. -/
def _message_iter_get_dict_entries_cursor (P : Platform) (opts : Message_get_args_options)
    (entries : DBusMessageIter) (ret : List (PyObj × PyObj)) :
    Except PyErr Unit × List (PyObj × PyObj) × DBusMessageIter :=
  if dbus_message_iter_get_arg_type entries = DBUS_TYPE_DICT_ENTRY then
    match (_message_iter_get_dict_kv_cursor P opts (dbus_message_iter_recurse entries)).1 with
    | .error e => (.error e, ret, entries)
    | .ok (key, value) =>
      _message_iter_get_dict_entries_cursor P opts (dbus_message_iter_next entries)
        (PyDict_SetItem ret key value)
  else (.ok (), ret, entries)
termination_by entries.length
decreasing_by
  cases entries with
  | nil => simp [dbus_message_iter_get_arg_type, DBUS_TYPE_INVALID, DBUS_TYPE_DICT_ENTRY] at *
  | cons w rest => simp [dbus_message_iter_next]

mutual
/-- Whether every byte array inside a value, at whatever depth, has the one
representation selected by `raw`: with `raw` no array whose element type is
byte occurs in the value, without `raw` no `ByteArray` occurs in it. -/
def PyObj.byte_arrays_as (raw : Bool) : PyObj → Bool
  | .scalar type _ _ => raw || decide (type ≠ .ByteArrayType)
  | .Array items signature _ =>
    (!raw || decide (dbus_message_iter_get_element_type signature ≠ DBUS_TYPE_BYTE))
      && PyObj.byte_arrays_as_list raw items
  | .Dict items _ _ => PyObj.byte_arrays_as_items raw items
  | .Struct items _ => PyObj.byte_arrays_as_list raw items
/-- The same for every value of a list. -/
def PyObj.byte_arrays_as_list (raw : Bool) : List PyObj → Bool
  | [] => true
  | x :: rest => PyObj.byte_arrays_as raw x && PyObj.byte_arrays_as_list raw rest
/-- The same for every key and every value of the items of a dictionary. -/
def PyObj.byte_arrays_as_items (raw : Bool) : List (PyObj × PyObj) → Bool
  | [] => true
  | (k, v) :: rest =>
    PyObj.byte_arrays_as raw k && PyObj.byte_arrays_as raw v
      && PyObj.byte_arrays_as_items raw rest
end

/-! ### Positions inside an element -/

/-- One step from an element to an element inside it. -/
inductive Step where
  /-- To element `i` of an array decoded element by element, or to member `i`
  of a struct. -/
  | index (i : Nat)
  /-- To the value of entry `i` of a dictionary, which the mapping holds under
  `key`. -/
  | value (i : Nat) (key : PyObj)
  /-- To the value inside a variant. -/
  | variant

/-- The element one step inside an element. -/
def Wire.child : Step → Wire → Option Wire
  | .index i, .array _ elems => elems[i]?
  | .index i, .struct members => members[i]?
  | .value i _, .array _ elems =>
    match elems[i]? with
    | some (.dict_entry _ value) => some value
    | _ => none
  | .variant, .variant inner => some inner
  | _, _ => none

/-- The value one step inside a decoded value; a variant leaves no value of
its own, so the step into a variant stays at the value. -/
def PyObj.child : Step → PyObj → Option PyObj
  | .index i, .Array items _ _ => items[i]?
  | .index i, .Struct items _ => items[i]?
  | .value _ key, .Dict items _ _ => PyDict_GetItem items key
  | .variant, r => some r
  | _, _ => none

/-- The element at the end of a path of steps. -/
def Wire.at_path : List Step → Wire → Option Wire
  | [], w => some w
  | s :: p, w =>
    match Wire.child s w with
    | none => none
    | some c => Wire.at_path p c

/-- The value at the end of a path of steps. -/
def PyObj.at_path : List Step → PyObj → Option PyObj
  | [], r => some r
  | s :: p, r =>
    match PyObj.child s r with
    | none => none
    | some c => PyObj.at_path p c

/-- The variant level of the element one step inside an element of variant
level `d`: one more inside a variant, 0 inside a container. -/
def step_level : Step → Nat → Nat
  | .variant, d => d + 1
  | _, _ => 0

/-- The variant level of the element at the end of a path that starts at an
element of variant level `d`. -/
def path_level : List Step → Nat → Nat
  | [], d => d
  | s :: p, d => path_level p (step_level s d)

/-- The steps that lead to a position of the decoded value.  A step by index
into an array needs an array that is decoded element by element: no
dictionary, and no array of bytes when `byte_arrays` is set.  A step to the
value of entry `i` of a dictionary needs `key` to be the decoded key of that
entry, equal to itself, and no later entry with a key equal to it, which
would replace the value. -/
def step_ok (P : Platform) (opts : Message_get_args_options) : Step → Wire → Prop
  | .index _, .array elem_sig _ =>
    dbus_message_iter_get_element_type elem_sig ≠ DBUS_TYPE_DICT_ENTRY
      ∧ ¬ (opts.byte_arrays ≠ 0
        ∧ dbus_message_iter_get_element_type elem_sig = DBUS_TYPE_BYTE)
  | .value i key, .array elem_sig elems =>
    dbus_message_iter_get_element_type elem_sig = DBUS_TYPE_DICT_ENTRY
      ∧ (∃ k v, elems[i]? = some (.dict_entry k v)
          ∧ _message_iter_get_pyobject P opts k 0 = .ok key)
      ∧ key.py_eq key = true
      ∧ ∀ (j : Nat) (k v : Wire) (key2 : PyObj), i < j →
          elems[j]? = some (.dict_entry k v) →
          _message_iter_get_pyobject P opts k 0 = .ok key2 → key2.py_eq key = false
  | _, _ => True

/-- A path all of whose steps lead to a position of the decoded value. -/
def path_ok (P : Platform) (opts : Message_get_args_options) : List Step → Wire → Prop
  | [], _ => True
  | s :: p, w => step_ok P opts s w ∧ ∀ c, Wire.child s w = some c → path_ok P opts p c

/-! ## Lemmas -/

theorem get_variant_level_kwargs (variant_level type : Nat)
    (h : type ≠ DBUS_TYPE_VARIANT) :
    Kwargs.get_variant_level (variant_level_kwargs variant_level type) = variant_level := by
  unfold variant_level_kwargs
  by_cases hv : variant_level > 0
  · simp [hv, h, Kwargs.get_variant_level]
  · have : variant_level = 0 := by omega
    simp [this, Kwargs.get_variant_level]

theorem get_variant_level_set_signature (kwargs : Option Kwargs) (sig : List Char) :
    Kwargs.get_variant_level (some (kwargs_set_signature kwargs sig))
      = Kwargs.get_variant_level kwargs := by
  cases kwargs <;> simp [Kwargs.get_variant_level, kwargs_set_signature]

theorem get_signature_set_signature (kwargs : Option Kwargs) (sig : List Char) :
    Kwargs.get_signature (some (kwargs_set_signature kwargs sig)) = sig := by
  cases kwargs <;> simp [Kwargs.get_signature, kwargs_set_signature]

/-- A scalar constructor records the variant level it was called for. -/
theorem PyObject_Call_kwargs (t : PyType) (a : PyArg) (variant_level type : Nat)
    (h : type ≠ DBUS_TYPE_VARIANT) :
    PyObject_Call t a (variant_level_kwargs variant_level type)
      = .scalar t a variant_level := by
  simp [PyObject_Call, get_variant_level_kwargs _ _ h]

/-- The constructor of a byte array records the string built from its
argument and the variant level it was called for. -/
theorem ByteArrayType_call_kwargs (a : PyArg) (variant_level type : Nat)
    (h : type ≠ DBUS_TYPE_VARIANT) :
    ByteArrayType_call a (variant_level_kwargs variant_level type)
      = .scalar .ByteArrayType (str_new a) variant_level := by
  simp [ByteArrayType_call, PyObject_Call, get_variant_level_kwargs _ _ h]

theorem ArrayType_call_kwargs (variant_level : Nat) (sig : List Char) (items : List PyObj) :
    ArrayType_call (some (kwargs_set_signature
        (variant_level_kwargs variant_level DBUS_TYPE_ARRAY) sig)) items
      = .Array items sig variant_level := by
  simp [ArrayType_call, get_variant_level_set_signature, get_signature_set_signature,
    get_variant_level_kwargs _ _ (show DBUS_TYPE_ARRAY ≠ DBUS_TYPE_VARIANT by decide)]

theorem DictType_call_kwargs (variant_level : Nat) (sig : List Char)
    (items : List (PyObj × PyObj)) :
    DictType_call (some (kwargs_set_signature
        (variant_level_kwargs variant_level DBUS_TYPE_ARRAY) sig)) items
      = .Dict items sig variant_level := by
  simp [DictType_call, get_variant_level_set_signature, get_signature_set_signature,
    get_variant_level_kwargs _ _ (show DBUS_TYPE_ARRAY ≠ DBUS_TYPE_VARIANT by decide)]

theorem StructType_call_kwargs (variant_level : Nat) (list : List PyObj) :
    StructType_call list (variant_level_kwargs variant_level DBUS_TYPE_STRUCT)
      = .Struct list variant_level := by
  simp [StructType_call,
    get_variant_level_kwargs _ _ (show DBUS_TYPE_STRUCT ≠ DBUS_TYPE_VARIANT by decide)]

/-- The variant case: the contained value is decoded one level deeper. -/
theorem get_pyobject_variant (P : Platform) (opts : Message_get_args_options)
    (w : Wire) (variant_level : Nat) :
    _message_iter_get_pyobject P opts (.variant w) variant_level
      = _message_iter_get_pyobject P opts w (variant_level + 1) := by
  rw [_message_iter_get_pyobject]

theorem get_pyobject_wrap_variants (P : Platform) (opts : Message_get_args_options)
    (n : Nat) (v : Wire) (d : Nat) :
    _message_iter_get_pyobject P opts (wrap_variants n v) d
      = _message_iter_get_pyobject P opts v (d + n) := by
  induction n generalizing d with
  | zero => rfl
  | succ n ih =>
    rw [wrap_variants, get_pyobject_variant, ih]
    congr 1
    omega

/-- Apart from the recorded variant level, the value of an element that is
not a variant does not depend on the level it is decoded at. -/
theorem get_pyobject_level (P : Platform) (opts : Message_get_args_options)
    (v : Wire) (hv : v.arg_type ≠ DBUS_TYPE_VARIANT) (d : Nat) :
    _message_iter_get_pyobject P opts v d
      = (_message_iter_get_pyobject P opts v 0).map (PyObj.with_variant_level d) := by
  cases v <;>
    simp only [_message_iter_get_pyobject, PyObject_Call_kwargs, ByteArrayType_call_kwargs,
      ArrayType_call_kwargs,
      DictType_call_kwargs, StructType_call_kwargs, ne_eq, not_false_eq_true,
      show DBUS_TYPE_STRING ≠ DBUS_TYPE_VARIANT by decide,
      show DBUS_TYPE_SIGNATURE ≠ DBUS_TYPE_VARIANT by decide,
      show DBUS_TYPE_OBJECT_PATH ≠ DBUS_TYPE_VARIANT by decide,
      show DBUS_TYPE_DOUBLE ≠ DBUS_TYPE_VARIANT by decide,
      show DBUS_TYPE_INT16 ≠ DBUS_TYPE_VARIANT by decide,
      show DBUS_TYPE_UINT16 ≠ DBUS_TYPE_VARIANT by decide,
      show DBUS_TYPE_INT32 ≠ DBUS_TYPE_VARIANT by decide,
      show DBUS_TYPE_UINT32 ≠ DBUS_TYPE_VARIANT by decide,
      show DBUS_TYPE_INT64 ≠ DBUS_TYPE_VARIANT by decide,
      show DBUS_TYPE_UINT64 ≠ DBUS_TYPE_VARIANT by decide,
      show DBUS_TYPE_BYTE ≠ DBUS_TYPE_VARIANT by decide,
      show DBUS_TYPE_BOOLEAN ≠ DBUS_TYPE_VARIANT by decide,
      show DBUS_TYPE_ARRAY ≠ DBUS_TYPE_VARIANT by decide,
      show DBUS_TYPE_STRUCT ≠ DBUS_TYPE_VARIANT by decide]
  all_goals first
    | rfl
    | (simp at hv; done)
    | (simp only [Wire.arg_type] at hv; exact absurd rfl hv)
    | (split <;> rfl)
    | (repeat (first | rfl | split))

theorem variant_level_with_variant_level (n : Nat) (r : PyObj) :
    (r.with_variant_level n).variant_level = n := by
  cases r <;> rfl

/-- An element that decodes is not the end marker. -/
theorem arg_type_ne_invalid_of_ok (P : Platform) (opts : Message_get_args_options)
    (w : Wire) (variant_level : Nat) (r : PyObj)
    (h : _message_iter_get_pyobject P opts w variant_level = .ok r) :
    w.arg_type ≠ DBUS_TYPE_INVALID := by
  cases w <;> first
    | (simp only [Wire.arg_type]; decide)
    | (simp [_message_iter_get_pyobject] at h)

/-- The loop of `_message_iter_append_all_to_list` on a cursor whose elements
all decode. -/
theorem append_all_ok (P : Platform) (opts : Message_get_args_options)
    (iter : List Wire) (items : List PyObj)
    (h : List.Forall₂ (fun w v => _message_iter_get_pyobject P opts w 0 = .ok v) iter items)
    (list : List PyObj) :
    _message_iter_append_all_to_list P opts iter list = .ok (list ++ items) := by
  induction h generalizing list with
  | nil => simp [_message_iter_append_all_to_list]
  | cons hw _ ih =>
    rw [_message_iter_append_all_to_list,
      if_neg (arg_type_ne_invalid_of_ok P opts _ 0 _ hw), hw]
    simp only [ih, List.append_assoc, List.singleton_append]

/-- The loop of `_message_iter_append_all_to_list` stops at the first element
that does not decode, with the error of that element. -/
theorem append_all_error (P : Platform) (opts : Message_get_args_options)
    (pre : List Wire) (items : List PyObj) (w : Wire) (post : List Wire) (e : PyErr)
    (h : List.Forall₂ (fun w v => _message_iter_get_pyobject P opts w 0 = .ok v) pre items)
    (hw : w.arg_type ≠ DBUS_TYPE_INVALID)
    (he : _message_iter_get_pyobject P opts w 0 = .error e)
    (list : List PyObj) :
    _message_iter_append_all_to_list P opts (pre ++ w :: post) list = .error e := by
  induction h generalizing list with
  | nil => simp [_message_iter_append_all_to_list, hw, he]
  | cons hx _ ih =>
    rw [List.cons_append, _message_iter_append_all_to_list,
      if_neg (arg_type_ne_invalid_of_ok P opts _ 0 _ hx), hx]
    exact ih _

/-- Elements that all decode have a list of values. -/
theorem exists_items_of_all_ok (P : Platform) (opts : Message_get_args_options)
    (es : List Wire)
    (h : ∀ e ∈ es, ∃ v, _message_iter_get_pyobject P opts e 0 = .ok v) :
    ∃ items, List.Forall₂
      (fun w v => _message_iter_get_pyobject P opts w 0 = .ok v) es items := by
  induction es with
  | nil => exact ⟨[], List.Forall₂.nil⟩
  | cons e es ih =>
    obtain ⟨v, hv⟩ := h e (List.mem_cons_self _ _)
    obtain ⟨items, hitems⟩ := ih (fun x hx => h x (List.mem_cons_of_mem _ hx))
    exact ⟨v :: items, List.Forall₂.cons hv hitems⟩

/-- Two lists related element by element have the same length and are
related position by position. -/
theorem forall₂_positions {α β : Type} (R : α → β → Prop) (l₁ : List α) (l₂ : List β)
    (h : List.Forall₂ R l₁ l₂) :
    l₂.length = l₁.length ∧ ∀ (i : Nat) a, l₁[i]? = some a → ∃ b, l₂[i]? = some b ∧ R a b := by
  induction h with
  | nil => simp
  | cons hab _ ih =>
    refine ⟨by simp [ih.1], ?_⟩
    intro i a hi
    cases i with
    | zero =>
      simp only [List.getElem?_cons_zero, Option.some.injEq] at hi
      exact ⟨_, by simp, hi ▸ hab⟩
    | succ i =>
      simp only [List.getElem?_cons_succ] at hi ⊢
      exact ih.2 i a hi

/-- An element whose type code is no case label of the switch takes the
default case. -/
theorem get_pyobject_unknown (P : Platform) (opts : Message_get_args_options)
    (w : Wire) (variant_level : Nat) (h : w.arg_type ∉ recognised_types) :
    _message_iter_get_pyobject P opts w variant_level
      = .error (.TypeError_unknown_type w.arg_type) := by
  cases w <;> first
    | (exfalso; apply h; simp only [Wire.arg_type]; decide)
    | (simp [_message_iter_get_pyobject, Wire.arg_type])

/-- The loop of `_message_iter_append_all_to_list` fails as soon as one
element does not decode. -/
theorem append_all_fails (P : Platform) (opts : Message_get_args_options)
    (iter : List Wire) (hvalid : ∀ w ∈ iter, w.arg_type ≠ DBUS_TYPE_INVALID)
    (hfail : ∃ w ∈ iter, ∃ e, _message_iter_get_pyobject P opts w 0 = .error e)
    (list : List PyObj) :
    ∃ e, _message_iter_append_all_to_list P opts iter list = .error e := by
  induction iter generalizing list with
  | nil =>
    obtain ⟨w, hw, _⟩ := hfail
    cases hw
  | cons x xs ih =>
    rw [_message_iter_append_all_to_list, if_neg (hvalid x (List.mem_cons_self _ _))]
    cases hx : _message_iter_get_pyobject P opts x 0 with
    | error e => exact ⟨e, rfl⟩
    | ok item =>
      apply ih (fun w hw => hvalid w (List.mem_cons_of_mem _ hw))
      obtain ⟨w, hw, e, he⟩ := hfail
      rcases List.mem_cons.mp hw with rfl | hmem
      · rw [hx] at he
        cases he
      · exact ⟨w, hmem, e, he⟩

/-- With no positional argument, an accepted policy and a usable message,
`Message_get_args_list` is the loop over the body. -/
theorem get_args_list_eq (P : Platform) (body : List Wire)
    (kwargs : List (String × PyArg)) (opts : Message_get_args_options)
    (hpolicy : PyArg_ParseTupleAndKeywords P kwargs { byte_arrays := 0, utf8_strings := 0 }
      = .ok opts) :
    Message_get_args_list P { msg := some body } [] kwargs
      = if dbus_message_iter_init body then _message_iter_append_all_to_list P opts body []
        else .ok [] := by
  simp only [Message_get_args_list, List.length_nil, ne_eq, not_true_eq_false, if_false,
    hpolicy]
  split
  · cases _message_iter_append_all_to_list P opts body [] <;> rfl
  · rfl

/-- The cursor of a body that starts with an element is initialised. -/
theorem iter_init_cons (w : Wire) (rest : List Wire)
    (h : w.arg_type ≠ DBUS_TYPE_INVALID) :
    dbus_message_iter_init (w :: rest) = true := by
  simp [dbus_message_iter_init, dbus_message_iter_get_arg_type, h]

/-- The loop of `_message_iter_get_dict` on entries whose keys and values
all decode. -/
theorem get_dict_entries_ok (P : Platform) (opts : Message_get_args_options)
    (pairs : List (Wire × Wire)) (decoded : List (PyObj × PyObj))
    (h : List.Forall₂ (fun p q => _message_iter_get_pyobject P opts p.1 0 = .ok q.1
      ∧ _message_iter_get_pyobject P opts p.2 0 = .ok q.2) pairs decoded)
    (ret : List (PyObj × PyObj)) :
    _message_iter_get_dict_entries P opts (dict_entries pairs) ret
      = .ok (insert_all ret decoded) := by
  induction h generalizing ret with
  | nil => simp [dict_entries, insert_all, _message_iter_get_dict_entries]
  | cons hpq _ ih =>
    simp only [dict_entries, List.map_cons, _message_iter_get_dict_entries, hpq.1, hpq.2]
    exact ih _

/-- Equality of doubles is symmetric. -/
theorem double_eq_symm (x y : Nat) : double_eq x y = double_eq y x := by
  unfold double_eq
  cases double_is_nan x <;> cases double_is_nan y <;>
    simp only [Bool.not_true, Bool.not_false, Bool.and_self, Bool.and_false, Bool.false_and,
      Bool.true_and, Bool.and_true]
  rw [Bool.and_comm (decide (x % 2 ^ 63 = 0)), show decide (x = y) = decide (y = x) from
    decide_eq_decide.mpr eq_comm]

/-- Equality of doubles is transitive. -/
theorem double_eq_trans (x y z : Nat) (hxy : double_eq x y = true)
    (hyz : double_eq y z = true) : double_eq x z = true := by
  unfold double_eq at *
  simp only [Bool.and_eq_true, Bool.not_eq_true', Bool.or_eq_true, decide_eq_true_eq] at *
  refine ⟨⟨hxy.1.1, hyz.1.2⟩, ?_⟩
  rcases hxy.2 with h1 | h1 <;> rcases hyz.2 with h2 | h2
  · exact Or.inl (h1.trans h2)
  · exact Or.inr ⟨h1 ▸ h2.1, h2.2⟩
  · exact Or.inr ⟨h1.1, h2 ▸ h1.2⟩
  · exact Or.inr ⟨h1.1, h2.2⟩

theorem arg_eq_symm (a b : PyArg) : a.py_eq b = b.py_eq a := by
  cases a <;> cases b <;>
    simp only [PyArg.py_eq, double_eq_symm, decide_eq_decide] <;> exact eq_comm

theorem arg_eq_trans (a b c : PyArg) (hab : a.py_eq b = true) (hbc : b.py_eq c = true) :
    a.py_eq c = true := by
  cases a <;> cases b <;> simp only [PyArg.py_eq, Bool.false_eq_true] at hab <;>
    cases c <;> simp only [PyArg.py_eq, Bool.false_eq_true] at hbc ⊢
  · simp only [decide_eq_true_eq] at *; exact hab.trans hbc
  · exact double_eq_trans _ _ _ hab hbc
  · simp only [decide_eq_true_eq] at *; exact hab.trans hbc
  · simp only [decide_eq_true_eq] at *; exact hab.trans hbc

/-- Equality of keys is symmetric. -/
theorem key_eq_symm (a b : PyObj) : a.py_eq b = b.py_eq a := by
  cases a <;> cases b <;>
    first
      | (simp only [PyObj.py_eq]; exact arg_eq_symm _ _)
      | (simp only [PyObj.py_eq, decide_eq_decide]; exact eq_comm)

/-- Equality of keys is transitive. -/
theorem key_eq_trans (a b c : PyObj) (hab : a.py_eq b = true) (hbc : b.py_eq c = true) :
    a.py_eq c = true := by
  cases a <;> cases b <;>
    simp only [PyObj.py_eq, decide_eq_true_eq, reduceCtorEq] at hab <;>
    cases c <;>
    simp only [PyObj.py_eq, decide_eq_true_eq, reduceCtorEq] at hbc ⊢
  · exact arg_eq_trans _ _ _ hab hbc
  all_goals exact hab.trans hbc

/-- Lookup after one insertion. -/
theorem getItem_setItem (d : List (PyObj × PyObj)) (key value k : PyObj) :
    PyDict_GetItem (PyDict_SetItem d key value) k
      = if key.py_eq k then some value else PyDict_GetItem d k := by
  induction d with
  | nil => simp [PyDict_SetItem, PyDict_GetItem]
  | cons x rest ih =>
    obtain ⟨a, b⟩ := x
    cases hak : a.py_eq key <;> cases hk : a.py_eq k <;> cases hkk : key.py_eq k <;>
      simp only [PyDict_SetItem, PyDict_GetItem, hak, hk, hkk, ih, if_true, if_false,
        Bool.false_eq_true]
    · exact absurd (key_eq_trans a k key hk (by rw [key_eq_symm]; exact hkk))
        (by rw [hak]; decide)
    · exact absurd (key_eq_trans _ _ _ hak hkk) (by rw [hk]; decide)
    · exact absurd (key_eq_trans _ _ _ (by rw [key_eq_symm]; exact hak) hk)
        (by rw [hkk]; decide)

/-- Lookup after the insertion of a list of items: the value of the last item
whose key is equal to the key looked up, if there is one. -/
theorem getItem_insert_all (decoded : List (PyObj × PyObj)) (d : List (PyObj × PyObj))
    (k : PyObj) :
    PyDict_GetItem (insert_all d decoded) k
      = match decoded.reverse.find? (fun q => q.1.py_eq k) with
        | some q => some q.2
        | none => PyDict_GetItem d k := by
  induction decoded generalizing d with
  | nil => simp [insert_all]
  | cons q rest ih =>
    have hstep : insert_all d (q :: rest) = insert_all (PyDict_SetItem d q.1 q.2) rest := rfl
    rw [hstep, ih, List.reverse_cons, List.find?_append]
    cases hfind : rest.reverse.find? (fun q => q.1.py_eq k) with
    | some x => simp
    | none =>
      cases hq : q.1.py_eq k
      · simp [getItem_setItem, hq]
      · simp [getItem_setItem, hq]

/-- The struct case: the members are appended to a new list. -/
theorem get_pyobject_struct (P : Platform) (opts : Message_get_args_options)
    (sub : List Wire) (variant_level : Nat) :
    _message_iter_get_pyobject P opts (.struct sub) variant_level
      = match _message_iter_append_all_to_list P opts sub [] with
        | .error e => .error e
        | .ok list => .ok (.Struct list variant_level) := by
  simp only [_message_iter_get_pyobject, StructType_call_kwargs]

/-- The array case. -/
theorem get_pyobject_array (P : Platform) (opts : Message_get_args_options)
    (elem_sig : List Char) (sub : List Wire) (variant_level : Nat) :
    _message_iter_get_pyobject P opts (.array elem_sig sub) variant_level
      = if dbus_message_iter_get_element_type elem_sig = DBUS_TYPE_DICT_ENTRY then
          _message_iter_get_dict P opts elem_sig sub
            ((variant_level_kwargs variant_level DBUS_TYPE_ARRAY).getD
              { variant_level := none, signature := none })
        else if opts.byte_arrays ≠ 0
            ∧ dbus_message_iter_get_element_type elem_sig = DBUS_TYPE_BYTE then
          .ok (.scalar .ByteArrayType
            (str_new (Py_BuildValue_s_hash (dbus_message_iter_get_fixed_array sub).1
              (dbus_message_iter_get_fixed_array sub).2)) variant_level)
        else
          match _message_iter_append_all_to_list P opts sub [] with
          | .error e => .error e
          | .ok items => .ok (.Array items elem_sig variant_level) := by
  simp only [_message_iter_get_pyobject, _message_iter_get_dict, ArrayType_call_kwargs,
    ByteArrayType_call_kwargs _ _ _ (show DBUS_TYPE_ARRAY ≠ DBUS_TYPE_VARIANT by decide)]
  split
  · cases hk : variant_level_kwargs variant_level DBUS_TYPE_ARRAY <;>
      simp [kwargs_set_signature]
  · rfl

/-- The run of bytes of a cursor over byte elements. -/
theorem byte_run_bytes (bs : List Nat) : byte_run (bs.map Wire.byte) = bs := by
  induction bs with
  | nil => rfl
  | cons b bs ih => simp [byte_run, ih]

/-- The block of bytes of a cursor over byte elements: the NULL pointer for
no element, the bytes otherwise. -/
theorem get_fixed_array_bytes (bs : List Nat) :
    dbus_message_iter_get_fixed_array (bs.map Wire.byte)
      = if bs = [] then (none, 0) else (some bs, bs.length) := by
  unfold dbus_message_iter_get_fixed_array
  rw [byte_run_bytes]
  cases bs <;> simp

/-- The string a byte array is built from, for a cursor over byte elements:
the bytes, and the word None for no element. -/
theorem byte_array_arg_bytes (bs : List Nat) :
    str_new (Py_BuildValue_s_hash (dbus_message_iter_get_fixed_array (bs.map Wire.byte)).1
        (dbus_message_iter_get_fixed_array (bs.map Wire.byte)).2)
      = if bs = [] then .str [78, 111, 110, 101] else .str bs := by
  rw [get_fixed_array_bytes]
  cases bs <;> simp [Py_BuildValue_s_hash, str_new]

/-- The string a byte array is built from is a string. -/
theorem byte_array_arg_str (s : Option (List Nat)) (n : Nat) :
    ∃ raw, str_new (Py_BuildValue_s_hash s n) = .str raw := by
  cases s <;> simp [Py_BuildValue_s_hash, str_new]

/-- A value in the range of a signed type is not changed by the conversion
to it. -/
theorem cast_signed_eq (bits : Nat) (x : Int) (hbits : 0 < bits)
    (hlo : -(2 ^ (bits - 1)) ≤ x) (hhi : x < 2 ^ (bits - 1)) :
    cast_signed bits x = x := by
  unfold cast_signed
  have hpow : (2 : Int) ^ bits = 2 * 2 ^ (bits - 1) := by
    have : bits = (bits - 1) + 1 := by omega
    conv_lhs => rw [this, pow_succ]
    ring
  rw [Int.emod_eq_of_lt (by omega) (by omega)]
  omega

/-- A value in the range of an unsigned type is not changed by the
conversion to it. -/
theorem cast_unsigned_eq (bits : Nat) (x : Int) (hlo : 0 ≤ x) (hhi : x < 2 ^ bits) :
    cast_unsigned bits x = x := by
  unfold cast_unsigned
  exact Int.emod_eq_of_lt hlo hhi

/-- Powers of two grow with the exponent. -/
theorem two_pow_le (a b : Nat) (h : a ≤ b) : (2 : Int) ^ a ≤ 2 ^ b :=
  pow_le_pow_right₀ (by norm_num) h

/-- A value in the range of a signed type of `n + 1` bits keeps its value in
every signed type that is at least as wide. -/
theorem cast_signed_of_range (n bits : Nat) (x : Int) (hbits : n + 1 ≤ bits)
    (hlo : -(2 ^ n) ≤ x) (hhi : x < 2 ^ n) :
    cast_signed bits x = x := by
  have hle : (2 : Int) ^ n ≤ 2 ^ (bits - 1) := two_pow_le n (bits - 1) (by omega)
  exact cast_signed_eq bits x (by omega) (by omega) (by omega)

/-- A value in the range of an unsigned type of `n` bits keeps its value in
every unsigned type that is at least as wide. -/
theorem cast_unsigned_of_range (n bits : Nat) (x : Int) (hbits : n ≤ bits)
    (hlo : 0 ≤ x) (hhi : x < 2 ^ n) :
    cast_unsigned bits x = x := by
  have hle : (2 : Int) ^ n ≤ 2 ^ bits := two_pow_le n bits hbits
  exact cast_unsigned_eq bits x hlo (by omega)

/-- The byte case on a platform whose `long` has at least 32 bits. -/
theorem get_pyobject_byte (P : Platform) (hlong : 32 ≤ P.long_bits)
    (opts : Message_get_args_options) (y : Nat) (hy : y < 256) (variant_level : Nat) :
    _message_iter_get_pyobject P opts (.byte y) variant_level
      = .ok (.scalar .ByteType (.int y) variant_level) := by
  have hcast : cast_signed P.long_bits (y : Int) = y :=
    cast_signed_of_range 8 P.long_bits y (by omega) (by omega) (by norm_num; omega)
  simp only [_message_iter_get_pyobject, hcast,
    PyObject_Call_kwargs _ _ _ _ (show DBUS_TYPE_BYTE ≠ DBUS_TYPE_VARIANT by decide)]

/-- The level recorded in the value of a non-variant element wrapped in
variant envelopes. -/
theorem variant_level_wrap_variants (P : Platform) (opts : Message_get_args_options)
    (N : Nat) (v : Wire) (hv : v.arg_type ≠ DBUS_TYPE_VARIANT) (k : Nat) (r : PyObj)
    (hr : _message_iter_get_pyobject P opts (wrap_variants N v) k = .ok r) :
    r.variant_level = k + N := by
  rw [get_pyobject_wrap_variants, get_pyobject_level P opts v hv] at hr
  cases h0 : _message_iter_get_pyobject P opts v 0 with
  | error e => rw [h0] at hr; cases hr
  | ok r0 =>
    rw [h0] at hr
    simp only [Except.map, Except.ok.injEq] at hr
    rw [← hr, variant_level_with_variant_level]

/-- The levels recorded in the values of elements decoded at level 0. -/
theorem variant_levels_of_items (P : Platform) (opts : Message_get_args_options)
    (es : List Wire) (items : List PyObj)
    (h : List.Forall₂ (fun w v => _message_iter_get_pyobject P opts w 0 = .ok v) es items)
    (i k : Nat) (v : Wire) (hi : es[i]? = some (wrap_variants k v))
    (hv : v.arg_type ≠ DBUS_TYPE_VARIANT) :
    ∃ x, items[i]? = some x ∧ x.variant_level = k := by
  obtain ⟨x, hx, hdec⟩ := (forall₂_positions _ _ _ h).2 i _ hi
  refine ⟨x, hx, ?_⟩
  simpa using variant_level_wrap_variants P opts k v hv 0 x hdec

/-- A plain array whose elements all decode at level 0. -/
theorem get_pyobject_plain_array (P : Platform) (opts : Message_get_args_options)
    (elem_sig : List Char)
    (hplain : dbus_message_iter_get_element_type elem_sig ≠ DBUS_TYPE_DICT_ENTRY
      ∧ ¬ (opts.byte_arrays ≠ 0
        ∧ dbus_message_iter_get_element_type elem_sig = DBUS_TYPE_BYTE))
    (elems : List Wire) (items : List PyObj)
    (h : List.Forall₂ (fun w v => _message_iter_get_pyobject P opts w 0 = .ok v)
      elems items) (d : Nat) :
    _message_iter_get_pyobject P opts (.array elem_sig elems) d
      = .ok (.Array items elem_sig d) := by
  rw [get_pyobject_array, if_neg hplain.1, if_neg hplain.2,
    append_all_ok P opts elems items h]
  rfl

/-- A dictionary whose keys and values all decode at level 0. -/
theorem get_pyobject_dict (P : Platform) (opts : Message_get_args_options)
    (elem_sig : List Char)
    (hdict : dbus_message_iter_get_element_type elem_sig = DBUS_TYPE_DICT_ENTRY)
    (pairs : List (Wire × Wire)) (decoded : List (PyObj × PyObj))
    (h : List.Forall₂ (fun p q => _message_iter_get_pyobject P opts p.1 0 = .ok q.1
      ∧ _message_iter_get_pyobject P opts p.2 0 = .ok q.2) pairs decoded) (d : Nat) :
    _message_iter_get_pyobject P opts (.array elem_sig (dict_entries pairs)) d
      = .ok (.Dict (insert_all [] decoded)
          (dict_signature (dbus_message_iter_get_signature elem_sig)) d) := by
  simp only [_message_iter_get_pyobject, hdict, if_true,
    get_dict_entries_ok P opts pairs decoded h, DictType_call_kwargs]

/-- The model of `PyUnicode_DecodeUTF8` accepts exactly the well-formed
UTF-8 byte sequences. -/
theorem decodeUTF8_isSome (l : List Nat) :
    (PyUnicode_DecodeUTF8 l).isSome = valid_utf8 l := by
  induction l using PyUnicode_DecodeUTF8.induct with
  | case1 => rfl
  | case2 b rest h ih =>
    have h' : b ≤ 127 := by omega
    rw [PyUnicode_DecodeUTF8.eq_def, valid_utf8.eq_def]
    simp only [h, h', if_true, Option.isSome_map', ih]
  | case3 b h =>
    have h' : ¬ b ≤ 127 := by omega
    rw [PyUnicode_DecodeUTF8.eq_def, valid_utf8.eq_def]
    simp only [h, h', if_false, Option.isSome_none]
  | case4 b0 h0 b1 rest h2 hc ih =>
    have h0' : ¬ b0 ≤ 127 := by omega
    have h2' : 194 ≤ b0 ∧ b0 ≤ 223 := by omega
    have hv : 128 ≤ b1 ∧ b1 ≤ 191 := by
      simp only [utf8_cont, Bool.and_eq_true, decide_eq_true_eq] at hc
      omega
    rw [PyUnicode_DecodeUTF8.eq_def, valid_utf8.eq_def]
    simp only [h0, h0', h2, h2', hc, hv, if_true, if_false, Option.isSome_map', ih,
      and_self, decide_True, Bool.true_and]
  | case5 b0 h0 b1 rest h2 hc =>
    have h0' : ¬ b0 ≤ 127 := by omega
    have h2' : 194 ≤ b0 ∧ b0 ≤ 223 := by omega
    have hv : ¬ (128 ≤ b1 ∧ b1 ≤ 191) := by
      simp only [utf8_cont, Bool.and_eq_true, decide_eq_true_eq] at hc
      omega
    rw [PyUnicode_DecodeUTF8.eq_def, valid_utf8.eq_def]
    simp only [h0, h0', h2, h2', hc, hv, if_true, if_false, and_self, decide_False,
      Bool.false_and, Option.isSome_none, Bool.false_eq_true]
  | case6 b0 h0 b1 h2 =>
    have h0' : ¬ b0 ≤ 127 := by omega
    have h2' : ¬ (194 ≤ b0 ∧ b0 ≤ 223) := by omega
    rw [PyUnicode_DecodeUTF8.eq_def, valid_utf8.eq_def]
    simp only [h0, h0', h2, h2', if_false, Option.isSome_none]
  | case7 b0 h0 b1 h2 b2 rest h3 hc ih =>
    have h0' : ¬ b0 ≤ 127 := by omega
    have h2' : ¬ (194 ≤ b0 ∧ b0 ≤ 223) := by omega
    have h3' : 224 ≤ b0 ∧ b0 ≤ 239 := by omega
    have hv : (if b0 = 224 then 160 else 128) ≤ b1 ∧ (b1 ≤ if b0 = 237 then 159 else 191)
        ∧ 128 ≤ b2 ∧ b2 ≤ 191 := by
      simp only [utf8_cont, Bool.and_eq_true, decide_eq_true_eq] at hc
      split_ifs <;> omega
    rw [PyUnicode_DecodeUTF8.eq_def, valid_utf8.eq_def]
    simp only [h0, h0', h2, h2', h3, h3', hc, hv, if_true, if_false, Option.isSome_map', ih,
      and_self, decide_True, Bool.true_and, not_false_eq_true]
  | case8 b0 h0 b1 h2 b2 rest h3 hc =>
    have h0' : ¬ b0 ≤ 127 := by omega
    have h2' : ¬ (194 ≤ b0 ∧ b0 ≤ 223) := by omega
    have h3' : 224 ≤ b0 ∧ b0 ≤ 239 := by omega
    have hv : ¬ ((if b0 = 224 then 160 else 128) ≤ b1 ∧ (b1 ≤ if b0 = 237 then 159 else 191)
        ∧ 128 ≤ b2 ∧ b2 ≤ 191) := by
      intro hv
      apply hc
      simp only [utf8_cont, Bool.and_eq_true, decide_eq_true_eq]
      split_ifs at hv <;> omega
    rw [PyUnicode_DecodeUTF8.eq_def, valid_utf8.eq_def]
    simp only [h0, h0', h2, h2', h3, h3', hc, hv, if_true, if_false, and_self, decide_False,
      Bool.false_and, Option.isSome_none]
  | case9 b0 h0 b1 h2 b2 h3 =>
    have h0' : ¬ b0 ≤ 127 := by omega
    have h2' : ¬ (194 ≤ b0 ∧ b0 ≤ 223) := by omega
    have h3' : ¬ (224 ≤ b0 ∧ b0 ≤ 239) := by omega
    rw [PyUnicode_DecodeUTF8.eq_def, valid_utf8.eq_def]
    simp only [h0, h0', h2, h2', h3, h3', if_false, Option.isSome_none]
  | case10 b0 h0 b1 h2 b2 h3 b3 rest h4 hc ih =>
    have h0' : ¬ b0 ≤ 127 := by omega
    have h2' : ¬ (194 ≤ b0 ∧ b0 ≤ 223) := by omega
    have h3' : ¬ (224 ≤ b0 ∧ b0 ≤ 239) := by omega
    have h4' : 240 ≤ b0 ∧ b0 ≤ 244 := by omega
    have hv : (if b0 = 240 then 144 else 128) ≤ b1 ∧ (b1 ≤ if b0 = 244 then 143 else 191)
        ∧ 128 ≤ b2 ∧ b2 ≤ 191 ∧ 128 ≤ b3 ∧ b3 ≤ 191 := by
      simp only [utf8_cont, Bool.and_eq_true, decide_eq_true_eq] at hc
      split_ifs <;> omega
    rw [PyUnicode_DecodeUTF8.eq_def, valid_utf8.eq_def]
    simp only [h0, h0', h2, h2', h3, h3', h4, h4', hc, hv, if_true, if_false,
      Option.isSome_map', ih, and_self, decide_True, Bool.true_and]
  | case11 b0 h0 b1 h2 b2 h3 b3 rest h4 hc =>
    have h0' : ¬ b0 ≤ 127 := by omega
    have h2' : ¬ (194 ≤ b0 ∧ b0 ≤ 223) := by omega
    have h3' : ¬ (224 ≤ b0 ∧ b0 ≤ 239) := by omega
    have h4' : 240 ≤ b0 ∧ b0 ≤ 244 := by omega
    have hv : ¬ ((if b0 = 240 then 144 else 128) ≤ b1 ∧ (b1 ≤ if b0 = 244 then 143 else 191)
        ∧ 128 ≤ b2 ∧ b2 ≤ 191 ∧ 128 ≤ b3 ∧ b3 ≤ 191) := by
      intro hv
      apply hc
      simp only [utf8_cont, Bool.and_eq_true, decide_eq_true_eq]
      split_ifs at hv <;> omega
    rw [PyUnicode_DecodeUTF8.eq_def, valid_utf8.eq_def]
    simp only [h0, h0', h2, h2', h3, h3', h4, h4', hc, hv, if_true, if_false, and_self,
      decide_False, Bool.false_and, Option.isSome_none]
  | case12 b0 h0 b1 h2 b2 h3 b3 rest h4 =>
    have h0' : ¬ b0 ≤ 127 := by omega
    have h2' : ¬ (194 ≤ b0 ∧ b0 ≤ 223) := by omega
    have h3' : ¬ (224 ≤ b0 ∧ b0 ≤ 239) := by omega
    have h4' : ¬ (240 ≤ b0 ∧ b0 ≤ 244) := by omega
    rw [PyUnicode_DecodeUTF8.eq_def, valid_utf8.eq_def]
    simp only [h0, h0', h2, h2', h3, h3', h4, h4', if_false, Option.isSome_none]

/-- ASCII bytes decode to themselves. -/
theorem decodeUTF8_ascii (l : List Nat) (h : ∀ b ∈ l, b < 128) :
    PyUnicode_DecodeUTF8 l = some l := by
  induction l with
  | nil => rfl
  | cons b rest ih =>
    rw [PyUnicode_DecodeUTF8.eq_def]
    simp only [if_pos (h b (List.mem_cons_self _ _)),
      ih (fun x hx => h x (List.mem_cons_of_mem _ hx)), Option.map_some']

/-- ASCII code points encode to themselves. -/
theorem utf8_encode_ascii (l : List Nat) (h : ∀ b ∈ l, b < 128) :
    utf8_encode l = l := by
  induction l with
  | nil => rfl
  | cons b rest ih =>
    simp only [utf8_encode, if_pos (h b (List.mem_cons_self _ _)),
      ih (fun x hx => h x (List.mem_cons_of_mem _ hx)), List.singleton_append]

/-- The bytes of a C string are bytes of the buffer. -/
theorem mem_c_str (s : List Nat) (b : Nat) (h : b ∈ c_str s) : b ∈ s :=
  (List.takeWhile_sublist _).subset h

/-- The string case with `utf8_strings` set. -/
theorem get_pyobject_string_utf8 (P : Platform) (opts : Message_get_args_options)
    (h : opts.utf8_strings ≠ 0) (s : List Nat) (d : Nat) :
    _message_iter_get_pyobject P opts (.string s) d
      = .ok (.scalar .UTF8StringType (.str (c_str s)) d) := by
  simp only [_message_iter_get_pyobject, h, ne_eq, not_false_eq_true, if_true,
    PyObject_Call_kwargs _ _ _ _ (show DBUS_TYPE_STRING ≠ DBUS_TYPE_VARIANT by decide)]

/-- The string case with `utf8_strings` not set. -/
theorem get_pyobject_string_unicode (P : Platform) (opts : Message_get_args_options)
    (h : opts.utf8_strings = 0) (s : List Nat) (d : Nat) :
    _message_iter_get_pyobject P opts (.string s) d
      = match PyUnicode_DecodeUTF8 (c_str s) with
        | none => .error .UnicodeDecodeError
        | some text => .ok (.scalar .StringType (.unicode text) d) := by
  simp only [_message_iter_get_pyobject, h, ne_eq, not_true_eq_false, if_false,
    PyObject_Call_kwargs _ _ _ _ (show DBUS_TYPE_STRING ≠ DBUS_TYPE_VARIANT by decide)]

/-- The errors of `parse_keyword` are argument errors. -/
theorem parse_keyword_error (P : Platform) (kwargs : List (String × PyArg)) (name : String)
    (initial : Int) (e : PyErr) (h : parse_keyword P kwargs name initial = .error e) :
    e.is_invalid_argument = true := by
  unfold parse_keyword at h
  split at h
  · cases h
  · rename_i v _
    unfold parse_int at h
    split at h
    · split at h
      · cases h
      · cases h; rfl
    · cases h; rfl

/-- A keyword other than the two known ones makes `PyArg_ParseTupleAndKeywords`
fail with an argument error. -/
theorem parse_rejects_unknown (P : Platform) (kwargs : List (String × PyArg))
    (initial : Message_get_args_options)
    (h : ∃ kv ∈ kwargs, kv.1 ≠ "byte_arrays" ∧ kv.1 ≠ "utf8_strings") :
    ∃ e, PyArg_ParseTupleAndKeywords P kwargs initial = .error e
      ∧ e.is_invalid_argument = true := by
  unfold PyArg_ParseTupleAndKeywords
  cases h1 : parse_keyword P kwargs "byte_arrays" initial.byte_arrays with
  | error e => exact ⟨e, rfl, parse_keyword_error P kwargs _ _ e h1⟩
  | ok b =>
    cases h2 : parse_keyword P kwargs "utf8_strings" initial.utf8_strings with
    | error e => exact ⟨e, rfl, parse_keyword_error P kwargs _ _ e h2⟩
    | ok u =>
      cases hf : kwargs.find? (fun kv => kv.1 != "byte_arrays" && kv.1 != "utf8_strings") with
      | some kv => exact ⟨_, rfl, rfl⟩
      | none =>
        exfalso
        obtain ⟨kv, hmem, hne1, hne2⟩ := h
        have := List.find?_eq_none.mp hf kv hmem
        simp [hne1, hne2] at this

theorem error_of_ok {α : Type} (x : Except PyErr α) :
    error_of x = none ↔ ∃ v, x = .ok v := by
  cases x <;> simp [error_of]

theorem error_of_error {α : Type} (x : Except PyErr α) (e : PyErr) :
    error_of x = some e ↔ x = .error e := by
  cases x <;> simp [error_of]

/-- A well-formed element is not the end marker. -/
theorem arg_type_ne_invalid_of_well_formed (w : Wire) (h : w.well_formed = true) :
    w.arg_type ≠ DBUS_TYPE_INVALID := by
  cases w <;> first
    | (simp only [Wire.arg_type]; decide)
    | (simp only [Wire.well_formed, decide_eq_true_eq, List.mem_cons, not_or] at h
       simp only [Wire.arg_type]
       exact h.1)

/-- The string case, as an error. -/
theorem error_of_string (P : Platform) (opts : Message_get_args_options) (s : List Nat)
    (d : Nat) :
    error_of (_message_iter_get_pyobject P opts (.string s) d)
      = leaf_error P opts (.string s) := by
  by_cases h : opts.utf8_strings = 0
  · rw [get_pyobject_string_unicode P opts h]
    have hv := decodeUTF8_isSome (c_str s)
    cases hd : PyUnicode_DecodeUTF8 (c_str s) with
    | none =>
      rw [hd] at hv
      simp [leaf_error, h, ← hv, error_of]
    | some t =>
      rw [hd] at hv
      simp [leaf_error, h, ← hv, error_of]
  · rw [get_pyobject_string_utf8 P opts h]
    simp [leaf_error, h, error_of]

/-- The elements of a well-formed array of bytes raise no error. -/
theorem no_error_of_bytes (P : Platform) (opts : Message_get_args_options)
    (elems : List Wire) (h : Wire.well_formed_elems DBUS_TYPE_BYTE elems = true) :
    (Wire.elements_list elems).findSome? (leaf_error P opts) = none := by
  induction elems with
  | nil => rfl
  | cons w rest ih =>
    cases w <;>
      simp_all [Wire.well_formed_elems, Wire.elements_list, Wire.elements, leaf_error,
        Wire.arg_type, Wire.well_formed, DBUS_TYPE_BYTE, DBUS_TYPE_BOOLEAN, DBUS_TYPE_INT16,
        DBUS_TYPE_UINT16, DBUS_TYPE_INT32, DBUS_TYPE_UINT32, DBUS_TYPE_INT64,
        DBUS_TYPE_UINT64, DBUS_TYPE_DOUBLE, DBUS_TYPE_STRING, DBUS_TYPE_OBJECT_PATH,
        DBUS_TYPE_SIGNATURE, DBUS_TYPE_ARRAY, DBUS_TYPE_STRUCT, DBUS_TYPE_VARIANT,
        DBUS_TYPE_DICT_ENTRY, DBUS_TYPE_INVALID, recognised_types]
    omega

/-- A well-formed element is not a dict entry. -/
theorem arg_type_ne_dict_entry_of_well_formed (w : Wire) (h : w.well_formed = true) :
    w.arg_type ≠ DBUS_TYPE_DICT_ENTRY := by
  cases w <;> first
    | (simp only [Wire.arg_type]; decide)
    | (simp [Wire.well_formed] at h; done)
    | (simp only [Wire.well_formed, decide_eq_true_eq, List.mem_cons, not_or] at h
       simp only [Wire.arg_type]
       exact h.2.1)

/-- The first element of a well-formed array that is not an array of dict
entries, and the elements after it. -/
theorem well_formed_elems_cons (type : Nat) (w : Wire) (rest : List Wire)
    (ht : type ≠ DBUS_TYPE_DICT_ENTRY)
    (h : Wire.well_formed_elems type (w :: rest) = true) :
    w.well_formed = true ∧ Wire.well_formed_elems type rest = true := by
  cases w <;>
    simp_all [Wire.well_formed_elems]

mutual
/-- The error of the decoder on a well-formed element is the error of the
first element of its tree that raises one. -/
theorem error_of_get_pyobject (P : Platform) (opts : Message_get_args_options) :
    ∀ (w : Wire) (d : Nat), w.well_formed = true →
      error_of (_message_iter_get_pyobject P opts w d)
        = w.elements.findSome? (leaf_error P opts)
  | .array elem_sig elems, d, h => by
    simp only [Wire.well_formed] at h
    rw [get_pyobject_array]
    simp only [Wire.elements, List.findSome?_cons, leaf_error]
    by_cases hdict : dbus_message_iter_get_element_type elem_sig = DBUS_TYPE_DICT_ENTRY
    · rw [if_pos hdict]
      rw [← error_of_dict_entries P opts elems [] (hdict ▸ h)]
      simp only [_message_iter_get_dict]
      cases _message_iter_get_dict_entries P opts elems [] <;> rfl
    · rw [if_neg hdict]
      by_cases hbyte : opts.byte_arrays ≠ 0
          ∧ dbus_message_iter_get_element_type elem_sig = DBUS_TYPE_BYTE
      · rw [if_pos hbyte, no_error_of_bytes P opts elems (hbyte.2 ▸ h)]
        rfl
      · rw [if_neg hbyte, ← error_of_append_elems P opts _ elems [] hdict h]
        cases _message_iter_append_all_to_list P opts elems [] <;> rfl
  | .struct members, d, h => by
    simp only [Wire.well_formed] at h
    rw [get_pyobject_struct]
    simp only [Wire.elements, List.findSome?_cons, leaf_error]
    rw [← error_of_append_all P opts members [] h]
    cases _message_iter_append_all_to_list P opts members [] <;> rfl
  | .variant inner, d, h => by
    simp only [Wire.well_formed] at h
    rw [get_pyobject_variant]
    simp only [Wire.elements, List.findSome?_cons, leaf_error]
    exact error_of_get_pyobject P opts inner (d + 1) h
  | .dict_entry _ _, _, h => by simp [Wire.well_formed] at h
  | .other type, _, _ => by
    simp [_message_iter_get_pyobject, Wire.elements, leaf_error, error_of]
  | .string s, d, _ => by
    rw [error_of_string]
    simp only [Wire.elements, List.findSome?_cons, List.findSome?_nil]
    cases leaf_error P opts (.string s) <;> rfl
  | .int64 _, _, _ => by
    cases hp : P.have_int64 <;>
      simp [_message_iter_get_pyobject, Wire.elements, leaf_error, error_of, hp]
  | .uint64 _, _, _ => by
    cases hp : P.have_int64 <;>
      simp [_message_iter_get_pyobject, Wire.elements, leaf_error, error_of, hp]
  | .byte _, _, _ => by
    simp [_message_iter_get_pyobject, Wire.elements, leaf_error, error_of]
  | .boolean _, _, _ => by
    simp [_message_iter_get_pyobject, Wire.elements, leaf_error, error_of]
  | .int16 _, _, _ => by
    simp [_message_iter_get_pyobject, Wire.elements, leaf_error, error_of]
  | .uint16 _, _, _ => by
    simp [_message_iter_get_pyobject, Wire.elements, leaf_error, error_of]
  | .int32 _, _, _ => by
    simp [_message_iter_get_pyobject, Wire.elements, leaf_error, error_of]
  | .uint32 _, _, _ => by
    simp [_message_iter_get_pyobject, Wire.elements, leaf_error, error_of]
  | .double _, _, _ => by
    simp [_message_iter_get_pyobject, Wire.elements, leaf_error, error_of]
  | .object_path _, _, _ => by
    simp [_message_iter_get_pyobject, Wire.elements, leaf_error, error_of]
  | .signature _, _, _ => by
    simp [_message_iter_get_pyobject, Wire.elements, leaf_error, error_of]
/-- The error of the loop over the members of a struct or over a body. -/
theorem error_of_append_all (P : Platform) (opts : Message_get_args_options) :
    ∀ (iter : List Wire) (list : List PyObj), Wire.well_formed_list iter = true →
      error_of (_message_iter_append_all_to_list P opts iter list)
        = (Wire.elements_list iter).findSome? (leaf_error P opts)
  | [], _, _ => rfl
  | w :: rest, list, h => by
    simp only [Wire.well_formed_list, Bool.and_eq_true] at h
    rw [_message_iter_append_all_to_list,
      if_neg (arg_type_ne_invalid_of_well_formed w h.1)]
    simp only [Wire.elements_list, List.findSome?_append,
      ← error_of_get_pyobject P opts w 0 h.1]
    cases hw : _message_iter_get_pyobject P opts w 0 with
    | error e => rfl
    | ok item =>
      simp only [error_of, Option.none_or]
      exact error_of_append_all P opts rest _ h.2
/-- The error of the loop over the elements of a plain array. -/
theorem error_of_append_elems (P : Platform) (opts : Message_get_args_options)
    (type : Nat) :
    ∀ (iter : List Wire) (list : List PyObj), type ≠ DBUS_TYPE_DICT_ENTRY →
      Wire.well_formed_elems type iter = true →
      error_of (_message_iter_append_all_to_list P opts iter list)
        = (Wire.elements_list iter).findSome? (leaf_error P opts)
  | [], _, _, _ => rfl
  | w :: rest, list, ht, h => by
    have hw := well_formed_elems_cons type w rest ht h
    rw [_message_iter_append_all_to_list,
      if_neg (arg_type_ne_invalid_of_well_formed w hw.1)]
    simp only [Wire.elements_list, List.findSome?_append,
      ← error_of_get_pyobject P opts w 0 hw.1]
    cases hx : _message_iter_get_pyobject P opts w 0 with
    | error e => rfl
    | ok item =>
      simp only [error_of, Option.none_or]
      exact error_of_append_elems P opts type rest _ ht hw.2
/-- The error of the loop over the entries of a dictionary. -/
theorem error_of_dict_entries (P : Platform) (opts : Message_get_args_options) :
    ∀ (entries : List Wire) (ret : List (PyObj × PyObj)),
      Wire.well_formed_elems DBUS_TYPE_DICT_ENTRY entries = true →
      error_of (_message_iter_get_dict_entries P opts entries ret)
        = (Wire.elements_list entries).findSome? (leaf_error P opts)
  | [], _, _ => rfl
  | .dict_entry key value :: rest, ret, h => by
    simp only [Wire.well_formed_elems, Bool.and_eq_true, decide_eq_true_eq] at h
    simp only [_message_iter_get_dict_entries, Wire.elements_list, Wire.elements,
      List.cons_append, List.findSome?_cons, leaf_error, List.findSome?_append,
      ← error_of_get_pyobject P opts key 0 h.1.1.2,
      ← error_of_get_pyobject P opts value 0 h.1.2]
    cases hk : _message_iter_get_pyobject P opts key 0 with
    | error e => rfl
    | ok k =>
      cases hv : _message_iter_get_pyobject P opts value 0 with
      | error e => rfl
      | ok v =>
        simp only [error_of, Option.none_or]
        exact error_of_dict_entries P opts rest _ h.2
  | .byte _ :: _, _, h => by
    simp only [Wire.well_formed_elems, Wire.arg_type, Bool.and_eq_true,
      decide_eq_true_eq] at h
    exact absurd h.1.1 (by decide)
  | .boolean _ :: _, _, h => by
    simp only [Wire.well_formed_elems, Wire.arg_type, Bool.and_eq_true,
      decide_eq_true_eq] at h
    exact absurd h.1.1 (by decide)
  | .int16 _ :: _, _, h => by
    simp only [Wire.well_formed_elems, Wire.arg_type, Bool.and_eq_true,
      decide_eq_true_eq] at h
    exact absurd h.1.1 (by decide)
  | .uint16 _ :: _, _, h => by
    simp only [Wire.well_formed_elems, Wire.arg_type, Bool.and_eq_true,
      decide_eq_true_eq] at h
    exact absurd h.1.1 (by decide)
  | .int32 _ :: _, _, h => by
    simp only [Wire.well_formed_elems, Wire.arg_type, Bool.and_eq_true,
      decide_eq_true_eq] at h
    exact absurd h.1.1 (by decide)
  | .uint32 _ :: _, _, h => by
    simp only [Wire.well_formed_elems, Wire.arg_type, Bool.and_eq_true,
      decide_eq_true_eq] at h
    exact absurd h.1.1 (by decide)
  | .int64 _ :: _, _, h => by
    simp only [Wire.well_formed_elems, Wire.arg_type, Bool.and_eq_true,
      decide_eq_true_eq] at h
    exact absurd h.1.1 (by decide)
  | .uint64 _ :: _, _, h => by
    simp only [Wire.well_formed_elems, Wire.arg_type, Bool.and_eq_true,
      decide_eq_true_eq] at h
    exact absurd h.1.1 (by decide)
  | .double _ :: _, _, h => by
    simp only [Wire.well_formed_elems, Wire.arg_type, Bool.and_eq_true,
      decide_eq_true_eq] at h
    exact absurd h.1.1 (by decide)
  | .string _ :: _, _, h => by
    simp only [Wire.well_formed_elems, Wire.arg_type, Bool.and_eq_true,
      decide_eq_true_eq] at h
    exact absurd h.1.1 (by decide)
  | .object_path _ :: _, _, h => by
    simp only [Wire.well_formed_elems, Wire.arg_type, Bool.and_eq_true,
      decide_eq_true_eq] at h
    exact absurd h.1.1 (by decide)
  | .signature _ :: _, _, h => by
    simp only [Wire.well_formed_elems, Wire.arg_type, Bool.and_eq_true,
      decide_eq_true_eq] at h
    exact absurd h.1.1 (by decide)
  | .array _ _ :: _, _, h => by
    simp only [Wire.well_formed_elems, Wire.arg_type, Bool.and_eq_true,
      decide_eq_true_eq] at h
    exact absurd h.1.1 (by decide)
  | .struct _ :: _, _, h => by
    simp only [Wire.well_formed_elems, Wire.arg_type, Bool.and_eq_true,
      decide_eq_true_eq] at h
    exact absurd h.1.1 (by decide)
  | .variant _ :: _, _, h => by
    simp only [Wire.well_formed_elems, Wire.arg_type, Bool.and_eq_true,
      decide_eq_true_eq] at h
    exact absurd h.1.1 (by decide)
  | .other type :: _, _, h => by
    simp only [Wire.well_formed_elems, Bool.and_eq_true, decide_eq_true_eq] at h
    exact absurd h.1.1 (arg_type_ne_dict_entry_of_well_formed (.other type) h.1.2)
end

/-- The decoder leaves the cursor it is given where it is. -/
theorem get_pyobject_cursor_snd (P : Platform) (opts : Message_get_args_options)
    (iter : DBusMessageIter) (variant_level : Nat) :
    (_message_iter_get_pyobject_cursor P opts iter variant_level).2 = iter := by
  cases iter <;> rfl

/-- The result of the decoder on a cursor that stands on an element. -/
theorem get_pyobject_cursor_cons (P : Platform) (opts : Message_get_args_options)
    (w : Wire) (rest : List Wire) (variant_level : Nat) :
    (_message_iter_get_pyobject_cursor P opts (w :: rest) variant_level).1
      = _message_iter_get_pyobject P opts w variant_level := rfl

/-- The state after `_message_iter_append_all_to_list`: the values of the
elements decoded are appended and the cursor is past exactly these
elements. -/
theorem append_all_cursor_state (P : Platform) (opts : Message_get_args_options)
    (iter : DBusMessageIter) (list : List PyObj) :
    ∃ items,
      (_message_iter_append_all_to_list_cursor P opts iter list).2.1 = list ++ items
      ∧ (_message_iter_append_all_to_list_cursor P opts iter list).2.2
          = iter.drop items.length
      ∧ List.Forall₂ (fun w v => _message_iter_get_pyobject P opts w 0 = .ok v)
          (iter.take items.length) items
      ∧ (((_message_iter_append_all_to_list_cursor P opts iter list).1 = .ok ()
          ∧ dbus_message_iter_get_arg_type (iter.drop items.length) = DBUS_TYPE_INVALID)
        ∨ ∃ e, (_message_iter_append_all_to_list_cursor P opts iter list).1 = .error e
          ∧ (_message_iter_get_pyobject_cursor P opts (iter.drop items.length) 0).1
            = .error e) := by
  induction iter generalizing list with
  | nil =>
    have hval : _message_iter_append_all_to_list_cursor P opts [] list
        = (.ok (), list, []) := by
      rw [_message_iter_append_all_to_list_cursor]
      simp [dbus_message_iter_get_arg_type]
    exact ⟨[], by simp [hval], by simp [hval], by simp,
      Or.inl ⟨by simp [hval], by simp [dbus_message_iter_get_arg_type]⟩⟩
  | cons w rest ih =>
    by_cases hw : w.arg_type = DBUS_TYPE_INVALID
    · have hval : _message_iter_append_all_to_list_cursor P opts (w :: rest) list
          = (.ok (), list, w :: rest) := by
        rw [_message_iter_append_all_to_list_cursor]
        simp [dbus_message_iter_get_arg_type, hw]
      exact ⟨[], by simp [hval], by simp [hval], by simp,
        Or.inl ⟨by simp [hval], by simp [dbus_message_iter_get_arg_type, hw]⟩⟩
    · cases hd : _message_iter_get_pyobject P opts w 0 with
      | error e =>
        have hval : _message_iter_append_all_to_list_cursor P opts (w :: rest) list
            = (.error e, list, w :: rest) := by
          rw [_message_iter_append_all_to_list_cursor]
          simp [dbus_message_iter_get_arg_type, hw, get_pyobject_cursor_cons, hd,
            get_pyobject_cursor_snd]
        exact ⟨[], by simp [hval], by simp [hval], by simp,
          Or.inr ⟨e, by simp [hval], by simp [get_pyobject_cursor_cons, hd]⟩⟩
      | ok item =>
        obtain ⟨items, h1, h2, h3, h4⟩ := ih (list ++ [item])
        have hstep : _message_iter_append_all_to_list_cursor P opts (w :: rest) list
            = _message_iter_append_all_to_list_cursor P opts rest (list ++ [item]) := by
          rw [_message_iter_append_all_to_list_cursor]
          simp [dbus_message_iter_get_arg_type, hw, get_pyobject_cursor_cons, hd,
            get_pyobject_cursor_snd, dbus_message_iter_next]
        refine ⟨item :: items, ?_, ?_, ?_, ?_⟩
        · rw [hstep, h1]; simp
        · rw [hstep, h2]; simp
        · simp only [List.length_cons, List.take_succ_cons]
          exact List.Forall₂.cons hd h3
        · rw [hstep]
          simpa using h4

/-- The result of `_message_iter_append_all_to_list` read off its state. -/
theorem append_all_cursor_result (P : Platform) (opts : Message_get_args_options)
    (iter : DBusMessageIter) (list : List PyObj) :
    _message_iter_append_all_to_list P opts iter list
      = match (_message_iter_append_all_to_list_cursor P opts iter list).1 with
        | .error e => .error e
        | .ok _ => .ok (_message_iter_append_all_to_list_cursor P opts iter list).2.1 := by
  induction iter generalizing list with
  | nil =>
    rw [_message_iter_append_all_to_list_cursor]
    simp [dbus_message_iter_get_arg_type, _message_iter_append_all_to_list]
  | cons w rest ih =>
    rw [_message_iter_append_all_to_list_cursor, _message_iter_append_all_to_list]
    by_cases hw : w.arg_type = DBUS_TYPE_INVALID
    · simp [dbus_message_iter_get_arg_type, hw]
    · cases hd : _message_iter_get_pyobject P opts w 0 with
      | error e =>
        simp [dbus_message_iter_get_arg_type, hw, get_pyobject_cursor_cons, hd]
      | ok item =>
        simp only [dbus_message_iter_get_arg_type, hw, if_false, get_pyobject_cursor_cons, hd,
          get_pyobject_cursor_snd, dbus_message_iter_next]
        exact ih _

/-- The cursor of a dict entry after the loop body: moved once, past the
key, when the key decoded. -/
theorem get_dict_kv_cursor_snd (P : Platform) (opts : Message_get_args_options)
    (kv : DBusMessageIter) :
    (_message_iter_get_dict_kv_cursor P opts kv).2
      = match (_message_iter_get_pyobject_cursor P opts kv 0).1 with
        | .error _ => kv
        | .ok _ => dbus_message_iter_next kv := by
  unfold _message_iter_get_dict_kv_cursor
  cases h1 : (_message_iter_get_pyobject_cursor P opts kv 0).1 with
  | error e => simp [get_pyobject_cursor_snd]
  | ok key =>
    simp only [get_pyobject_cursor_snd]
    cases h2 : (_message_iter_get_pyobject_cursor P opts (dbus_message_iter_next kv) 0).1
      <;> simp

/-- The state after the loop of `_message_iter_get_dict`: the cursor
`entries` is past exactly the entries whose key and value decoded. -/
theorem get_dict_entries_cursor_state (P : Platform) (opts : Message_get_args_options)
    (entries : DBusMessageIter) (ret : List (PyObj × PyObj)) :
    ∃ n,
      (_message_iter_get_dict_entries_cursor P opts entries ret).2.2 = entries.drop n
      ∧ (∀ i, i < n → ∃ kv, (_message_iter_get_dict_kv_cursor P opts
          (dbus_message_iter_recurse (entries.drop i))).1 = .ok kv)
      ∧ (((_message_iter_get_dict_entries_cursor P opts entries ret).1 = .ok ()
          ∧ dbus_message_iter_get_arg_type (entries.drop n) ≠ DBUS_TYPE_DICT_ENTRY)
        ∨ ∃ e, (_message_iter_get_dict_entries_cursor P opts entries ret).1 = .error e
          ∧ (_message_iter_get_dict_kv_cursor P opts
              (dbus_message_iter_recurse (entries.drop n))).1 = .error e) := by
  induction entries generalizing ret with
  | nil =>
    have hval : _message_iter_get_dict_entries_cursor P opts [] ret = (.ok (), ret, []) := by
      rw [_message_iter_get_dict_entries_cursor]
      simp [dbus_message_iter_get_arg_type, DBUS_TYPE_INVALID, DBUS_TYPE_DICT_ENTRY]
    exact ⟨0, by simp [hval], by simp,
      Or.inl ⟨by simp [hval],
        by simp [dbus_message_iter_get_arg_type, DBUS_TYPE_INVALID, DBUS_TYPE_DICT_ENTRY]⟩⟩
  | cons w rest ih =>
    by_cases ht : w.arg_type = DBUS_TYPE_DICT_ENTRY
    · cases hkv : (_message_iter_get_dict_kv_cursor P opts
          (dbus_message_iter_recurse (w :: rest))).1 with
      | error e =>
        have hval : _message_iter_get_dict_entries_cursor P opts (w :: rest) ret
            = (.error e, ret, w :: rest) := by
          rw [_message_iter_get_dict_entries_cursor]
          simp [dbus_message_iter_get_arg_type, ht, hkv]
        exact ⟨0, by simp [hval], by simp, Or.inr ⟨e, by simp [hval], by simpa using hkv⟩⟩
      | ok kv =>
        obtain ⟨key, value⟩ := kv
        obtain ⟨n, h1, h2, h3⟩ := ih (PyDict_SetItem ret key value)
        have hstep : _message_iter_get_dict_entries_cursor P opts (w :: rest) ret
            = _message_iter_get_dict_entries_cursor P opts rest
                (PyDict_SetItem ret key value) := by
          rw [_message_iter_get_dict_entries_cursor]
          simp [dbus_message_iter_get_arg_type, ht, hkv, dbus_message_iter_next]
        refine ⟨n + 1, ?_, ?_, ?_⟩
        · rw [hstep, h1]; simp
        · intro i hi
          cases i with
          | zero => exact ⟨(key, value), by simpa using hkv⟩
          | succ j => simpa using h2 j (by omega)
        · rw [hstep]
          simpa using h3
    · have hval : _message_iter_get_dict_entries_cursor P opts (w :: rest) ret
          = (.ok (), ret, w :: rest) := by
        rw [_message_iter_get_dict_entries_cursor]
        simp [dbus_message_iter_get_arg_type, ht]
      exact ⟨0, by simp [hval], by simp,
        Or.inl ⟨by simp [hval], by simp [dbus_message_iter_get_arg_type, ht]⟩⟩

/-- The loop of `_message_iter_get_dict` read off its state, on a cursor over
dict entries. -/
theorem get_dict_entries_cursor_result (P : Platform) (opts : Message_get_args_options)
    (pairs : List (Wire × Wire)) (ret : List (PyObj × PyObj)) :
    _message_iter_get_dict_entries P opts (dict_entries pairs) ret
      = match (_message_iter_get_dict_entries_cursor P opts (dict_entries pairs) ret).1 with
        | .error e => .error e
        | .ok _ =>
          .ok (_message_iter_get_dict_entries_cursor P opts (dict_entries pairs) ret).2.1 := by
  induction pairs generalizing ret with
  | nil =>
    rw [_message_iter_get_dict_entries_cursor]
    simp [dict_entries, dbus_message_iter_get_arg_type, _message_iter_get_dict_entries,
      DBUS_TYPE_INVALID, DBUS_TYPE_DICT_ENTRY]
  | cons p rest ih =>
    obtain ⟨k, v⟩ := p
    rw [_message_iter_get_dict_entries_cursor]
    simp only [dict_entries, List.map_cons, dbus_message_iter_get_arg_type, Wire.arg_type,
      if_true, _message_iter_get_dict_entries, dbus_message_iter_recurse,
      _message_iter_get_dict_kv_cursor, get_pyobject_cursor_cons, get_pyobject_cursor_snd,
      dbus_message_iter_next]
    cases hk : _message_iter_get_pyobject P opts k 0 with
    | error e => rfl
    | ok key =>
      cases hv : _message_iter_get_pyobject P opts v 0 with
      | error e => rfl
      | ok value => exact ih _

theorem byte_arrays_as_list_append (raw : Bool) (l : List PyObj) (x : PyObj) :
    PyObj.byte_arrays_as_list raw (l ++ [x])
      = (PyObj.byte_arrays_as_list raw l && PyObj.byte_arrays_as raw x) := by
  induction l with
  | nil => simp [PyObj.byte_arrays_as_list]
  | cons y rest ih => simp [PyObj.byte_arrays_as_list, ih, Bool.and_assoc]

theorem byte_arrays_as_items_setItem (raw : Bool) (d : List (PyObj × PyObj))
    (key value : PyObj) (hd : PyObj.byte_arrays_as_items raw d = true)
    (hk : PyObj.byte_arrays_as raw key = true) (hv : PyObj.byte_arrays_as raw value = true) :
    PyObj.byte_arrays_as_items raw (PyDict_SetItem d key value) = true := by
  induction d with
  | nil => simp [PyDict_SetItem, PyObj.byte_arrays_as_items, hk, hv]
  | cons x rest ih =>
    obtain ⟨a, b⟩ := x
    simp only [PyObj.byte_arrays_as_items, Bool.and_eq_true] at hd
    cases hak : a.py_eq key
    · simp [PyDict_SetItem, hak, PyObj.byte_arrays_as_items, hd.1.1, hd.1.2, ih hd.2]
    · simp [PyDict_SetItem, hak, PyObj.byte_arrays_as_items, hd.1.1, hv, hd.2]

mutual
/-- Every byte array inside a decoded value has the representation the
policy selects. -/
theorem byte_arrays_as_get_pyobject (P : Platform) (opts : Message_get_args_options) :
    ∀ (w : Wire) (d : Nat) (r : PyObj), _message_iter_get_pyobject P opts w d = .ok r →
      r.byte_arrays_as (decide (opts.byte_arrays ≠ 0)) = true
  | .array elem_sig elems, d, r, h => by
    rw [get_pyobject_array] at h
    by_cases hdict : dbus_message_iter_get_element_type elem_sig = DBUS_TYPE_DICT_ENTRY
    · rw [if_pos hdict] at h
      simp only [_message_iter_get_dict] at h
      cases hloop : _message_iter_get_dict_entries P opts elems [] with
      | error e => rw [hloop] at h; cases h
      | ok items =>
        rw [hloop] at h
        simp only [Except.ok.injEq] at h
        subst h
        simp only [DictType_call, PyObj.byte_arrays_as]
        exact byte_arrays_as_dict_entries P opts elems [] items hloop rfl
    · rw [if_neg hdict] at h
      by_cases hbyte : opts.byte_arrays ≠ 0
          ∧ dbus_message_iter_get_element_type elem_sig = DBUS_TYPE_BYTE
      · rw [if_pos hbyte] at h
        simp only [Except.ok.injEq] at h
        subst h
        simp [PyObj.byte_arrays_as, hbyte.1]
      · rw [if_neg hbyte] at h
        cases hloop : _message_iter_append_all_to_list P opts elems [] with
        | error e => rw [hloop] at h; cases h
        | ok items =>
          rw [hloop] at h
          simp only [Except.ok.injEq] at h
          subst h
          have hitems := byte_arrays_as_append_all P opts elems [] items hloop rfl
          simp only [PyObj.byte_arrays_as, hitems, Bool.and_true]
          by_cases hb : opts.byte_arrays = 0
          · simp [hb]
          · have : dbus_message_iter_get_element_type elem_sig ≠ DBUS_TYPE_BYTE :=
              fun hty => hbyte ⟨hb, hty⟩
            simp [this]
  | .struct members, d, r, h => by
    rw [get_pyobject_struct] at h
    cases hloop : _message_iter_append_all_to_list P opts members [] with
    | error e => rw [hloop] at h; cases h
    | ok items =>
      rw [hloop] at h
      simp only [Except.ok.injEq] at h
      subst h
      simp only [PyObj.byte_arrays_as]
      exact byte_arrays_as_append_all P opts members [] items hloop rfl
  | .variant inner, d, r, h => by
    rw [get_pyobject_variant] at h
    exact byte_arrays_as_get_pyobject P opts inner (d + 1) r h
  | .dict_entry _ _, _, _, h => by simp [_message_iter_get_pyobject] at h
  | .other _, _, _, h => by simp [_message_iter_get_pyobject] at h
  | .string s, d, r, h => by
    by_cases hu : opts.utf8_strings = 0
    · rw [get_pyobject_string_unicode P opts hu] at h
      cases hdec : PyUnicode_DecodeUTF8 (c_str s) with
      | none => rw [hdec] at h; cases h
      | some t =>
        rw [hdec] at h
        simp only [Except.ok.injEq] at h
        subst h
        simp [PyObj.byte_arrays_as]
    · rw [get_pyobject_string_utf8 P opts hu] at h
      simp only [Except.ok.injEq] at h
      subst h
      simp [PyObj.byte_arrays_as]
  | .int64 _, _, r, h => by
    cases hp : P.have_int64 <;>
      simp [_message_iter_get_pyobject, hp, PyObject_Call] at h
    subst h
    simp [PyObj.byte_arrays_as]
  | .uint64 _, _, r, h => by
    cases hp : P.have_int64 <;>
      simp [_message_iter_get_pyobject, hp, PyObject_Call] at h
    subst h
    simp [PyObj.byte_arrays_as]
  | .byte _, _, r, h => by
    simp only [_message_iter_get_pyobject, PyObject_Call, Except.ok.injEq] at h
    subst h
    simp [PyObj.byte_arrays_as]
  | .boolean _, _, r, h => by
    simp only [_message_iter_get_pyobject, PyObject_Call, Except.ok.injEq] at h
    subst h
    simp [PyObj.byte_arrays_as]
  | .int16 _, _, r, h => by
    simp only [_message_iter_get_pyobject, PyObject_Call, Except.ok.injEq] at h
    subst h
    simp [PyObj.byte_arrays_as]
  | .uint16 _, _, r, h => by
    simp only [_message_iter_get_pyobject, PyObject_Call, Except.ok.injEq] at h
    subst h
    simp [PyObj.byte_arrays_as]
  | .int32 _, _, r, h => by
    simp only [_message_iter_get_pyobject, PyObject_Call, Except.ok.injEq] at h
    subst h
    simp [PyObj.byte_arrays_as]
  | .uint32 _, _, r, h => by
    simp only [_message_iter_get_pyobject, PyObject_Call, Except.ok.injEq] at h
    subst h
    simp [PyObj.byte_arrays_as]
  | .double _, _, r, h => by
    simp only [_message_iter_get_pyobject, PyObject_Call, Except.ok.injEq] at h
    subst h
    simp [PyObj.byte_arrays_as]
  | .object_path _, _, r, h => by
    simp only [_message_iter_get_pyobject, PyObject_Call, Except.ok.injEq] at h
    subst h
    simp [PyObj.byte_arrays_as]
  | .signature _, _, r, h => by
    simp only [_message_iter_get_pyobject, PyObject_Call, Except.ok.injEq] at h
    subst h
    simp [PyObj.byte_arrays_as]
/-- The loop of `_message_iter_append_all_to_list` keeps the property. -/
theorem byte_arrays_as_append_all (P : Platform) (opts : Message_get_args_options) :
    ∀ (iter : List Wire) (list result : List PyObj),
      _message_iter_append_all_to_list P opts iter list = .ok result →
      PyObj.byte_arrays_as_list (decide (opts.byte_arrays ≠ 0)) list = true →
      PyObj.byte_arrays_as_list (decide (opts.byte_arrays ≠ 0)) result = true
  | [], list, result, h, hl => by
    simp only [_message_iter_append_all_to_list, Except.ok.injEq] at h
    exact h ▸ hl
  | w :: rest, list, result, h, hl => by
    rw [_message_iter_append_all_to_list] at h
    by_cases hw : w.arg_type = DBUS_TYPE_INVALID
    · rw [if_pos hw] at h
      simp only [Except.ok.injEq] at h
      exact h ▸ hl
    · rw [if_neg hw] at h
      cases hd : _message_iter_get_pyobject P opts w 0 with
      | error e => rw [hd] at h; cases h
      | ok item =>
        rw [hd] at h
        refine byte_arrays_as_append_all P opts rest (list ++ [item]) result h ?_
        rw [byte_arrays_as_list_append, hl, byte_arrays_as_get_pyobject P opts w 0 item hd]
        rfl
/-- The loop of `_message_iter_get_dict` keeps the property. -/
theorem byte_arrays_as_dict_entries (P : Platform) (opts : Message_get_args_options) :
    ∀ (entries : List Wire) (ret result : List (PyObj × PyObj)),
      _message_iter_get_dict_entries P opts entries ret = .ok result →
      PyObj.byte_arrays_as_items (decide (opts.byte_arrays ≠ 0)) ret = true →
      PyObj.byte_arrays_as_items (decide (opts.byte_arrays ≠ 0)) result = true
  | [], ret, result, h, hl => by
    simp only [_message_iter_get_dict_entries, Except.ok.injEq] at h
    exact h ▸ hl
  | .dict_entry key value :: rest, ret, result, h, hl => by
    simp only [_message_iter_get_dict_entries] at h
    cases hk : _message_iter_get_pyobject P opts key 0 with
    | error e => rw [hk] at h; cases h
    | ok k =>
      cases hv : _message_iter_get_pyobject P opts value 0 with
      | error e => rw [hk, hv] at h; cases h
      | ok v =>
        rw [hk, hv] at h
        exact byte_arrays_as_dict_entries P opts rest _ result h
          (byte_arrays_as_items_setItem _ ret k v hl
            (byte_arrays_as_get_pyobject P opts key 0 k hk)
            (byte_arrays_as_get_pyobject P opts value 0 v hv))
  | .byte _ :: _, _, _, h, hl => by
    simp only [_message_iter_get_dict_entries, Except.ok.injEq] at h; exact h ▸ hl
  | .boolean _ :: _, _, _, h, hl => by
    simp only [_message_iter_get_dict_entries, Except.ok.injEq] at h; exact h ▸ hl
  | .int16 _ :: _, _, _, h, hl => by
    simp only [_message_iter_get_dict_entries, Except.ok.injEq] at h; exact h ▸ hl
  | .uint16 _ :: _, _, _, h, hl => by
    simp only [_message_iter_get_dict_entries, Except.ok.injEq] at h; exact h ▸ hl
  | .int32 _ :: _, _, _, h, hl => by
    simp only [_message_iter_get_dict_entries, Except.ok.injEq] at h; exact h ▸ hl
  | .uint32 _ :: _, _, _, h, hl => by
    simp only [_message_iter_get_dict_entries, Except.ok.injEq] at h; exact h ▸ hl
  | .int64 _ :: _, _, _, h, hl => by
    simp only [_message_iter_get_dict_entries, Except.ok.injEq] at h; exact h ▸ hl
  | .uint64 _ :: _, _, _, h, hl => by
    simp only [_message_iter_get_dict_entries, Except.ok.injEq] at h; exact h ▸ hl
  | .double _ :: _, _, _, h, hl => by
    simp only [_message_iter_get_dict_entries, Except.ok.injEq] at h; exact h ▸ hl
  | .string _ :: _, _, _, h, hl => by
    simp only [_message_iter_get_dict_entries, Except.ok.injEq] at h; exact h ▸ hl
  | .object_path _ :: _, _, _, h, hl => by
    simp only [_message_iter_get_dict_entries, Except.ok.injEq] at h; exact h ▸ hl
  | .signature _ :: _, _, _, h, hl => by
    simp only [_message_iter_get_dict_entries, Except.ok.injEq] at h; exact h ▸ hl
  | .array _ _ :: _, _, _, h, hl => by
    simp only [_message_iter_get_dict_entries, Except.ok.injEq] at h; exact h ▸ hl
  | .struct _ :: _, _, _, h, hl => by
    simp only [_message_iter_get_dict_entries, Except.ok.injEq] at h; exact h ▸ hl
  | .variant _ :: _, _, _, h, hl => by
    simp only [_message_iter_get_dict_entries, Except.ok.injEq] at h; exact h ▸ hl
  | .other _ :: _, _, _, h, hl => by
    simp only [_message_iter_get_dict_entries, Except.ok.injEq] at h; exact h ▸ hl
end

/-- The flag `byte_arrays` of an accepted policy is the integer given for the
keyword, 0 without the keyword. -/
theorem parse_byte_arrays (P : Platform) (kwargs : List (String × PyArg))
    (opts : Message_get_args_options)
    (hpolicy : PyArg_ParseTupleAndKeywords P kwargs { byte_arrays := 0, utf8_strings := 0 }
      = .ok opts) :
    opts.byte_arrays = match kwargs.lookup "byte_arrays" with
      | some (.int v) => v
      | _ => 0 := by
  unfold PyArg_ParseTupleAndKeywords at hpolicy
  cases h1 : parse_keyword P kwargs "byte_arrays" 0 with
  | error e => simp [h1] at hpolicy
  | ok b =>
    cases h2 : parse_keyword P kwargs "utf8_strings" 0 with
    | error e => simp [h1, h2] at hpolicy
    | ok u =>
      simp only [h1, h2] at hpolicy
      split at hpolicy
      · cases hpolicy
      · simp only [Except.ok.injEq] at hpolicy
        subst hpolicy
        unfold parse_keyword at h1
        cases hl : kwargs.lookup "byte_arrays" with
        | none => simp [hl] at h1; simp [h1]
        | some v =>
          simp only [hl] at h1
          cases v with
          | int n =>
            simp only [parse_int] at h1
            split at h1
            · simp only [Except.ok.injEq] at h1
              simp [h1]
            · cases h1
          | float _ => simp [parse_int] at h1
          | str _ => simp [parse_int] at h1
          | unicode _ => simp [parse_int] at h1
          | None => simp [parse_int] at h1

/-- An array of bytes under a set `byte_arrays` flag: one byte array built
from the block of its bytes, which is the word None for an array without
elements. -/
theorem get_pyobject_byte_array_set (P : Platform) (opts : Message_get_args_options)
    (hset : opts.byte_arrays ≠ 0) (elem_sig : List Char)
    (hbyte : dbus_message_iter_get_element_type elem_sig = DBUS_TYPE_BYTE)
    (bs : List Nat) (d : Nat) :
    _message_iter_get_pyobject P opts (.array elem_sig (bs.map Wire.byte)) d
      = .ok (.scalar .ByteArrayType
          (if bs = [] then .str [78, 111, 110, 101] else .str bs) d) := by
  have hnd : dbus_message_iter_get_element_type elem_sig ≠ DBUS_TYPE_DICT_ENTRY := by
    rw [hbyte]; decide
  rw [get_pyobject_array, if_neg hnd, if_pos ⟨hset, hbyte⟩, byte_array_arg_bytes]

/-- An array of bytes under an unset `byte_arrays` flag: the sequence of its
bytes. -/
theorem get_pyobject_byte_array_unset (P : Platform) (hlong : 32 ≤ P.long_bits)
    (opts : Message_get_args_options) (hunset : opts.byte_arrays = 0) (elem_sig : List Char)
    (hbyte : dbus_message_iter_get_element_type elem_sig = DBUS_TYPE_BYTE)
    (bs : List Nat) (hbs : ∀ b ∈ bs, b < 256) (d : Nat) :
    _message_iter_get_pyobject P opts (.array elem_sig (bs.map Wire.byte)) d
      = .ok (.Array (bs.map (fun (b : Nat) => PyObj.scalar .ByteType (.int (b : Int)) 0))
          elem_sig d) := by
  have hnd : dbus_message_iter_get_element_type elem_sig ≠ DBUS_TYPE_DICT_ENTRY := by
    rw [hbyte]; decide
  have hall : List.Forall₂
      (fun w v => _message_iter_get_pyobject P opts w 0 = .ok v)
      (bs.map Wire.byte) (bs.map (fun (b : Nat) => PyObj.scalar .ByteType (.int (b : Int)) 0)) := by
    induction bs with
    | nil => exact List.Forall₂.nil
    | cons b bs ih =>
      exact List.Forall₂.cons
        (get_pyobject_byte P hlong opts b (hbs b (List.mem_cons_self _ _)) 0)
        (ih (fun x hx => hbs x (List.mem_cons_of_mem _ hx)))
  rw [get_pyobject_array, if_neg hnd, if_neg (by simp [hunset]),
    append_all_ok P opts _ _ hall]
  rfl

/-- The loop of `_message_iter_append_all_to_list` over elements none of
which is the end marker, when it succeeds: every element was decoded at level
0 and its value appended. -/
theorem append_all_items (P : Platform) (opts : Message_get_args_options)
    (iter : List Wire) (hiter : ∀ x ∈ iter, x.arg_type ≠ DBUS_TYPE_INVALID)
    (list l : List PyObj)
    (h : _message_iter_append_all_to_list P opts iter list = .ok l) :
    ∃ items, l = list ++ items
      ∧ List.Forall₂ (fun w v => _message_iter_get_pyobject P opts w 0 = .ok v) iter items := by
  induction iter generalizing list with
  | nil =>
    simp only [_message_iter_append_all_to_list, Except.ok.injEq] at h
    exact ⟨[], by simp [h], List.Forall₂.nil⟩
  | cons w rest ih =>
    rw [_message_iter_append_all_to_list, if_neg (hiter w (List.mem_cons_self _ _))] at h
    cases hw : _message_iter_get_pyobject P opts w 0 with
    | error e => simp [hw] at h
    | ok item =>
      simp only [hw] at h
      obtain ⟨items, hl, hitems⟩ := ih (fun x hx => hiter x (List.mem_cons_of_mem _ hx)) _ h
      exact ⟨item :: items, by simp [hl], List.Forall₂.cons hw hitems⟩

/-- The members of a well-formed struct or body are well-formed. -/
theorem well_formed_list_mem (l : List Wire) (h : Wire.well_formed_list l = true) :
    ∀ x ∈ l, x.well_formed = true := by
  induction l with
  | nil => simp
  | cons w rest ih =>
    simp only [Wire.well_formed_list, Bool.and_eq_true] at h
    intro x hx
    rcases List.mem_cons.mp hx with hx | hx
    · exact hx ▸ h.1
    · exact ih h.2 x hx

/-- The elements of a well-formed array that is no dictionary are
well-formed. -/
theorem well_formed_elems_mem (type : Nat) (ht : type ≠ DBUS_TYPE_DICT_ENTRY) (l : List Wire)
    (h : Wire.well_formed_elems type l = true) :
    ∀ x ∈ l, x.well_formed = true := by
  induction l with
  | nil => simp
  | cons w rest ih =>
    have hw := well_formed_elems_cons type w rest ht h
    intro x hx
    rcases List.mem_cons.mp hx with hx | hx
    · exact hx ▸ hw.1
    · exact ih hw.2 x hx

/-- The elements of a well-formed dictionary are dict entries with a
well-formed key and a well-formed value. -/
theorem well_formed_dict_elems (l : List Wire)
    (h : Wire.well_formed_elems DBUS_TYPE_DICT_ENTRY l = true) :
    ∀ x ∈ l, ∃ k v, x = .dict_entry k v ∧ k.well_formed = true ∧ v.well_formed = true := by
  induction l with
  | nil => simp
  | cons w rest ih =>
    have hrest : Wire.well_formed_elems DBUS_TYPE_DICT_ENTRY rest = true
        ∧ ∃ k v, w = .dict_entry k v ∧ k.well_formed = true ∧ v.well_formed = true := by
      cases w <;>
        first
        | (simp only [Wire.well_formed_elems, Bool.and_eq_true, decide_eq_true_eq] at h
           exact ⟨h.2, _, _, rfl, h.1.1.2, h.1.2⟩)
        | (simp only [Wire.well_formed_elems, Bool.and_eq_true, decide_eq_true_eq] at h
           exact absurd h.1.1 (arg_type_ne_dict_entry_of_well_formed _ h.1.2))
    intro x hx
    rcases List.mem_cons.mp hx with hx | hx
    · exact hx ▸ hrest.2
    · exact ih hrest.1 x hx

/-- The loop of `_message_iter_get_dict` keeps the value held under a key to
which no key of the entries it reads is equal. -/
theorem get_dict_entries_keep (P : Platform) (opts : Message_get_args_options)
    (key x : PyObj) (entries : List Wire) (ret result : List (PyObj × PyObj))
    (h : _message_iter_get_dict_entries P opts entries ret = .ok result)
    (hret : PyDict_GetItem ret key = some x)
    (hlater : ∀ (j : Nat) (k v : Wire) (key2 : PyObj), entries[j]? = some (.dict_entry k v) →
      _message_iter_get_pyobject P opts k 0 = .ok key2 → key2.py_eq key = false) :
    PyDict_GetItem result key = some x := by
  induction entries generalizing ret with
  | nil =>
    simp only [_message_iter_get_dict_entries, Except.ok.injEq] at h
    exact h ▸ hret
  | cons w rest ih =>
    cases w <;>
      first
      | (simp only [_message_iter_get_dict_entries, Except.ok.injEq] at h
         exact h ▸ hret)
      | skip
    rename_i k v
    simp only [_message_iter_get_dict_entries] at h
    cases hk : _message_iter_get_pyobject P opts k 0 with
    | error e => simp [hk] at h
    | ok key2 =>
      cases hv : _message_iter_get_pyobject P opts v 0 with
      | error e => simp [hk, hv] at h
      | ok value =>
        simp only [hk, hv] at h
        refine ih _ h ?_ (fun j k3 v3 key3 hj => hlater (j + 1) k3 v3 key3 (by simpa using hj))
        rw [getItem_setItem, hlater 0 k v key2 (by simp) hk]
        simpa using hret

/-- The loop of `_message_iter_get_dict` over dict entries, when it succeeds:
the value of an entry was decoded at level 0 and the mapping holds it under
the key of the entry, if that key is equal to itself and no later entry has a
key equal to it. -/
theorem get_dict_entries_lookup (P : Platform) (opts : Message_get_args_options)
    (key : PyObj) (hkey : key.py_eq key = true)
    (entries : List Wire) (hentries : ∀ x ∈ entries, ∃ k v, x = Wire.dict_entry k v)
    (ret result : List (PyObj × PyObj))
    (h : _message_iter_get_dict_entries P opts entries ret = .ok result)
    (i : Nat) (k v : Wire) (hi : entries[i]? = some (.dict_entry k v))
    (hk : _message_iter_get_pyobject P opts k 0 = .ok key)
    (hlater : ∀ (j : Nat) (k2 v2 : Wire) (key2 : PyObj), i < j →
      entries[j]? = some (.dict_entry k2 v2) →
      _message_iter_get_pyobject P opts k2 0 = .ok key2 → key2.py_eq key = false) :
    ∃ x, _message_iter_get_pyobject P opts v 0 = .ok x
      ∧ PyDict_GetItem result key = some x := by
  induction entries generalizing ret i with
  | nil => simp at hi
  | cons w rest ih =>
    obtain ⟨k0, v0, hw⟩ := hentries w (List.mem_cons_self _ _)
    subst hw
    simp only [_message_iter_get_dict_entries] at h
    cases hk0 : _message_iter_get_pyobject P opts k0 0 with
    | error e => simp [hk0] at h
    | ok key0 =>
      cases hv0 : _message_iter_get_pyobject P opts v0 0 with
      | error e => simp [hk0, hv0] at h
      | ok value0 =>
        simp only [hk0, hv0] at h
        cases i with
        | zero =>
          simp only [List.getElem?_cons_zero, Option.some.injEq, Wire.dict_entry.injEq] at hi
          obtain ⟨h1, h2⟩ := hi
          subst h1; subst h2
          rw [hk] at hk0
          simp only [Except.ok.injEq] at hk0
          subst hk0
          refine ⟨value0, hv0, ?_⟩
          refine get_dict_entries_keep P opts key value0 rest _ result h ?_
            (fun j k3 v3 key3 hj => hlater (j + 1) k3 v3 key3 (by omega) (by simpa using hj))
          rw [getItem_setItem, hkey]
          rfl
        | succ i =>
          exact ih (fun x hx => hentries x (List.mem_cons_of_mem _ hx)) _ h i
            (by simpa using hi)
            (fun j k3 v3 key3 hij hj =>
              hlater (j + 1) k3 v3 key3 (by omega) (by simpa using hj))

/-- One step into a well-formed element that decodes: the element inside is
well-formed, it decodes, with the same options and at the level of the step,
and the decoded value holds its value one step inside. -/
theorem decoded_child (P : Platform) (opts : Message_get_args_options)
    (s : Step) (w : Wire) (d : Nat) (r : PyObj) (c : Wire)
    (hwf : w.well_formed = true)
    (hr : _message_iter_get_pyobject P opts w d = .ok r)
    (hc : Wire.child s w = some c) (hstep : step_ok P opts s w) :
    c.well_formed = true
      ∧ ∃ rc, PyObj.child s r = some rc
          ∧ _message_iter_get_pyobject P opts c (step_level s d) = .ok rc := by
  cases s with
  | index i =>
    cases w <;> simp only [Wire.child, reduceCtorEq] at hc
    · rename_i elem_sig elems
      simp only [step_ok] at hstep
      simp only [Wire.well_formed] at hwf
      have hall := well_formed_elems_mem _ hstep.1 elems hwf
      rw [get_pyobject_array, if_neg hstep.1, if_neg hstep.2] at hr
      cases hl : _message_iter_append_all_to_list P opts elems [] with
      | error e => simp [hl] at hr
      | ok l =>
        simp only [hl, Except.ok.injEq] at hr
        subst hr
        obtain ⟨items, hitems, hforall⟩ := append_all_items P opts elems
          (fun x hx => arg_type_ne_invalid_of_well_formed x (hall x hx)) [] l hl
        simp only [List.nil_append] at hitems
        subst hitems
        obtain ⟨rc, hrc, hdec⟩ := (forall₂_positions _ _ _ hforall).2 i c hc
        exact ⟨hall c (List.getElem?_mem hc), rc, hrc, hdec⟩
    · rename_i members
      simp only [Wire.well_formed] at hwf
      have hall := well_formed_list_mem members hwf
      rw [get_pyobject_struct] at hr
      cases hl : _message_iter_append_all_to_list P opts members [] with
      | error e => simp [hl] at hr
      | ok l =>
        simp only [hl, Except.ok.injEq] at hr
        subst hr
        obtain ⟨items, hitems, hforall⟩ := append_all_items P opts members
          (fun x hx => arg_type_ne_invalid_of_well_formed x (hall x hx)) [] l hl
        simp only [List.nil_append] at hitems
        subst hitems
        obtain ⟨rc, hrc, hdec⟩ := (forall₂_positions _ _ _ hforall).2 i c hc
        exact ⟨hall c (List.getElem?_mem hc), rc, hrc, hdec⟩
  | value i key =>
    cases w <;> simp only [Wire.child, reduceCtorEq] at hc
    rename_i elem_sig elems
    simp only [step_ok] at hstep
    obtain ⟨hdict, ⟨k, v, hi, hk⟩, hkey, hlater⟩ := hstep
    simp only [hi, Option.some.injEq] at hc
    subst hc
    simp only [Wire.well_formed, hdict] at hwf
    have hall := well_formed_dict_elems elems hwf
    obtain ⟨k1, v1, h1, _, hv1⟩ := hall _ (List.getElem?_mem hi)
    simp only [Wire.dict_entry.injEq] at h1
    rw [get_pyobject_array, if_pos hdict, _message_iter_get_dict] at hr
    cases hl : _message_iter_get_dict_entries P opts elems [] with
    | error e => simp [hl] at hr
    | ok items =>
      simp only [hl, Except.ok.injEq] at hr
      subst hr
      obtain ⟨x, hx, hget⟩ := get_dict_entries_lookup P opts key hkey elems
        (fun y hy => by obtain ⟨a, b, hab, _⟩ := hall y hy; exact ⟨a, b, hab⟩)
        [] items hl i k v hi hk hlater
      exact ⟨h1.2 ▸ hv1, x, by simpa [PyObj.child, DictType_call] using hget, hx⟩
  | variant =>
    cases w <;> simp only [Wire.child, reduceCtorEq, Option.some.injEq] at hc
    subst hc
    rw [get_pyobject_variant] at hr
    exact ⟨by simpa [Wire.well_formed] using hwf, r, rfl, hr⟩

/-- The element at the end of a path into a well-formed element that
decodes, the path leading to a position of the decoded value: the element
decodes, with the same options and at the level of the path, and the decoded
value holds its value at the end of the path. -/
theorem decoded_at_path (P : Platform) (opts : Message_get_args_options) :
    ∀ (p : List Step) (w : Wire) (d : Nat) (r : PyObj) (a : Wire),
      w.well_formed = true → _message_iter_get_pyobject P opts w d = .ok r →
      Wire.at_path p w = some a → path_ok P opts p w →
      ∃ ra, PyObj.at_path p r = some ra
        ∧ _message_iter_get_pyobject P opts a (path_level p d) = .ok ra
  | [], w, d, r, a, _, hr, ha, _ => by
    simp only [Wire.at_path, Option.some.injEq] at ha
    subst ha
    exact ⟨r, rfl, hr⟩
  | s :: p, w, d, r, a, hwf, hr, ha, hok => by
    simp only [Wire.at_path] at ha
    cases hc : Wire.child s w with
    | none => simp [hc] at ha
    | some c =>
      simp only [hc] at ha
      obtain ⟨hcwf, rc, hrc, hdec⟩ := decoded_child P opts s w d r c hwf hr hc hok.1
      obtain ⟨ra, hra, hdeca⟩ :=
        decoded_at_path P opts p c (step_level s d) rc a hcwf hdec ha (hok.2 c hc)
      exact ⟨ra, by simp only [PyObj.at_path, hrc, hra], hdeca⟩

/-- A successful call of `Message_get_args_list` on a well-formed body: every
element of the body was decoded at level 0, with the options read from the
keywords, and the list holds its value at the position of the element. -/
theorem get_args_list_items (P : Platform) (body : List Wire)
    (kwargs : List (String × PyArg)) (opts : Message_get_args_options)
    (hpolicy : PyArg_ParseTupleAndKeywords P kwargs { byte_arrays := 0, utf8_strings := 0 }
      = .ok opts)
    (hwf : Wire.well_formed_list body = true) (items : List PyObj)
    (h : Message_get_args_list P { msg := some body } [] kwargs = .ok items) :
    List.Forall₂ (fun w v => _message_iter_get_pyobject P opts w 0 = .ok v) body items := by
  have hall := well_formed_list_mem body hwf
  have hne : ∀ x ∈ body, x.arg_type ≠ DBUS_TYPE_INVALID :=
    fun x hx => arg_type_ne_invalid_of_well_formed x (hall x hx)
  rw [get_args_list_eq P body kwargs opts hpolicy] at h
  have happ : _message_iter_append_all_to_list P opts body [] = .ok items := by
    cases body with
    | nil =>
      simp only [_message_iter_append_all_to_list]
      split at h <;> simpa [_message_iter_append_all_to_list] using h
    | cons w rest =>
      rw [if_pos (by
        simp only [dbus_message_iter_init, dbus_message_iter_get_arg_type,
          decide_eq_true_eq]
        exact hne w (List.mem_cons_self _ _))] at h
      exact h
  obtain ⟨l, hl, hforall⟩ := append_all_items P opts body hne [] items happ
  simp only [List.nil_append] at hl
  exact hl ▸ hforall

/-! ## C1: variant envelopes -/

/-- C1: decoding a non-variant element `v` wrapped in `N` nested variant
envelopes at depth `d` gives exactly what decoding `v` itself at depth
`d + N` gives, which is the value of `v` with recorded variant depth `d + N`
(`N` from the top level); the envelopes produce no value of their own. -/
theorem variant_envelopes_add_depth (P : Platform) (opts : Message_get_args_options)
    (d N : Nat) (v : Wire) (hv : v.arg_type ≠ DBUS_TYPE_VARIANT) :
    _message_iter_get_pyobject P opts (wrap_variants N v) d
        = _message_iter_get_pyobject P opts v (d + N)
    ∧ _message_iter_get_pyobject P opts (wrap_variants N v) d
        = (_message_iter_get_pyobject P opts v 0).map (PyObj.with_variant_level (d + N))
    ∧ (∀ r, _message_iter_get_pyobject P opts (wrap_variants N v) d = .ok r →
        r.variant_level = d + N)
    ∧ (∀ r, _message_iter_get_pyobject P opts (wrap_variants N v) 0 = .ok r →
        r.variant_level = N) := by
  refine ⟨get_pyobject_wrap_variants P opts N v d, ?_,
    variant_level_wrap_variants P opts N v hv d, ?_⟩
  · rw [get_pyobject_wrap_variants, get_pyobject_level P opts v hv]
  · intro r hr
    simpa using variant_level_wrap_variants P opts N v hv 0 r hr

/-- Witness of C1: an array under two variant envelopes, decoded at depth 3. -/
theorem variant_envelopes_add_depth_witness :
    (Wire.array ['i'] [.int32 7]).arg_type ≠ DBUS_TYPE_VARIANT
    ∧ (_message_iter_get_pyobject lp64 default_opts
          (wrap_variants 2 (.array ['i'] [.int32 7])) 3
        = _message_iter_get_pyobject lp64 default_opts (.array ['i'] [.int32 7]) (3 + 2)
      ∧ _message_iter_get_pyobject lp64 default_opts
          (wrap_variants 2 (.array ['i'] [.int32 7])) 3
        = (_message_iter_get_pyobject lp64 default_opts (.array ['i'] [.int32 7]) 0).map
            (PyObj.with_variant_level (3 + 2))
      ∧ (∀ r, _message_iter_get_pyobject lp64 default_opts
            (wrap_variants 2 (.array ['i'] [.int32 7])) 3 = .ok r →
          r.variant_level = 3 + 2)
      ∧ (∀ r, _message_iter_get_pyobject lp64 default_opts
            (wrap_variants 2 (.array ['i'] [.int32 7])) 0 = .ok r →
          r.variant_level = 2)) :=
  ⟨by decide,
    variant_envelopes_add_depth lp64 default_opts 3 2 (.array ['i'] [.int32 7]) (by decide)⟩

/-! ## C2: the arguments of a message -/

/-- C2: when the policy is accepted and every top-level element of a usable
message decodes, `Message_get_args_list` returns one value per element, the
value at each position being that of the element at that position decoded
with variant level 0; an empty body gives the empty list. -/
theorem get_args_list_decodes_each_element (P : Platform) (body : List Wire)
    (kwargs : List (String × PyArg)) (opts : Message_get_args_options)
    (hpolicy : PyArg_ParseTupleAndKeywords P kwargs { byte_arrays := 0, utf8_strings := 0 }
      = .ok opts)
    (hdec : ∀ e ∈ body, ∃ v, _message_iter_get_pyobject P opts e 0 = .ok v) :
    ∃ items, Message_get_args_list P { msg := some body } [] kwargs = .ok items
      ∧ items.length = body.length
      ∧ (∀ (i : Nat) e, body[i]? = some e →
          ∃ v, items[i]? = some v ∧ _message_iter_get_pyobject P opts e 0 = .ok v)
      ∧ (body = [] → items = []) := by
  obtain ⟨items, hitems⟩ := exists_items_of_all_ok P opts body hdec
  have hpos := forall₂_positions _ _ _ hitems
  refine ⟨items, ?_, hpos.1, hpos.2, ?_⟩
  · simp only [Message_get_args_list, List.length_nil, ne_eq, not_true_eq_false, if_false,
      hpolicy]
    cases body with
    | nil =>
      cases hitems
      simp [dbus_message_iter_init, dbus_message_iter_get_arg_type]
    | cons e es =>
      have hne : e.arg_type ≠ DBUS_TYPE_INVALID := by
        obtain ⟨v, hv⟩ := hdec e (List.mem_cons_self _ _)
        exact arg_type_ne_invalid_of_ok P opts e 0 v hv
      simp [dbus_message_iter_init, dbus_message_iter_get_arg_type, hne,
        append_all_ok P opts _ _ hitems]
  · intro hb
    subst hb
    cases hitems
    rfl

/-- Witness of C2: a body of a string and a 16-bit integer in a variant. -/
theorem get_args_list_decodes_each_element_witness :
    ∃ items, Message_get_args_list lp64
        { msg := some [.string [104, 105], .variant (.uint16 65535)] } []
        [("byte_arrays", .int 1)] = .ok items
      ∧ items.length = [Wire.string [104, 105], .variant (.uint16 65535)].length
      ∧ (∀ (i : Nat) e, [Wire.string [104, 105], .variant (.uint16 65535)][i]? = some e →
          ∃ v, items[i]? = some v
            ∧ _message_iter_get_pyobject lp64 { byte_arrays := 1, utf8_strings := 0 } e 0
              = .ok v)
      ∧ ([Wire.string [104, 105], .variant (.uint16 65535)] = [] → items = []) :=
  get_args_list_decodes_each_element lp64 [.string [104, 105], .variant (.uint16 65535)]
    [("byte_arrays", .int 1)] { byte_arrays := 1, utf8_strings := 0 } (by decide)
    (by
      intro e he
      simp only [List.mem_cons, List.mem_singleton, List.not_mem_nil, or_false] at he
      rcases he with rfl | rfl
      · exact ⟨_, rfl⟩
      · exact ⟨_, rfl⟩)

/-! ## C3: unknown type codes -/

/-- C3 as stated fails: on a platform without 64-bit integers the body made
of a 64-bit integer followed by an element of unknown type code 63 fails with
the error of the integer, not with the unknown-type error. -/
theorem unknown_type_error_counterexample :
    ¬ (∀ (P : Platform) (body : List Wire),
        (∀ w ∈ body, w.arg_type ≠ DBUS_TYPE_INVALID) →
        (∃ w ∈ body, w.arg_type ∉ recognised_types) →
        ∃ t, Message_get_args_list P { msg := some body } [] []
          = .error (.TypeError_unknown_type t)) := by
  intro h
  obtain ⟨t, ht⟩ := h ilp32_no_int64 [.int64 1, .other 63] (by decide)
    ⟨.other 63, by simp, by decide⟩
  have hrun : Message_get_args_list ilp32_no_int64 { msg := some [.int64 1, .other 63] } [] []
      = .error .RuntimeError_int64 := by decide
  rw [hrun] at ht
  cases ht

/-- C3, amended: when some top-level element of the body has a type code
that is no case label of the switch, `Message_get_args_list` fails and
returns no list; when every element before such an element decodes, the
error is the unknown-type error with that type code; in general the error is
that of the first element that does not decode. -/
theorem unknown_type_fails (P : Platform) (body : List Wire)
    (kwargs : List (String × PyArg)) (opts : Message_get_args_options)
    (hpolicy : PyArg_ParseTupleAndKeywords P kwargs { byte_arrays := 0, utf8_strings := 0 }
      = .ok opts)
    (hvalid : ∀ w ∈ body, w.arg_type ≠ DBUS_TYPE_INVALID)
    (hunknown : ∃ w ∈ body, w.arg_type ∉ recognised_types) :
    (∃ e, Message_get_args_list P { msg := some body } [] kwargs = .error e)
    ∧ (∀ pre w post, body = pre ++ w :: post → w.arg_type ∉ recognised_types →
        (∀ x ∈ pre, ∃ v, _message_iter_get_pyobject P opts x 0 = .ok v) →
        Message_get_args_list P { msg := some body } [] kwargs
          = .error (.TypeError_unknown_type w.arg_type))
    ∧ (∀ pre w post e, body = pre ++ w :: post →
        (∀ x ∈ pre, ∃ v, _message_iter_get_pyobject P opts x 0 = .ok v) →
        _message_iter_get_pyobject P opts w 0 = .error e →
        Message_get_args_list P { msg := some body } [] kwargs = .error e) := by
  rw [get_args_list_eq P body kwargs opts hpolicy]
  have hinit : dbus_message_iter_init body = true := by
    cases body with
    | nil =>
      obtain ⟨w, hw, _⟩ := hunknown
      cases hw
    | cons x xs => exact iter_init_cons x xs (hvalid x (List.mem_cons_self _ _))
  rw [hinit]
  simp only [if_true]
  refine ⟨?_, ?_, ?_⟩
  · obtain ⟨w, hw, hrec⟩ := hunknown
    exact append_all_fails P opts body hvalid
      ⟨w, hw, _, get_pyobject_unknown P opts w 0 hrec⟩ []
  · intro pre w post hbody hrec hpre
    obtain ⟨items, hitems⟩ := exists_items_of_all_ok P opts pre hpre
    rw [hbody]
    exact append_all_error P opts pre items w post _ hitems
      (hvalid w (by rw [hbody]; simp)) (get_pyobject_unknown P opts w 0 hrec) []
  · intro pre w post e hbody hpre hw
    obtain ⟨items, hitems⟩ := exists_items_of_all_ok P opts pre hpre
    rw [hbody]
    exact append_all_error P opts pre items w post e hitems
      (hvalid w (by rw [hbody]; simp)) hw []

/-- Witness of C3: a body whose second element has the unknown type code 63. -/
theorem unknown_type_fails_witness :
    (∃ e, Message_get_args_list lp64 { msg := some [.int32 5, .other 63, .byte 1] } []
        [("utf8_strings", .int 1)] = .error e)
    ∧ (∀ pre w post, [Wire.int32 5, .other 63, .byte 1] = pre ++ w :: post →
        w.arg_type ∉ recognised_types →
        (∀ x ∈ pre, ∃ v, _message_iter_get_pyobject lp64
          { byte_arrays := 0, utf8_strings := 1 } x 0 = .ok v) →
        Message_get_args_list lp64 { msg := some [.int32 5, .other 63, .byte 1] } []
            [("utf8_strings", .int 1)]
          = .error (.TypeError_unknown_type w.arg_type)) :=
  have h := unknown_type_fails lp64 [.int32 5, .other 63, .byte 1] [("utf8_strings", .int 1)]
    { byte_arrays := 0, utf8_strings := 1 } (by decide) (by decide)
    ⟨.other 63, by simp, by decide⟩
  ⟨h.1, h.2.1⟩

/-! ## C4: dictionaries -/

/-- C4, counterexample: a key on the wire does not always map to the value of
its last occurrence.  The keys +0.0 and -0.0 differ on the wire and each
occurs once, yet the mapping holds one item, the first key with the second
value; a NaN key that occurs twice is held twice, each time with its own
value, and is not found by a lookup; so the lookup of a key is not the value
of the last entry with that same key. -/
theorem get_dict_last_occurrence_counterexample :
    _message_iter_get_dict lp64 default_opts ['{', 'd', 's', '}']
        (dict_entries [(.double 0, .string [97]),
          (.double 9223372036854775808, .string [99])]) {}
      = .ok (.Dict [(.scalar .DoubleType (.float 0) 0, .scalar .StringType (.unicode [99]) 0)]
          ['d', 's'] 0)
    ∧ _message_iter_get_dict lp64 default_opts ['{', 'd', 's', '}']
        (dict_entries [(.double 9221120237041090560, .string [97]),
          (.double 9221120237041090560, .string [99])]) {}
      = .ok (.Dict [(.scalar .DoubleType (.float 9221120237041090560) 0,
            .scalar .StringType (.unicode [97]) 0),
          (.scalar .DoubleType (.float 9221120237041090560) 0,
            .scalar .StringType (.unicode [99]) 0)]
          ['d', 's'] 0)
    ∧ ¬ (∀ (pairs : List (Wire × Wire)) (decoded : List (PyObj × PyObj)),
        List.Forall₂ (fun p q => _message_iter_get_pyobject lp64 default_opts p.1 0 = .ok q.1
          ∧ _message_iter_get_pyobject lp64 default_opts p.2 0 = .ok q.2) pairs decoded →
        ∃ items sig d,
          _message_iter_get_dict lp64 default_opts ['{', 'd', 's', '}'] (dict_entries pairs) {}
            = .ok (.Dict items sig d)
          ∧ ∀ k, PyDict_GetItem items k
              = (decoded.reverse.find? (fun q => decide (q.1 = k))).map (fun q => q.2)) := by
  refine ⟨by decide, by decide, ?_⟩
  intro hall
  obtain ⟨items, sig, d, hitems, hlookup⟩ := hall
    [(.double 0, .string [97]), (.double 9223372036854775808, .string [99])]
    [(.scalar .DoubleType (.float 0) 0, .scalar .StringType (.unicode [97]) 0),
     (.scalar .DoubleType (.float 9223372036854775808) 0, .scalar .StringType (.unicode [99]) 0)]
    (List.Forall₂.cons ⟨rfl, rfl⟩ (List.Forall₂.cons ⟨rfl, rfl⟩ List.Forall₂.nil))
  have heval : _message_iter_get_dict lp64 default_opts ['{', 'd', 's', '}']
      (dict_entries [(.double 0, .string [97]),
        (.double 9223372036854775808, .string [99])]) {}
      = .ok (.Dict [(.scalar .DoubleType (.float 0) 0, .scalar .StringType (.unicode [99]) 0)]
          ['d', 's'] 0) := by decide
  rw [heval] at hitems
  simp only [Except.ok.injEq, PyObj.Dict.injEq] at hitems
  have h0 := hlookup (.scalar .DoubleType (.float 0) 0)
  rw [← hitems.1] at h0
  revert h0
  decide

/-- C4: when the keys and values of all entries decode, `_message_iter_get_dict`
returns the mapping obtained by inserting the decoded pairs into an empty
mapping in wire order, so that the lookup of a key gives the value of the
last entry whose key is equal to it as the mapping compares keys: keys built
from integers are equal when the integers are, keys built from strings when
the strings are, keys built from doubles when the doubles are equal numbers,
so that +0.0 and -0.0 are one key and a NaN key is equal to no key, itself
included.  Entries (1,a),(2,b) give the mapping 1:a, 2:b and entries
(1,a),(1,c) give the mapping 1:c. -/
theorem get_dict_last_equal_key_wins (P : Platform) (opts : Message_get_args_options)
    (elem_sig : List Char) (kwargs : Kwargs)
    (pairs : List (Wire × Wire)) (decoded : List (PyObj × PyObj))
    (h : List.Forall₂ (fun p q => _message_iter_get_pyobject P opts p.1 0 = .ok q.1
      ∧ _message_iter_get_pyobject P opts p.2 0 = .ok q.2) pairs decoded) :
    _message_iter_get_dict P opts elem_sig (dict_entries pairs) kwargs
        = .ok (.Dict (insert_all [] decoded)
            (dict_signature (dbus_message_iter_get_signature elem_sig))
            (kwargs.variant_level.getD 0))
    ∧ (∀ k, PyDict_GetItem (insert_all [] decoded) k
        = (decoded.reverse.find? (fun q => q.1.py_eq k)).map (fun q => q.2))
    ∧ (∀ (t1 t2 : PyType) (a b : Int) (v1 v2 : Nat),
        (PyObj.scalar t1 (.int a) v1).py_eq (.scalar t2 (.int b) v2) = decide (a = b))
    ∧ (∀ (t1 t2 : PyType) (s t : List Nat) (v1 v2 : Nat),
        (PyObj.scalar t1 (.str s) v1).py_eq (.scalar t2 (.str t) v2) = decide (s = t)
        ∧ (PyObj.scalar t1 (.unicode s) v1).py_eq (.scalar t2 (.unicode t) v2)
            = decide (s = t))
    ∧ (∀ (t1 t2 : PyType) (x y : Nat) (v1 v2 : Nat),
        (PyObj.scalar t1 (.float x) v1).py_eq (.scalar t2 (.float y) v2) = double_eq x y
        ∧ (double_is_nan x = true → double_eq x y = false ∧ double_eq y x = false)
        ∧ (double_is_nan x = false → double_eq x x = true))
    ∧ double_eq 0 9223372036854775808 = true
    ∧ double_is_nan 9221120237041090560 = true
    ∧ _message_iter_get_dict lp64 default_opts ['{', 'i', 's', '}']
          (dict_entries [(.int32 1, .string [97]), (.int32 2, .string [98])]) {}
        = .ok (.Dict [(.scalar .Int32Type (.int 1) 0, .scalar .StringType (.unicode [97]) 0),
            (.scalar .Int32Type (.int 2) 0, .scalar .StringType (.unicode [98]) 0)]
            ['i', 's'] 0)
    ∧ _message_iter_get_dict lp64 default_opts ['{', 'i', 's', '}']
          (dict_entries [(.int32 1, .string [97]), (.int32 1, .string [99])]) {}
        = .ok (.Dict [(.scalar .Int32Type (.int 1) 0, .scalar .StringType (.unicode [99]) 0)]
            ['i', 's'] 0) := by
  refine ⟨?_, ?_, fun _ _ _ _ _ _ => rfl, fun _ _ _ _ _ _ => ⟨rfl, rfl⟩, ?_,
    by decide, by decide, by decide, by decide⟩
  · simp only [_message_iter_get_dict, get_dict_entries_ok P opts pairs decoded h,
      DictType_call, Kwargs.get_signature, Kwargs.get_variant_level,
      kwargs_set_signature, Option.getD_some]
  · intro k
    rw [getItem_insert_all]
    cases decoded.reverse.find? (fun q => q.1.py_eq k) <;> simp [PyDict_GetItem]
  · intro t1 t2 x y v1 v2
    refine ⟨rfl, ?_, ?_⟩
    · intro hx
      simp [double_eq, hx]
    · intro hx
      simp [double_eq, hx]

/-- Witness of C4: keys that are doubles, in a dictionary of depth 2: the two
zeros are one key that holds the last of their values, and each NaN key
holds its own value. -/
theorem get_dict_last_equal_key_wins_witness :
    _message_iter_get_dict lp64 default_opts ['{', 'd', 'v', '}']
        (dict_entries [(.double 0, .variant (.byte 7)),
          (.double 9221120237041090560, .variant (.byte 8)),
          (.double 9223372036854775808, .variant (.uint32 9)),
          (.double 9221120237041090560, .variant (.byte 10))])
        { variant_level := some 2 }
      = .ok (.Dict [(.scalar .DoubleType (.float 0) 0, .scalar .UInt32Type (.int 9) 1),
          (.scalar .DoubleType (.float 9221120237041090560) 0, .scalar .ByteType (.int 8) 1),
          (.scalar .DoubleType (.float 9221120237041090560) 0, .scalar .ByteType (.int 10) 1)]
          ['d', 'v'] 2) :=
  (get_dict_last_equal_key_wins lp64 default_opts ['{', 'd', 'v', '}']
    { variant_level := some 2 }
    [(.double 0, .variant (.byte 7)),
     (.double 9221120237041090560, .variant (.byte 8)),
     (.double 9223372036854775808, .variant (.uint32 9)),
     (.double 9221120237041090560, .variant (.byte 10))]
    [(.scalar .DoubleType (.float 0) 0, .scalar .ByteType (.int 7) 1),
     (.scalar .DoubleType (.float 9221120237041090560) 0, .scalar .ByteType (.int 8) 1),
     (.scalar .DoubleType (.float 9223372036854775808) 0, .scalar .UInt32Type (.int 9) 1),
     (.scalar .DoubleType (.float 9221120237041090560) 0, .scalar .ByteType (.int 10) 1)]
    (List.Forall₂.cons ⟨rfl, rfl⟩ (List.Forall₂.cons ⟨rfl, rfl⟩
      (List.Forall₂.cons ⟨rfl, rfl⟩ (List.Forall₂.cons ⟨rfl, rfl⟩ List.Forall₂.nil))))).1

/-! ## C5: byte arrays -/

/-- C5, the failing input: the byte array without elements.  With
`byte_arrays` set the bulk read hands back the NULL pointer and the count 0,
`Py_BuildValue` builds `None` from them and the byte array built from `None`
holds the four bytes of the word None; with `byte_arrays` unset the same
payload decodes to the sequence without elements.  The raw-bytes value has
length 4 and the sequence length 0.  For every byte array with at least one
element, on a platform whose `long` has at least 32 bits, the two paths
agree: the raw-bytes value holds the bytes `bs`, the sequence has the length
of `bs` and its value at each position is the byte at that position. -/
theorem empty_byte_array_paths_differ (P : Platform)
    (opts_set opts_unset : Message_get_args_options)
    (hset : opts_set.byte_arrays ≠ 0) (hunset : opts_unset.byte_arrays = 0) (d : Nat) :
    _message_iter_get_pyobject P opts_set (.array ['y'] []) d
        = .ok (.scalar .ByteArrayType (.str [78, 111, 110, 101]) d)
    ∧ _message_iter_get_pyobject P opts_unset (.array ['y'] []) d
        = .ok (.Array [] ['y'] d)
    ∧ dbus_message_iter_get_fixed_array [] = (none, 0)
    ∧ ByteArrayType_call (Py_BuildValue_s_hash none 0) none
        = .scalar .ByteArrayType (.str [78, 111, 110, 101]) 0
    ∧ ([78, 111, 110, 101] : List Nat).length = 4
    ∧ (∀ (bs : List Nat), bs ≠ [] → 32 ≤ P.long_bits → (∀ b ∈ bs, b < 256) →
        _message_iter_get_pyobject P opts_set (.array ['y'] (bs.map Wire.byte)) d
            = .ok (.scalar .ByteArrayType (.str bs) d)
        ∧ _message_iter_get_pyobject P opts_unset (.array ['y'] (bs.map Wire.byte)) d
            = .ok (.Array (bs.map (fun (b : Nat) => PyObj.scalar .ByteType (.int (b : Int)) 0))
                ['y'] d)
        ∧ (bs.map (fun (b : Nat) => PyObj.scalar .ByteType (.int (b : Int)) 0)).length
            = bs.length
        ∧ (∀ (i : Nat) b, bs[i]? = some b →
            (bs.map (fun (b : Nat) => PyObj.scalar .ByteType (.int (b : Int)) 0))[i]?
              = some (.scalar .ByteType (.int b) 0))) := by
  have hbyte : dbus_message_iter_get_element_type ['y'] = DBUS_TYPE_BYTE := by decide
  have hnd : dbus_message_iter_get_element_type ['y'] ≠ DBUS_TYPE_DICT_ENTRY := by decide
  refine ⟨?_, ?_, rfl, rfl, rfl, ?_⟩
  · exact get_pyobject_byte_array_set P opts_set hset ['y'] hbyte [] d
  · rw [get_pyobject_array, if_neg hnd, if_neg (by simp [hunset])]
    rfl
  · intro bs hne hlong hbs
    refine ⟨?_, ?_, by simp, ?_⟩
    · rw [show (Except.ok (PyObj.scalar .ByteArrayType (.str bs) d) : Except PyErr PyObj)
          = .ok (.scalar .ByteArrayType
              (if bs = [] then .str [78, 111, 110, 101] else .str bs) d) by rw [if_neg hne]]
      exact get_pyobject_byte_array_set P opts_set hset ['y'] hbyte bs d
    · exact get_pyobject_byte_array_unset P hlong opts_unset hunset ['y'] hbyte bs hbs d
    · intro i b hi
      simp [hi]

/-- Witness of C5: the byte array without elements and the byte array
0, 255, 7 under both policies. -/
theorem empty_byte_array_paths_differ_witness :
    _message_iter_get_pyobject lp64 { byte_arrays := 1, utf8_strings := 0 }
        (.array ['y'] []) 1
      = .ok (.scalar .ByteArrayType (.str [78, 111, 110, 101]) 1)
    ∧ _message_iter_get_pyobject lp64 default_opts (.array ['y'] []) 1
      = .ok (.Array [] ['y'] 1)
    ∧ _message_iter_get_pyobject lp64 { byte_arrays := 1, utf8_strings := 0 }
        (.array ['y'] ([0, 255, 7].map Wire.byte)) 1
      = .ok (.scalar .ByteArrayType (.str [0, 255, 7]) 1)
    ∧ _message_iter_get_pyobject lp64 default_opts
        (.array ['y'] ([0, 255, 7].map Wire.byte)) 1
      = .ok (.Array [.scalar .ByteType (.int 0) 0, .scalar .ByteType (.int 255) 0,
          .scalar .ByteType (.int 7) 0] ['y'] 1) :=
  have h := empty_byte_array_paths_differ lp64 { byte_arrays := 1, utf8_strings := 0 }
    default_opts (by decide) (by decide) 1
  have hbs := h.2.2.2.2.2 [0, 255, 7] (by decide) (by decide) (by decide)
  ⟨h.1, h.2.1, hbs.1, hbs.2.1⟩

/-! ## C6: structs -/

/-- C6: when every member of a struct decodes, the struct decodes to an
ordered sequence with one value per member, the value at each position being
that of the member at that position (decoded at variant level 0); a struct of
the 32-bit integer 7 and the string x decodes to a sequence of 2 values. -/
theorem struct_arity (P : Platform) (opts : Message_get_args_options)
    (es : List Wire) (d : Nat)
    (h : ∀ e ∈ es, ∃ v, _message_iter_get_pyobject P opts e 0 = .ok v) :
    (∃ items, _message_iter_get_pyobject P opts (.struct es) d = .ok (.Struct items d)
      ∧ items.length = es.length
      ∧ (∀ (i : Nat) e, es[i]? = some e →
          ∃ v, items[i]? = some v ∧ _message_iter_get_pyobject P opts e 0 = .ok v))
    ∧ _message_iter_get_pyobject lp64 default_opts (.struct [.int32 7, .string [120]]) 0
        = .ok (.Struct [.scalar .Int32Type (.int 7) 0,
            .scalar .StringType (.unicode [120]) 0] 0) := by
  refine ⟨?_, by decide⟩
  obtain ⟨items, hitems⟩ := exists_items_of_all_ok P opts es h
  have hpos := forall₂_positions _ _ _ hitems
  refine ⟨items, ?_, hpos.1, hpos.2⟩
  rw [get_pyobject_struct, append_all_ok P opts es items hitems]
  rfl

/-- Witness of C6: a struct of a boolean in a variant and an empty struct. -/
theorem struct_arity_witness :
    (∃ items, _message_iter_get_pyobject lp64 default_opts
        (.struct [.variant (.boolean 1), .struct []]) 4 = .ok (.Struct items 4)
      ∧ items.length = [Wire.variant (.boolean 1), .struct []].length
      ∧ (∀ (i : Nat) e, [Wire.variant (.boolean 1), .struct []][i]? = some e →
          ∃ v, items[i]? = some v
            ∧ _message_iter_get_pyobject lp64 default_opts e 0 = .ok v)) :=
  (struct_arity lp64 default_opts [.variant (.boolean 1), .struct []] 4
    (by
      intro e he
      simp only [List.mem_cons, List.mem_singleton, List.not_mem_nil, or_false] at he
      rcases he with rfl | rfl
      · exact ⟨_, rfl⟩
      · exact ⟨_, rfl⟩)).1

/-! ## C7: fixed-width integers -/

/-- C7: on a platform whose `int` has more than 16 bits and whose `long` has
at least 32 bits, every
byte, boolean, 16-bit and 32-bit integer in the range of its wire type (and
every 64-bit integer where 64-bit integers are supported) decodes to a value
of the matching type whose number is the wire value and whose variant level
is the level the decoder was called with; a top-level argument is decoded
with level 0. -/
theorem fixed_width_integers_exact (P : Platform) (hint : 16 < P.int_bits)
    (hlong : 32 ≤ P.long_bits) (opts : Message_get_args_options) (variant_level : Nat) :
    (∀ y : Nat, y < 2 ^ 8 →
      _message_iter_get_pyobject P opts (.byte y) variant_level
        = .ok (.scalar .ByteType (.int y) variant_level))
    ∧ (∀ b : Nat, b ≤ 1 →
      _message_iter_get_pyobject P opts (.boolean b) variant_level
        = .ok (.scalar .BooleanType (.int b) variant_level))
    ∧ (∀ i : Int, -(2 ^ 15) ≤ i → i < 2 ^ 15 →
      _message_iter_get_pyobject P opts (.int16 i) variant_level
        = .ok (.scalar .Int16Type (.int i) variant_level))
    ∧ (∀ u : Nat, u < 2 ^ 16 →
      _message_iter_get_pyobject P opts (.uint16 u) variant_level
        = .ok (.scalar .UInt16Type (.int u) variant_level))
    ∧ (∀ i : Int, -(2 ^ 31) ≤ i → i < 2 ^ 31 →
      _message_iter_get_pyobject P opts (.int32 i) variant_level
        = .ok (.scalar .Int32Type (.int i) variant_level))
    ∧ (∀ u : Nat, u < 2 ^ 32 →
      _message_iter_get_pyobject P opts (.uint32 u) variant_level
        = .ok (.scalar .UInt32Type (.int u) variant_level))
    ∧ (P.have_int64 = true →
        (∀ i : Int, -(2 ^ 63) ≤ i → i < 2 ^ 63 →
          _message_iter_get_pyobject P opts (.int64 i) variant_level
            = .ok (.scalar .Int64Type (.int i) variant_level))
        ∧ (∀ u : Nat, u < 2 ^ 64 →
          _message_iter_get_pyobject P opts (.uint64 u) variant_level
            = .ok (.scalar .UInt64Type (.int u) variant_level)))
    ∧ (∀ w : Wire, w.arg_type ≠ DBUS_TYPE_INVALID →
        _message_iter_append_all_to_list P opts [w] []
          = (_message_iter_get_pyobject P opts w 0).map (fun r => [r])) := by
  refine ⟨?_, ?_, ?_, ?_, ?_, ?_, ?_, ?_⟩
  · intro y hy
    exact get_pyobject_byte P hlong opts y (by omega) variant_level
  · intro b hb
    have hcast : cast_signed P.long_bits (b : Int) = b :=
      cast_signed_of_range 1 P.long_bits b (by omega) (by omega) (by norm_num; omega)
    simp only [_message_iter_get_pyobject, hcast,
      PyObject_Call_kwargs _ _ _ _ (show DBUS_TYPE_BOOLEAN ≠ DBUS_TYPE_VARIANT by decide)]
  · intro i hlo hhi
    have hcast : cast_signed P.int_bits i = i :=
      cast_signed_of_range 15 P.int_bits i (by omega) hlo hhi
    simp only [_message_iter_get_pyobject, hcast,
      PyObject_Call_kwargs _ _ _ _ (show DBUS_TYPE_INT16 ≠ DBUS_TYPE_VARIANT by decide)]
  · intro u hu
    have hcast : cast_signed P.int_bits (u : Int) = u :=
      cast_signed_of_range 16 P.int_bits u (by omega) (by omega) (by norm_num; omega)
    simp only [_message_iter_get_pyobject, hcast,
      PyObject_Call_kwargs _ _ _ _ (show DBUS_TYPE_UINT16 ≠ DBUS_TYPE_VARIANT by decide)]
  · intro i hlo hhi
    have hcast : cast_signed P.long_bits i = i :=
      cast_signed_of_range 31 P.long_bits i (by omega) hlo hhi
    simp only [_message_iter_get_pyobject, hcast,
      PyObject_Call_kwargs _ _ _ _ (show DBUS_TYPE_INT32 ≠ DBUS_TYPE_VARIANT by decide)]
  · intro u hu
    have hcast : cast_unsigned P.long_bits (u : Int) = u :=
      cast_unsigned_of_range 32 P.long_bits u hlong (by omega) (by norm_num; omega)
    simp only [_message_iter_get_pyobject, hcast,
      PyObject_Call_kwargs _ _ _ _ (show DBUS_TYPE_UINT32 ≠ DBUS_TYPE_VARIANT by decide)]
  · intro h64
    constructor
    · intro i hlo hhi
      have hcast : cast_signed 64 i = i :=
        cast_signed_of_range 63 64 i (by omega) hlo hhi
      simp only [_message_iter_get_pyobject, h64, if_true, hcast,
        PyObject_Call_kwargs _ _ _ _ (show DBUS_TYPE_INT64 ≠ DBUS_TYPE_VARIANT by decide)]
    · intro u hu
      have hcast : cast_unsigned 64 (u : Int) = u :=
        cast_unsigned_of_range 64 64 u (by omega) (by omega) (by norm_num; omega)
      simp only [_message_iter_get_pyobject, h64, if_true, hcast,
        PyObject_Call_kwargs _ _ _ _ (show DBUS_TYPE_UINT64 ≠ DBUS_TYPE_VARIANT by decide)]
  · intro w hw
    rw [_message_iter_append_all_to_list, if_neg hw]
    cases _message_iter_get_pyobject P opts w 0 <;>
      simp [_message_iter_append_all_to_list, Except.map]

/-- Witness of C7: the largest 16-bit unsigned and the smallest 64-bit signed integer. -/
theorem fixed_width_integers_exact_witness :
    _message_iter_get_pyobject lp64 default_opts (.uint16 65535) 0
        = .ok (.scalar .UInt16Type (.int 65535) 0)
    ∧ _message_iter_get_pyobject lp64 default_opts (.int64 (-9223372036854775808)) 0
        = .ok (.scalar .Int64Type (.int (-9223372036854775808)) 0) :=
  have h := fixed_width_integers_exact lp64 (by decide) (by decide) default_opts 0
  ⟨h.2.2.2.1 65535 (by norm_num),
    (h.2.2.2.2.2.2.1 rfl).1 (-9223372036854775808) (by norm_num) (by norm_num)⟩

/-! ## C8: the keys and values of a dictionary -/

/-- C8 as stated fails: a dictionary with the entry (1, 2) decoded at depth 1
does not hold the key and value decoded at depth 1; they are decoded at
depth 0. -/
theorem dict_entries_at_current_depth_counterexample :
    ¬ (∀ (P : Platform) (opts : Message_get_args_options) (elem_sig : List Char)
        (pairs : List (Wire × Wire)) (decoded : List (PyObj × PyObj)) (d : Nat),
        dbus_message_iter_get_element_type elem_sig = DBUS_TYPE_DICT_ENTRY →
        List.Forall₂ (fun p q => _message_iter_get_pyobject P opts p.1 d = .ok q.1
          ∧ _message_iter_get_pyobject P opts p.2 d = .ok q.2) pairs decoded →
        _message_iter_get_pyobject P opts (.array elem_sig (dict_entries pairs)) d
          = .ok (.Dict (insert_all [] decoded)
              (dict_signature (dbus_message_iter_get_signature elem_sig)) d)) := by
  intro h
  have hclaim := h lp64 default_opts ['{', 'i', 'i', '}'] [(.int32 1, .int32 2)]
    [(.scalar .Int32Type (.int 1) 1, .scalar .Int32Type (.int 2) 1)] 1 (by decide)
    (List.Forall₂.cons ⟨rfl, rfl⟩ List.Forall₂.nil)
  have hrun : _message_iter_get_pyobject lp64 default_opts
      (.array ['{', 'i', 'i', '}'] (dict_entries [(.int32 1, .int32 2)])) 1
      = .ok (.Dict [(.scalar .Int32Type (.int 1) 0, .scalar .Int32Type (.int 2) 0)]
          ['i', 'i'] 1) := by decide
  rw [hrun] at hclaim
  revert hclaim
  decide

/-- C8, amended: whatever the depth `d` an array of dict entries is decoded
at, the key and the value of each entry are decoded at depth 0, key first and
value second: the mapping holds the pairs decoded at depth 0 and only the
mapping itself records `d`; a key that fails gives its error whatever the
value does, and a value that fails after its key decoded gives its error. -/
theorem dict_entries_at_depth_zero (P : Platform) (opts : Message_get_args_options)
    (elem_sig : List Char)
    (hdict : dbus_message_iter_get_element_type elem_sig = DBUS_TYPE_DICT_ENTRY)
    (d : Nat) :
    (∀ (pairs : List (Wire × Wire)) (decoded : List (PyObj × PyObj)),
      List.Forall₂ (fun p q => _message_iter_get_pyobject P opts p.1 0 = .ok q.1
        ∧ _message_iter_get_pyobject P opts p.2 0 = .ok q.2) pairs decoded →
      _message_iter_get_pyobject P opts (.array elem_sig (dict_entries pairs)) d
        = .ok (.Dict (insert_all [] decoded)
            (dict_signature (dbus_message_iter_get_signature elem_sig)) d))
    ∧ (∀ (key value : Wire) (rest : List Wire) (e : PyErr),
      _message_iter_get_pyobject P opts key 0 = .error e →
      _message_iter_get_pyobject P opts (.array elem_sig (.dict_entry key value :: rest)) d
        = .error e)
    ∧ (∀ (key value : Wire) (rest : List Wire) (k : PyObj) (e : PyErr),
      _message_iter_get_pyobject P opts key 0 = .ok k →
      _message_iter_get_pyobject P opts value 0 = .error e →
      _message_iter_get_pyobject P opts (.array elem_sig (.dict_entry key value :: rest)) d
        = .error e) := by
  refine ⟨?_, ?_, ?_⟩
  · intro pairs decoded h
    exact get_pyobject_dict P opts elem_sig hdict pairs decoded h d
  · intro key value rest e hkey
    simp only [_message_iter_get_pyobject, hdict, if_true, _message_iter_get_dict_entries,
      hkey]
  · intro key value rest k e hkey hvalue
    simp only [_message_iter_get_pyobject, hdict, if_true, _message_iter_get_dict_entries,
      hkey, hvalue]

/-- Witness of C8: a dictionary decoded at depth 1, and one whose key fails. -/
theorem dict_entries_at_depth_zero_witness :
    _message_iter_get_pyobject lp64 default_opts
        (.array ['{', 'i', 'v', '}'] (dict_entries [(.int32 1, .variant (.int32 2))])) 1
      = .ok (.Dict [(.scalar .Int32Type (.int 1) 0, .scalar .Int32Type (.int 2) 1)]
          ['i', 'v'] 1)
    ∧ _message_iter_get_pyobject lp64 default_opts
        (.array ['{', 'i', 'v', '}'] [.dict_entry (.other 63) (.other 64)]) 1
      = .error (.TypeError_unknown_type 63) :=
  have h := dict_entries_at_depth_zero lp64 default_opts ['{', 'i', 'v', '}'] (by decide) 1
  ⟨h.1 [(.int32 1, .variant (.int32 2))]
      [(.scalar .Int32Type (.int 1) 0, .scalar .Int32Type (.int 2) 1)]
      (List.Forall₂.cons ⟨rfl, rfl⟩ List.Forall₂.nil),
    h.2.1 (.other 63) (.other 64) [] _ rfl⟩

/-! ## C9: the elements of a plain array -/

/-- C9 as stated fails: the plain array that holds the 32-bit integer 7,
decoded at depth 1, does not hold the element decoded at depth 1; the element
is decoded at depth 0. -/
theorem array_elements_at_current_depth_counterexample :
    ¬ (∀ (P : Platform) (opts : Message_get_args_options) (elem_sig : List Char)
        (elems : List Wire) (items : List PyObj) (d : Nat),
        (dbus_message_iter_get_element_type elem_sig ≠ DBUS_TYPE_DICT_ENTRY
          ∧ ¬ (opts.byte_arrays ≠ 0
            ∧ dbus_message_iter_get_element_type elem_sig = DBUS_TYPE_BYTE)) →
        List.Forall₂ (fun w v => _message_iter_get_pyobject P opts w d = .ok v)
          elems items →
        _message_iter_get_pyobject P opts (.array elem_sig elems) d
          = .ok (.Array items elem_sig d)) := by
  intro h
  have hclaim := h lp64 default_opts ['i'] [.int32 7] [.scalar .Int32Type (.int 7) 1] 1
    (by decide) (List.Forall₂.cons rfl List.Forall₂.nil)
  have hrun : _message_iter_get_pyobject lp64 default_opts (.array ['i'] [.int32 7]) 1
      = .ok (.Array [.scalar .Int32Type (.int 7) 0] ['i'] 1) := by decide
  rw [hrun] at hclaim
  revert hclaim
  decide

/-- C9, amended: whatever the depth `d` a plain array (element type neither
dict entry nor byte selected by the policy) is decoded at, each of its
elements is decoded at depth 0: the array holds the values of its elements
decoded at depth 0, in order, and only the array itself records `d`. -/
theorem array_elements_at_depth_zero (P : Platform) (opts : Message_get_args_options)
    (elem_sig : List Char)
    (hplain : dbus_message_iter_get_element_type elem_sig ≠ DBUS_TYPE_DICT_ENTRY
      ∧ ¬ (opts.byte_arrays ≠ 0
        ∧ dbus_message_iter_get_element_type elem_sig = DBUS_TYPE_BYTE))
    (elems : List Wire) (items : List PyObj) (d : Nat)
    (h : List.Forall₂ (fun w v => _message_iter_get_pyobject P opts w 0 = .ok v)
      elems items) :
    _message_iter_get_pyobject P opts (.array elem_sig elems) d
        = .ok (.Array items elem_sig d)
    ∧ items.length = elems.length
    ∧ (∀ (i : Nat) e, elems[i]? = some e →
        ∃ v, items[i]? = some v ∧ _message_iter_get_pyobject P opts e 0 = .ok v) :=
  ⟨get_pyobject_plain_array P opts elem_sig hplain elems items h d,
    (forall₂_positions _ _ _ h).1, (forall₂_positions _ _ _ h).2⟩

/-- Witness of C9: an array of variants decoded at depth 2. -/
theorem array_elements_at_depth_zero_witness :
    _message_iter_get_pyobject lp64 default_opts
        (.array ['v'] [.variant (.int32 7), .variant (.string [120])]) 2
      = .ok (.Array [.scalar .Int32Type (.int 7) 1,
          .scalar .StringType (.unicode [120]) 1] ['v'] 2) :=
  (array_elements_at_depth_zero lp64 default_opts ['v'] (by decide)
    [.variant (.int32 7), .variant (.string [120])]
    [.scalar .Int32Type (.int 7) 1, .scalar .StringType (.unicode [120]) 1] 2
    (List.Forall₂.cons rfl (List.Forall₂.cons rfl List.Forall₂.nil))).1

/-! ## C10: the variant depth is not inherited -/

/-- C10: a container (plain array, struct or dictionary) decoded at depth `d`
carries depth `d` itself, and each element directly contained in it (array
element, struct member, dictionary key or value) that is wrapped in exactly
`k` variant envelopes of its own is materialised with depth exactly `k`,
whatever `d` is. -/
theorem variant_depth_not_inherited (P : Platform) (opts : Message_get_args_options)
    (d : Nat) :
    (∀ (elem_sig : List Char) (elems : List Wire) (items : List PyObj),
      (dbus_message_iter_get_element_type elem_sig ≠ DBUS_TYPE_DICT_ENTRY
        ∧ ¬ (opts.byte_arrays ≠ 0
          ∧ dbus_message_iter_get_element_type elem_sig = DBUS_TYPE_BYTE)) →
      List.Forall₂ (fun w v => _message_iter_get_pyobject P opts w 0 = .ok v) elems items →
      (_message_iter_get_pyobject P opts (.array elem_sig elems) d
          = .ok (.Array items elem_sig d)
        ∧ (PyObj.Array items elem_sig d).variant_level = d
        ∧ ∀ (i k : Nat) (v : Wire), elems[i]? = some (wrap_variants k v) →
            v.arg_type ≠ DBUS_TYPE_VARIANT →
            ∃ x, items[i]? = some x ∧ x.variant_level = k))
    ∧ (∀ (members : List Wire) (items : List PyObj),
      List.Forall₂ (fun w v => _message_iter_get_pyobject P opts w 0 = .ok v)
        members items →
      (_message_iter_get_pyobject P opts (.struct members) d = .ok (.Struct items d)
        ∧ (PyObj.Struct items d).variant_level = d
        ∧ ∀ (i k : Nat) (v : Wire), members[i]? = some (wrap_variants k v) →
            v.arg_type ≠ DBUS_TYPE_VARIANT →
            ∃ x, items[i]? = some x ∧ x.variant_level = k))
    ∧ (∀ (elem_sig : List Char) (pairs : List (Wire × Wire))
        (decoded : List (PyObj × PyObj)),
      dbus_message_iter_get_element_type elem_sig = DBUS_TYPE_DICT_ENTRY →
      List.Forall₂ (fun p q => _message_iter_get_pyobject P opts p.1 0 = .ok q.1
        ∧ _message_iter_get_pyobject P opts p.2 0 = .ok q.2) pairs decoded →
      (_message_iter_get_pyobject P opts (.array elem_sig (dict_entries pairs)) d
          = .ok (.Dict (insert_all [] decoded)
              (dict_signature (dbus_message_iter_get_signature elem_sig)) d)
        ∧ (PyObj.Dict (insert_all [] decoded)
              (dict_signature (dbus_message_iter_get_signature elem_sig)) d).variant_level
            = d
        ∧ ∀ (i k₁ k₂ : Nat) (a b : Wire),
            pairs[i]? = some (wrap_variants k₁ a, wrap_variants k₂ b) →
            a.arg_type ≠ DBUS_TYPE_VARIANT → b.arg_type ≠ DBUS_TYPE_VARIANT →
            ∃ q, decoded[i]? = some q ∧ q.1.variant_level = k₁
              ∧ q.2.variant_level = k₂)) := by
  refine ⟨?_, ?_, ?_⟩
  · intro elem_sig elems items hplain h
    exact ⟨get_pyobject_plain_array P opts elem_sig hplain elems items h d, rfl,
      fun i k v hi hv => variant_levels_of_items P opts elems items h i k v hi hv⟩
  · intro members items h
    refine ⟨?_, rfl, fun i k v hi hv => variant_levels_of_items P opts members items h i k v hi hv⟩
    rw [get_pyobject_struct, append_all_ok P opts members items h]
    rfl
  · intro elem_sig pairs decoded hdict h
    refine ⟨get_pyobject_dict P opts elem_sig hdict pairs decoded h d, rfl, ?_⟩
    intro i k₁ k₂ a b hi ha hb
    obtain ⟨q, hq, hdec⟩ := (forall₂_positions _ _ _ h).2 i _ hi
    refine ⟨q, hq, ?_, ?_⟩
    · simpa using variant_level_wrap_variants P opts k₁ a ha 0 q.1 hdec.1
    · simpa using variant_level_wrap_variants P opts k₂ b hb 0 q.2 hdec.2

/-- Witness of C10: a struct decoded at depth 5 whose first member is under two variant envelopes. -/
theorem variant_depth_not_inherited_witness :
    (_message_iter_get_pyobject lp64 default_opts
        (.struct [.variant (.variant (.int32 7)), .byte 3]) 5
      = .ok (.Struct [.scalar .Int32Type (.int 7) 2, .scalar .ByteType (.int 3) 0] 5)
    ∧ (PyObj.Struct [.scalar .Int32Type (.int 7) 2, .scalar .ByteType (.int 3) 0]
        5).variant_level = 5
    ∧ ∀ (i k : Nat) (v : Wire),
        [Wire.variant (.variant (.int32 7)), .byte 3][i]? = some (wrap_variants k v) →
        v.arg_type ≠ DBUS_TYPE_VARIANT →
        ∃ x, [PyObj.scalar .Int32Type (.int 7) 2, .scalar .ByteType (.int 3) 0][i]? = some x
          ∧ x.variant_level = k) :=
  (variant_depth_not_inherited lp64 default_opts 5).2.1
    [.variant (.variant (.int32 7)), .byte 3]
    [.scalar .Int32Type (.int 7) 2, .scalar .ByteType (.int 3) 0]
    (List.Forall₂.cons rfl (List.Forall₂.cons rfl List.Forall₂.nil))

/-! ## C11: arrays of dict entries -/

/-- C11: an array whose element type is dict entry, under every policy and
at every depth, is decoded by `_message_iter_get_dict`, whatever
`byte_arrays` is; when it decodes, the value is a mapping and not a sequence;
the array without entries decodes to the empty mapping. -/
theorem dict_entry_array_is_mapping (P : Platform) (opts : Message_get_args_options)
    (elem_sig : List Char) (elems : List Wire) (d : Nat)
    (hdict : dbus_message_iter_get_element_type elem_sig = DBUS_TYPE_DICT_ENTRY) :
    _message_iter_get_pyobject P opts (.array elem_sig elems) d
        = _message_iter_get_dict P opts elem_sig elems
            ((variant_level_kwargs d DBUS_TYPE_ARRAY).getD
              { variant_level := none, signature := none })
    ∧ (∀ r, _message_iter_get_pyobject P opts (.array elem_sig elems) d = .ok r →
        (∃ items, r = .Dict items
            (dict_signature (dbus_message_iter_get_signature elem_sig)) d)
        ∧ ∀ items signature variant_level, r ≠ .Array items signature variant_level)
    ∧ _message_iter_get_pyobject P opts (.array elem_sig []) d
        = .ok (.Dict [] (dict_signature (dbus_message_iter_get_signature elem_sig)) d) := by
  refine ⟨?_, ?_, ?_⟩
  · rw [get_pyobject_array, if_pos hdict]
  · intro r hr
    simp only [_message_iter_get_pyobject, hdict, if_true, DictType_call_kwargs] at hr
    cases hloop : _message_iter_get_dict_entries P opts elems [] with
    | error e => rw [hloop] at hr; cases hr
    | ok items =>
      rw [hloop] at hr
      simp only [Except.ok.injEq] at hr
      subst hr
      exact ⟨⟨items, rfl⟩, fun _ _ _ h => by cases h⟩
  · simp only [_message_iter_get_pyobject, hdict, if_true, DictType_call_kwargs,
      _message_iter_get_dict_entries]

/-- Witness of C11: an empty array of dict entries and one with an entry,
with `byte_arrays` set. -/
theorem dict_entry_array_is_mapping_witness :
    _message_iter_get_pyobject lp64 { byte_arrays := 1, utf8_strings := 0 }
        (.array ['{', 'y', 'y', '}'] []) 0
      = .ok (.Dict [] ['y', 'y'] 0)
    ∧ ∃ items, PyObj.Dict [(.scalar .ByteType (.int 1) 0, .scalar .ByteType (.int 2) 0)]
          ['y', 'y'] 3
        = .Dict items
            (dict_signature (dbus_message_iter_get_signature ['{', 'y', 'y', '}'])) 3 :=
  have h0 := dict_entry_array_is_mapping lp64 { byte_arrays := 1, utf8_strings := 0 }
    ['{', 'y', 'y', '}'] [] 0 (by decide)
  have h1 := dict_entry_array_is_mapping lp64 { byte_arrays := 1, utf8_strings := 0 }
    ['{', 'y', 'y', '}'] [.dict_entry (.byte 1) (.byte 2)] 3 (by decide)
  ⟨h0.2.2, (h1.2.1 _ (by decide)).1⟩

/-! ## C12: the signature of a dictionary -/

/-- C12: for a dictionary whose signature is the letter a, an opening brace,
the key signature `K`, the value signature `V` and a closing brace, the
computation `sig_str+2` with length `strlen(sig_str)-3` gives exactly `K`
followed by `V`, and the mapping `_message_iter_get_dict` returns is
annotated with it. -/
theorem dict_entry_signature (P : Platform) (opts : Message_get_args_options)
    (K V : List Char) (entries : List Wire) (kwargs : Kwargs) (r : PyObj)
    (hr : _message_iter_get_dict P opts ('{' :: (K ++ V ++ ['}'])) entries kwargs = .ok r) :
    dict_signature (dbus_message_iter_get_signature ('{' :: (K ++ V ++ ['}']))) = K ++ V
    ∧ ∃ items, r = .Dict items (K ++ V) (kwargs.variant_level.getD 0) := by
  have hsig : dict_signature (dbus_message_iter_get_signature ('{' :: (K ++ V ++ ['}'])))
      = K ++ V := by
    simp only [dict_signature, dbus_message_iter_get_signature, List.drop_succ_cons,
      List.drop_zero, List.length_cons, List.length_append, List.length_nil]
    rw [show K.length + V.length + (0 + 1) + 1 + 1 - 3 = (K ++ V).length by
      simp only [List.length_append]; omega]
    exact List.take_left' rfl
  refine ⟨hsig, ?_⟩
  simp only [_message_iter_get_dict] at hr
  cases hloop : _message_iter_get_dict_entries P opts entries [] with
  | error e => rw [hloop] at hr; cases hr
  | ok items =>
    rw [hloop] at hr
    simp only [Except.ok.injEq] at hr
    subst hr
    refine ⟨items, ?_⟩
    simp only [DictType_call, Kwargs.get_signature, Kwargs.get_variant_level,
      kwargs_set_signature, Option.getD_some, hsig]

/-- Witness of C12: a dictionary from strings to dictionaries from strings
to variants. -/
theorem dict_entry_signature_witness :
    dict_signature (dbus_message_iter_get_signature
        ('{' :: (['s'] ++ ['a', '{', 's', 'v', '}'] ++ ['}'])))
      = ['s'] ++ ['a', '{', 's', 'v', '}']
    ∧ ∃ items, PyObj.Dict [] ['s', 'a', '{', 's', 'v', '}'] 1
        = .Dict items (['s'] ++ ['a', '{', 's', 'v', '}'])
            (({ variant_level := some 1 } : Kwargs).variant_level.getD 0) :=
  dict_entry_signature lp64 default_opts ['s'] ['a', '{', 's', 'v', '}'] []
    { variant_level := some 1 } _ (by decide)

/-! ## C13: the representation of string-like values -/

/-- C13 as stated fails: with `utf8_strings` not set, the signature `i`
decodes to a raw 8-bit string, not to a validated text value. -/
theorem utf8_strings_all_kinds_counterexample :
    ¬ (∀ (P : Platform) (opts : Message_get_args_options) (s : List Nat) (d : Nat)
        (w : Wire) (r : PyObj),
        (w = .string s ∨ w = .object_path s ∨ w = .signature s) →
        _message_iter_get_pyobject P opts w d = .ok r →
        (opts.utf8_strings ≠ 0 → r.is_raw_text = true)
        ∧ (opts.utf8_strings = 0 → r.is_validated_text = true)) := by
  intro h
  have hclaim := (h lp64 default_opts [105] 0 (.signature [105])
    (.scalar .SignatureType (.str [105]) 0) (Or.inr (Or.inr rfl)) (by decide)).2 rfl
  revert hclaim
  decide

/-- C13, amended: a string decodes to a raw 8-bit string when `utf8_strings`
is set and, when it is not set, to a validated text value (the decoded text
of its bytes), or fails; an object path and a signature decode to a raw 8-bit
string of their own type whatever `utf8_strings` is. -/
theorem utf8_strings_selects_strings_only (P : Platform) (opts : Message_get_args_options)
    (s : List Nat) (d : Nat) :
    (opts.utf8_strings ≠ 0 →
      _message_iter_get_pyobject P opts (.string s) d
        = .ok (.scalar .UTF8StringType (.str (c_str s)) d))
    ∧ (opts.utf8_strings = 0 → ∀ r,
      _message_iter_get_pyobject P opts (.string s) d = .ok r →
        r.is_validated_text = true
        ∧ ∃ text, PyUnicode_DecodeUTF8 (c_str s) = some text
          ∧ r = .scalar .StringType (.unicode text) d)
    ∧ _message_iter_get_pyobject P opts (.object_path s) d
        = .ok (.scalar .ObjectPathType (.str (c_str s)) d)
    ∧ _message_iter_get_pyobject P opts (.signature s) d
        = .ok (.scalar .SignatureType (.str (c_str s)) d)
    ∧ (PyObj.scalar .UTF8StringType (.str (c_str s)) d).is_raw_text = true
    ∧ (PyObj.scalar .ObjectPathType (.str (c_str s)) d).is_raw_text = true
    ∧ (PyObj.scalar .SignatureType (.str (c_str s)) d).is_raw_text = true := by
  refine ⟨fun h => get_pyobject_string_utf8 P opts h s d, ?_, ?_, ?_, rfl, rfl, rfl⟩
  · intro h r hr
    rw [get_pyobject_string_unicode P opts h] at hr
    cases hdec : PyUnicode_DecodeUTF8 (c_str s) with
    | none => rw [hdec] at hr; cases hr
    | some text =>
      rw [hdec] at hr
      simp only [Except.ok.injEq] at hr
      subst hr
      exact ⟨rfl, text, rfl, rfl⟩
  · simp only [_message_iter_get_pyobject,
      PyObject_Call_kwargs _ _ _ _ (show DBUS_TYPE_OBJECT_PATH ≠ DBUS_TYPE_VARIANT by decide)]
  · simp only [_message_iter_get_pyobject,
      PyObject_Call_kwargs _ _ _ _ (show DBUS_TYPE_SIGNATURE ≠ DBUS_TYPE_VARIANT by decide)]

/-- Witness of C13: the string of the bytes of the text "é" under both
policies. -/
theorem utf8_strings_selects_strings_only_witness :
    _message_iter_get_pyobject lp64 { byte_arrays := 0, utf8_strings := 1 }
        (.string [195, 169]) 2
      = .ok (.scalar .UTF8StringType (.str (c_str [195, 169])) 2)
    ∧ ((PyObj.scalar .StringType (.unicode [233]) 2).is_validated_text = true
      ∧ ∃ text, PyUnicode_DecodeUTF8 (c_str [195, 169]) = some text
        ∧ PyObj.scalar .StringType (.unicode [233]) 2
          = .scalar .StringType (.unicode text) 2) :=
  ⟨(utf8_strings_selects_strings_only lp64 { byte_arrays := 0, utf8_strings := 1 }
      [195, 169] 2).1 (by decide),
    (utf8_strings_selects_strings_only lp64 default_opts [195, 169] 2).2.1 rfl _
      (by decide)⟩

/-! ## C14: ASCII strings -/

/-- C14: for a string whose bytes are all ASCII, the decodes with
`utf8_strings` set and not set both succeed, with the same variant level, and
the raw value of the first is byte for byte the UTF-8 encoding of the text
of the second. -/
theorem ascii_string_paths_agree (P : Platform)
    (opts_set opts_unset : Message_get_args_options)
    (hset : opts_set.utf8_strings ≠ 0) (hunset : opts_unset.utf8_strings = 0)
    (s : List Nat) (hascii : ∀ b ∈ s, b < 128) (d : Nat) :
    ∃ raw text,
      _message_iter_get_pyobject P opts_set (.string s) d
          = .ok (.scalar .UTF8StringType (.str raw) d)
      ∧ _message_iter_get_pyobject P opts_unset (.string s) d
          = .ok (.scalar .StringType (.unicode text) d)
      ∧ utf8_encode text = raw := by
  have hc : ∀ b ∈ c_str s, b < 128 := fun b hb => hascii b (mem_c_str s b hb)
  refine ⟨c_str s, c_str s, get_pyobject_string_utf8 P opts_set hset s d, ?_,
    utf8_encode_ascii _ hc⟩
  rw [get_pyobject_string_unicode P opts_unset hunset, decodeUTF8_ascii _ hc]

/-- Witness of C14: the string "hi". -/
theorem ascii_string_paths_agree_witness :
    ∃ raw text,
      _message_iter_get_pyobject lp64 { byte_arrays := 0, utf8_strings := 1 }
          (.string [104, 105]) 1
          = .ok (.scalar .UTF8StringType (.str raw) 1)
      ∧ _message_iter_get_pyobject lp64 default_opts (.string [104, 105]) 1
          = .ok (.scalar .StringType (.unicode text) 1)
      ∧ utf8_encode text = raw :=
  ascii_string_paths_agree lp64 { byte_arrays := 0, utf8_strings := 1 } default_opts
    (by decide) (by decide) [104, 105] (by decide) 1

/-! ## C15: strings that are not UTF-8 -/

/-- C15: with `utf8_strings` not set, a string whose bytes are not
well-formed UTF-8 fails to decode with the encoding error and gives no value;
a call of `Message_get_args_list` on a body with such a string at the top
level fails, with the encoding error when the elements before the string
decode. -/
theorem invalid_utf8_fails (P : Platform) (opts : Message_get_args_options)
    (hunset : opts.utf8_strings = 0) (s : List Nat)
    (hinvalid : valid_utf8 (c_str s) = false) (d : Nat) :
    _message_iter_get_pyobject P opts (.string s) d = .error .UnicodeDecodeError
    ∧ (∀ r, _message_iter_get_pyobject P opts (.string s) d ≠ .ok r)
    ∧ (∀ (kwargs : List (String × PyArg)) (pre post : List Wire),
        PyArg_ParseTupleAndKeywords P kwargs { byte_arrays := 0, utf8_strings := 0 }
          = .ok opts →
        (∀ w ∈ pre ++ .string s :: post, w.arg_type ≠ DBUS_TYPE_INVALID) →
        (∃ e, Message_get_args_list P { msg := some (pre ++ .string s :: post) } [] kwargs
          = .error e)
        ∧ ((∀ x ∈ pre, ∃ v, _message_iter_get_pyobject P opts x 0 = .ok v) →
          Message_get_args_list P { msg := some (pre ++ .string s :: post) } [] kwargs
            = .error .UnicodeDecodeError)) := by
  have hnone : PyUnicode_DecodeUTF8 (c_str s) = none := by
    have h := decodeUTF8_isSome (c_str s)
    rw [hinvalid] at h
    cases hd : PyUnicode_DecodeUTF8 (c_str s) with
    | none => rfl
    | some t => rw [hd] at h; cases h
  have hfail : ∀ k, _message_iter_get_pyobject P opts (.string s) k
      = .error .UnicodeDecodeError := by
    intro k
    rw [get_pyobject_string_unicode P opts hunset, hnone]
  refine ⟨hfail d, (fun r hr => by rw [hfail d] at hr; cases hr), ?_⟩
  intro kwargs pre post hpolicy hvalid
  rw [get_args_list_eq P _ kwargs opts hpolicy]
  have hinit : dbus_message_iter_init (pre ++ .string s :: post) = true := by
    cases pre with
    | nil => exact iter_init_cons _ _ (by simp only [Wire.arg_type]; decide)
    | cons x xs => exact iter_init_cons x _ (hvalid x (by simp))
  rw [hinit]
  simp only [if_true]
  constructor
  · exact append_all_fails P opts _ hvalid ⟨.string s, by simp, _, hfail 0⟩ []
  · intro hpre
    obtain ⟨items, hitems⟩ := exists_items_of_all_ok P opts pre hpre
    exact append_all_error P opts pre items (.string s) post _ hitems
      (by simp only [Wire.arg_type]; decide) (hfail 0) []

/-- Witness of C15: a string that holds the single byte 255. -/
theorem invalid_utf8_fails_witness :
    _message_iter_get_pyobject lp64 default_opts (.string [255]) 0
      = .error .UnicodeDecodeError
    ∧ Message_get_args_list lp64 { msg := some ([.int32 1] ++ .string [255] :: [.byte 2]) }
        [] [] = .error .UnicodeDecodeError :=
  have h := invalid_utf8_fails lp64 default_opts rfl [255] (by decide) 0
  ⟨h.1, ((h.2.2 [] [.int32 1] [.byte 2] (by decide) (by decide)).2
    (by intro x hx; simp only [List.mem_singleton] at hx; subst hx; exact ⟨_, rfl⟩))⟩

/-! ## C16: invalidated messages -/

/-- C16: with an accepted policy and no positional argument, a call of
`Message_get_args_list` on a message that has been invalidated fails with the
unusable-message error; the error is raised before a cursor exists, so no
element is read and no list is returned. -/
theorem unusable_message (P : Platform) (kwargs : List (String × PyArg))
    (opts : Message_get_args_options)
    (hpolicy : PyArg_ParseTupleAndKeywords P kwargs { byte_arrays := 0, utf8_strings := 0 }
      = .ok opts) :
    Message_get_args_list P { msg := none } [] kwargs = .error .UnusableMessage
    ∧ ∀ list, Message_get_args_list P { msg := none } [] kwargs ≠ .ok list := by
  have h : Message_get_args_list P { msg := none } [] kwargs = .error .UnusableMessage := by
    simp only [Message_get_args_list, List.length_nil, ne_eq, not_true_eq_false, if_false,
      hpolicy]
  exact ⟨h, fun list hl => by rw [h] at hl; cases hl⟩

/-- Witness of C16: both flags given. -/
theorem unusable_message_witness :
    Message_get_args_list lp64 { msg := none } []
        [("byte_arrays", .int 1), ("utf8_strings", .int 0)] = .error .UnusableMessage
    ∧ ∀ list, Message_get_args_list lp64 { msg := none } []
        [("byte_arrays", .int 1), ("utf8_strings", .int 0)] ≠ .ok list :=
  unusable_message lp64 [("byte_arrays", .int 1), ("utf8_strings", .int 0)]
    { byte_arrays := 1, utf8_strings := 0 } (by decide)

/-! ## C17: unknown flags and positional arguments -/

/-- C17: a call of `Message_get_args_list` with a positional argument, or
with a keyword other than `byte_arrays` and `utf8_strings`, fails with an
argument error, the same for every message: the message is not looked at and
no element is read. A positional argument gives the error for positional
arguments. -/
theorem unknown_flag_rejected (P : Platform) (self : Message) (args : List PyArg)
    (kwargs : List (String × PyArg))
    (h : args ≠ [] ∨ ∃ kv ∈ kwargs, kv.1 ≠ "byte_arrays" ∧ kv.1 ≠ "utf8_strings") :
    ∃ e, Message_get_args_list P self args kwargs = .error e
      ∧ e.is_invalid_argument = true
      ∧ (∀ other : Message, Message_get_args_list P other args kwargs = .error e)
      ∧ (args ≠ [] → e = .TypeError_positional) := by
  by_cases hargs : args = []
  · subst hargs
    have hkw : ∃ kv ∈ kwargs, kv.1 ≠ "byte_arrays" ∧ kv.1 ≠ "utf8_strings" := by
      rcases h with h | h
      · exact absurd rfl h
      · exact h
    obtain ⟨e, he, hinv⟩ :=
      parse_rejects_unknown P kwargs { byte_arrays := 0, utf8_strings := 0 } hkw
    have hall : ∀ m : Message, Message_get_args_list P m [] kwargs = .error e := by
      intro m
      simp only [Message_get_args_list, List.length_nil, ne_eq, not_true_eq_false, if_false,
        he]
    exact ⟨e, hall self, hinv, hall, fun hne => absurd rfl hne⟩
  · have hlen : args.length ≠ 0 := by
      intro hl
      exact hargs (List.length_eq_zero.mp hl)
    have hall : ∀ m : Message,
        Message_get_args_list P m args kwargs = .error .TypeError_positional := by
      intro m
      simp only [Message_get_args_list, hlen, ne_eq, not_false_eq_true, if_true]
    exact ⟨_, hall self, rfl, hall, fun _ => rfl⟩

/-- Witness of C17: the unknown flag `integer_bytes`, on a message whose body
cannot be decoded. -/
theorem unknown_flag_rejected_witness :
    ∃ e, Message_get_args_list lp64 { msg := some [.other 63] } []
        [("integer_bytes", .int 1)] = .error e
      ∧ e.is_invalid_argument = true
      ∧ (∀ other : Message, Message_get_args_list lp64 other []
        [("integer_bytes", .int 1)] = .error e)
      ∧ (([] : List PyArg) ≠ [] → e = .TypeError_positional) :=
  unknown_flag_rejected lp64 { msg := some [.other 63] } [] [("integer_bytes", .int 1)]
    (Or.inr ⟨("integer_bytes", .int 1), by simp, by decide, by decide⟩)

/-! ## C18: propagation of errors -/

/-- C18: for a well-formed body and an accepted policy, a call of
`Message_get_args_list` fails exactly when some element of the body tree (at
any depth inside arrays, structs, dictionary keys or values, or variants)
raises an error, and then with the error of the first such element in
left-to-right depth-first order, unchanged; it returns a list exactly when
no element of the tree raises an error. -/
theorem first_error_propagates (P : Platform) (body : List Wire)
    (kwargs : List (String × PyArg)) (opts : Message_get_args_options)
    (hpolicy : PyArg_ParseTupleAndKeywords P kwargs { byte_arrays := 0, utf8_strings := 0 }
      = .ok opts)
    (hwf : Wire.well_formed_list body = true) :
    (∀ e, Message_get_args_list P { msg := some body } [] kwargs = .error e
      ↔ (Wire.elements_list body).findSome? (leaf_error P opts) = some e)
    ∧ (∀ e, Message_get_args_list P { msg := some body } [] kwargs = .error e
      ↔ ∃ pre w post, Wire.elements_list body = pre ++ w :: post
          ∧ (∀ x ∈ pre, leaf_error P opts x = none) ∧ leaf_error P opts w = some e)
    ∧ ((∃ items, Message_get_args_list P { msg := some body } [] kwargs = .ok items)
      ↔ ∀ w ∈ Wire.elements_list body, leaf_error P opts w = none) := by
  have key : error_of (Message_get_args_list P { msg := some body } [] kwargs)
      = (Wire.elements_list body).findSome? (leaf_error P opts) := by
    rw [get_args_list_eq P body kwargs opts hpolicy]
    cases body with
    | nil => rfl
    | cons w rest =>
      have hw : w.well_formed = true := by
        simp only [Wire.well_formed_list, Bool.and_eq_true] at hwf
        exact hwf.1
      rw [iter_init_cons w rest (arg_type_ne_invalid_of_well_formed w hw)]
      exact error_of_append_all P opts (w :: rest) [] hwf
  refine ⟨?_, ?_, ?_⟩
  · intro e
    rw [← key, error_of_error]
  · intro e
    rw [← error_of_error, key, List.findSome?_eq_some_iff]
    constructor
    · rintro ⟨pre, w, post, h1, h2, h3⟩
      exact ⟨pre, w, post, h1, h3, h2⟩
    · rintro ⟨pre, w, post, h1, h2, h3⟩
      exact ⟨pre, w, post, h1, h3, h2⟩
  · rw [← error_of_ok, key, List.findSome?_eq_none_iff]

/-- Witness of C18: a body whose second argument holds, two levels down, a
64-bit integer that the platform does not support, before an element of
unknown type. -/
theorem first_error_propagates_witness :
    (∀ e, Message_get_args_list ilp32_no_int64
        { msg := some [.byte 1, .array ['(', 'v', 'i', ')']
          [.struct [.variant (.int64 5), .int32 2]], .other 63] } [] [] = .error e
      ↔ (Wire.elements_list [.byte 1, .array ['(', 'v', 'i', ')']
          [.struct [.variant (.int64 5), .int32 2]], .other 63]).findSome?
            (leaf_error ilp32_no_int64 default_opts) = some e)
    ∧ (Wire.elements_list [.byte 1, .array ['(', 'v', 'i', ')']
          [.struct [.variant (.int64 5), .int32 2]], .other 63]).findSome?
            (leaf_error ilp32_no_int64 default_opts) = some .RuntimeError_int64 :=
  ⟨(first_error_propagates ilp32_no_int64 [.byte 1, .array ['(', 'v', 'i', ')']
      [.struct [.variant (.int64 5), .int32 2]], .other 63] [] default_opts
      (by decide) (by decide)).1, by decide⟩

/-! ## C19: who moves the cursor -/

/-- C19: a call of `_message_iter_get_pyobject`, successful or not, leaves
the cursor it was given where it was. The callers move it:
`_message_iter_append_all_to_list` ends with its cursor past exactly the
elements whose values it appended, one step per element decoded, at the end
of the container when it succeeds and on the failing element when it fails;
`_message_iter_get_dict` moves the cursor of an entry once, past a key that
decoded, and ends with the cursor over the entries past exactly the entries
whose key and value decoded. -/
theorem cursor_moved_by_caller_only (P : Platform) (opts : Message_get_args_options)
    (iter : DBusMessageIter) (variant_level : Nat) (list : List PyObj)
    (ret : List (PyObj × PyObj)) :
    (_message_iter_get_pyobject_cursor P opts iter variant_level).2 = iter
    ∧ (∃ items,
        (_message_iter_append_all_to_list_cursor P opts iter list).2.1 = list ++ items
        ∧ (_message_iter_append_all_to_list_cursor P opts iter list).2.2
            = iter.drop items.length
        ∧ List.Forall₂ (fun w v => _message_iter_get_pyobject P opts w 0 = .ok v)
            (iter.take items.length) items
        ∧ (((_message_iter_append_all_to_list_cursor P opts iter list).1 = .ok ()
            ∧ dbus_message_iter_get_arg_type (iter.drop items.length) = DBUS_TYPE_INVALID)
          ∨ ∃ e, (_message_iter_append_all_to_list_cursor P opts iter list).1 = .error e
            ∧ (_message_iter_get_pyobject_cursor P opts (iter.drop items.length) 0).1
              = .error e))
    ∧ _message_iter_append_all_to_list P opts iter list
        = (match (_message_iter_append_all_to_list_cursor P opts iter list).1 with
          | .error e => .error e
          | .ok _ => .ok (_message_iter_append_all_to_list_cursor P opts iter list).2.1)
    ∧ (_message_iter_get_dict_kv_cursor P opts iter).2
        = (match (_message_iter_get_pyobject_cursor P opts iter 0).1 with
          | .error _ => iter
          | .ok _ => dbus_message_iter_next iter)
    ∧ (∃ n,
        (_message_iter_get_dict_entries_cursor P opts iter ret).2.2 = iter.drop n
        ∧ (∀ i, i < n → ∃ kv, (_message_iter_get_dict_kv_cursor P opts
            (dbus_message_iter_recurse (iter.drop i))).1 = .ok kv)
        ∧ (((_message_iter_get_dict_entries_cursor P opts iter ret).1 = .ok ()
            ∧ dbus_message_iter_get_arg_type (iter.drop n) ≠ DBUS_TYPE_DICT_ENTRY)
          ∨ ∃ e, (_message_iter_get_dict_entries_cursor P opts iter ret).1 = .error e
            ∧ (_message_iter_get_dict_kv_cursor P opts
                (dbus_message_iter_recurse (iter.drop n))).1 = .error e)) := by
  refine ⟨?_, ?_, ?_, ?_, ?_⟩
  · exact get_pyobject_cursor_snd P opts iter variant_level
  · exact append_all_cursor_state P opts iter list
  · exact append_all_cursor_result P opts iter list
  · exact get_dict_kv_cursor_snd P opts iter
  · exact get_dict_entries_cursor_state P opts iter ret

/-- Witness of C19: a cursor on a byte followed by an element of unknown
type. The decoder leaves it in place; the loop appends the byte, moves once
and fails on the second element, where the cursor stays. -/
theorem cursor_moved_by_caller_only_witness :
    (_message_iter_get_pyobject_cursor lp64 default_opts [.byte 1, .other 63] 2).2
        = [.byte 1, .other 63]
    ∧ _message_iter_append_all_to_list_cursor lp64 default_opts [.byte 1, .other 63] []
        = (.error (.TypeError_unknown_type 63), [.scalar .ByteType (.int 1) 0],
            [.other 63])
    ∧ _message_iter_get_dict_entries_cursor lp64 default_opts
          [.dict_entry (.byte 1) (.byte 2), .dict_entry (.byte 1) (.other 63)] []
        = (.error (.TypeError_unknown_type 63),
            [(.scalar .ByteType (.int 1) 0, .scalar .ByteType (.int 2) 0)],
            [.dict_entry (.byte 1) (.other 63)]) := by
  refine ⟨(cursor_moved_by_caller_only lp64 default_opts [.byte 1, .other 63] 2 [] []).1,
    ?_, ?_⟩
  · have h1 : _message_iter_get_pyobject lp64 default_opts (.byte 1) 0
        = .ok (.scalar .ByteType (.int 1) 0) := by decide
    have h2 : _message_iter_get_pyobject lp64 default_opts (.other 63) 0
        = .error (.TypeError_unknown_type 63) := by decide
    rw [_message_iter_append_all_to_list_cursor]
    simp only [dbus_message_iter_get_arg_type, Wire.arg_type, DBUS_TYPE_BYTE,
      DBUS_TYPE_INVALID, _message_iter_get_pyobject_cursor, dbus_message_iter_next, h1,
      OfNat.ofNat_ne_zero, if_false, List.nil_append]
    rw [_message_iter_append_all_to_list_cursor]
    simp [dbus_message_iter_get_arg_type, Wire.arg_type, DBUS_TYPE_INVALID,
      _message_iter_get_pyobject_cursor, h2]
  · have h1 : (_message_iter_get_dict_kv_cursor lp64 default_opts [.byte 1, .byte 2]).1
        = .ok (.scalar .ByteType (.int 1) 0, .scalar .ByteType (.int 2) 0) := by decide
    have h2 : (_message_iter_get_dict_kv_cursor lp64 default_opts [.byte 1, .other 63]).1
        = .error (.TypeError_unknown_type 63) := by decide
    rw [_message_iter_get_dict_entries_cursor]
    simp only [dbus_message_iter_get_arg_type, Wire.arg_type, dbus_message_iter_next,
      if_true, dbus_message_iter_recurse, h1]
    rw [_message_iter_get_dict_entries_cursor]
    simp only [dbus_message_iter_get_arg_type, Wire.arg_type, dbus_message_iter_next,
      if_true, dbus_message_iter_recurse, h2]
    rfl

/-! ## C20: the policy at every nesting position -/

/-- C20: the flag `byte_arrays` is read once from the keywords of
`Message_get_args_list` and the same options reach every call of the decoder.
For a successful call on a well-formed body, every element at a position
inside an argument (reached through array elements, struct members, values
of dictionary entries that no later entry replaces, and variants) is decoded
with these options, at the level of its position, and the list returned holds
its value at that position; so a byte array at such a position is there as
one `ByteArray` when the flag is set, holding its bytes (the word None when
it has no bytes), and as the sequence of its byte values when the flag is
not set.  An array of bytes decodes to one `ByteArray` or to a sequence by
the flag alone, at every level; every byte array in the list returned has
that one representation; a value under variants is decoded by the same
call. -/
theorem byte_array_policy_everywhere (P : Platform) (body : List Wire)
    (kwargs : List (String × PyArg)) (opts : Message_get_args_options)
    (hpolicy : PyArg_ParseTupleAndKeywords P kwargs { byte_arrays := 0, utf8_strings := 0 }
      = .ok opts) :
    (opts.byte_arrays = match kwargs.lookup "byte_arrays" with
      | some (.int v) => v
      | _ => 0)
    ∧ (∀ items, Message_get_args_list P { msg := some body } [] kwargs = .ok items →
        Wire.well_formed_list body = true →
        ∀ (i : Nat) (e : Wire) (p : List Step) (a : Wire),
          body[i]? = some e → Wire.at_path p e = some a → path_ok P opts p e →
          ∃ x ra, items[i]? = some x ∧ PyObj.at_path p x = some ra
            ∧ _message_iter_get_pyobject P opts a (path_level p 0) = .ok ra)
    ∧ (∀ items, Message_get_args_list P { msg := some body } [] kwargs = .ok items →
        Wire.well_formed_list body = true →
        ∀ (i : Nat) (e : Wire) (p : List Step) (elem_sig : List Char) (bs : List Nat),
          body[i]? = some e →
          Wire.at_path p e = some (.array elem_sig (bs.map Wire.byte)) →
          path_ok P opts p e →
          dbus_message_iter_get_element_type elem_sig = DBUS_TYPE_BYTE →
          (opts.byte_arrays ≠ 0 →
            ∃ x, items[i]? = some x
              ∧ PyObj.at_path p x = some (.scalar .ByteArrayType
                  (if bs = [] then .str [78, 111, 110, 101] else .str bs) (path_level p 0)))
          ∧ (opts.byte_arrays = 0 → 32 ≤ P.long_bits → (∀ b ∈ bs, b < 256) →
            ∃ x, items[i]? = some x
              ∧ PyObj.at_path p x = some (.Array
                  (bs.map (fun (b : Nat) => PyObj.scalar .ByteType (.int (b : Int)) 0))
                  elem_sig (path_level p 0))))
    ∧ (∀ (elem_sig : List Char) (elems : List Wire) (d : Nat),
        dbus_message_iter_get_element_type elem_sig = DBUS_TYPE_BYTE →
        _message_iter_get_pyobject P opts (.array elem_sig elems) d
          = if opts.byte_arrays ≠ 0 then
              .ok (.scalar .ByteArrayType
                (str_new (Py_BuildValue_s_hash (dbus_message_iter_get_fixed_array elems).1
                  (dbus_message_iter_get_fixed_array elems).2)) d)
            else
              match _message_iter_append_all_to_list P opts elems [] with
              | .error e => .error e
              | .ok items => .ok (.Array items elem_sig d))
    ∧ (∀ items, Message_get_args_list P { msg := some body } [] kwargs = .ok items →
        PyObj.byte_arrays_as_list (decide (opts.byte_arrays ≠ 0)) items = true)
    ∧ (∀ (n : Nat) (w : Wire) (d : Nat),
        _message_iter_get_pyobject P opts (wrap_variants n w) d
          = _message_iter_get_pyobject P opts w (d + n)) := by
  have hpos : ∀ items, Message_get_args_list P { msg := some body } [] kwargs = .ok items →
      Wire.well_formed_list body = true →
      ∀ (i : Nat) (e : Wire) (p : List Step) (a : Wire),
        body[i]? = some e → Wire.at_path p e = some a → path_ok P opts p e →
        ∃ x ra, items[i]? = some x ∧ PyObj.at_path p x = some ra
          ∧ _message_iter_get_pyobject P opts a (path_level p 0) = .ok ra := by
    intro items hitems hwf i e p a hi ha hp
    have hforall := get_args_list_items P body kwargs opts hpolicy hwf items hitems
    obtain ⟨x, hx, hdec⟩ := (forall₂_positions _ _ _ hforall).2 i e hi
    obtain ⟨ra, hra, hdeca⟩ := decoded_at_path P opts p e 0 x a
      (well_formed_list_mem body hwf e (List.getElem?_mem hi)) hdec ha hp
    exact ⟨x, ra, hx, hra, hdeca⟩
  refine ⟨parse_byte_arrays P kwargs opts hpolicy, hpos, ?_, ?_, ?_,
    fun n w d => get_pyobject_wrap_variants P opts n w d⟩
  · intro items hitems hwf i e p elem_sig bs hi ha hp hbyte
    obtain ⟨x, ra, hx, hra, hdec⟩ := hpos items hitems hwf i e p _ hi ha hp
    refine ⟨fun hset => ⟨x, hx, ?_⟩, fun hunset hlong hbs => ⟨x, hx, ?_⟩⟩
    · rw [get_pyobject_byte_array_set P opts hset elem_sig hbyte bs] at hdec
      simp only [Except.ok.injEq] at hdec
      rw [hra, hdec]
    · rw [get_pyobject_byte_array_unset P hlong opts hunset elem_sig hbyte bs hbs] at hdec
      simp only [Except.ok.injEq] at hdec
      rw [hra, hdec]
  · intro elem_sig elems d hbyte
    have hnd : dbus_message_iter_get_element_type elem_sig ≠ DBUS_TYPE_DICT_ENTRY := by
      rw [hbyte]; decide
    rw [get_pyobject_array, if_neg hnd]
    by_cases hb : opts.byte_arrays ≠ 0
    · rw [if_pos ⟨hb, hbyte⟩, if_pos hb]
    · rw [if_neg (fun h => hb h.1), if_neg hb]
  · intro items hitems
    rw [get_args_list_eq P body kwargs opts hpolicy] at hitems
    split at hitems
    · exact byte_arrays_as_append_all P opts body [] items hitems rfl
    · simp only [Except.ok.injEq] at hitems
      subst hitems
      rfl

/-- Witness of C20: with the flag set, the byte array 4, 5 that is the value
of a dictionary entry, the dictionary standing in a variant that is the
member of a struct, is in the list returned as one `ByteArray` at that
position. -/
theorem byte_array_policy_everywhere_witness :
    ∃ x, [PyObj.Struct [.Dict [(.scalar .ByteType (.int 7) 0,
              .scalar .ByteArrayType (.str [4, 5]) 0)] ['y', 'a', 'y'] 1] 0,
          .Array [.scalar .ByteArrayType (.str [3]) 0] ['a', 'y'] 0,
          .scalar .ByteArrayType (.str [78, 111, 110, 101]) 2][0]? = some x
      ∧ PyObj.at_path [.index 0, .variant, .value 0 (.scalar .ByteType (.int 7) 0)] x
          = some (.scalar .ByteArrayType (.str [4, 5]) 0) :=
  ((byte_array_policy_everywhere lp64
    [.struct [.variant (.array ['{', 'y', 'a', 'y', '}']
        [.dict_entry (.byte 7) (.array ['y'] [.byte 4, .byte 5])])],
     .array ['a', 'y'] [.array ['y'] [.byte 3]],
     .variant (.variant (.array ['y'] []))]
    [("byte_arrays", .int 1)] { byte_arrays := 1, utf8_strings := 0 } (by decide)).2.2.1
    _ (by decide) (by decide) 0
    (.struct [.variant (.array ['{', 'y', 'a', 'y', '}']
        [.dict_entry (.byte 7) (.array ['y'] [.byte 4, .byte 5])])])
    [.index 0, .variant, .value 0 (.scalar .ByteType (.int 7) 0)] ['y'] [4, 5] rfl rfl
    (by
      refine ⟨trivial, fun c hc => ?_⟩
      simp only [Wire.child, List.getElem?_cons_zero, Option.some.injEq] at hc
      subst hc
      refine ⟨trivial, fun c hc => ?_⟩
      simp only [Wire.child, Option.some.injEq] at hc
      subst hc
      refine ⟨⟨by decide, ⟨_, _, rfl, rfl⟩, by decide, ?_⟩, fun _ _ => trivial⟩
      intro j k v key2 hj hjj
      cases j with
      | zero => omega
      | succ j => simp at hjj)
    (by decide)).1 (by decide)

end DBusPython
